import Mathlib

/-!
# Floating Sandbox: gadget, orchestration and fish state machines

A shallow embedding of parts of the Floating Sandbox simulation core:

* `Physics::ImpactBombGadget::Update` and `Upload` (Game/ImpactBombGadget.cpp),
* the Thanos-snap, tsunami notification and daylight cycle state machines of
  `GameController` (Game/GameController_StateMachines.cpp),
* `Physics::Fishes::Update` (Game/Fishes.cpp),
* the mechanical sub-step arithmetic of `GameParameters` (Game/GameParameters.h),
* `Buffer2D` (GameCore/Buffer2D.h) and `ParameterSmoother`
  (GameCore/ParameterSmoother.h).

Conventions.

* C++ `float` quantities are embedded as exact rationals (`ℚ`); comparisons and
  arithmetic are the exact ones, rounding is not modelled.
* Mutable objects become explicit records; a member function becomes a function
  from the old record to the new one, together with its return value.
* Calls that leave the object (to the physics handler, the event dispatcher, the
  world) are recorded, in program order, in a list of calls.
* Collaborators whose code is not part of the translated sources (ship points and
  springs, the world, the random engine) are parameters of the functions.
* C++ `int` quantities are embedded as mathematical integers (`Int`); an array is
  the content of its cells by linear index together with its number of cells, and
  an access outside the array, like a failing assertion, gives no result (`none`).
-/

namespace FloatingSandbox

/-! ## Common types -/

/-- Two-component vector `vec2f`, over exact rationals. -/
structure vec2f where
  x : ℚ
  y : ℚ
deriving DecidableEq, Repr

namespace vec2f

/-- Component-wise difference, `operator-`. -/
def sub (a b : vec2f) : vec2f := ⟨a.x - b.x, a.y - b.y⟩

/-- Scaling by a scalar, `operator*(float)`. -/
def scale (a : vec2f) (k : ℚ) : vec2f := ⟨a.x * k, a.y * k⟩

/-- Component-wise sum, `operator+`. -/
def add (a b : vec2f) : vec2f := ⟨a.x + b.x, a.y + b.y⟩

/-- Division by a scalar, `operator/(float)`. -/
def div (a : vec2f) (k : ℚ) : vec2f := ⟨a.x / k, a.y / k⟩

end vec2f

/-- The fields of `GameParameters` read by the translated code. -/
structure GameParameters where
  BombBlastRadius : ℚ
  BombBlastHeat : ℚ
  BombBlastForceAdjustment : ℚ
  IsUltraViolentMode : Bool
  NumberOfFishes : Nat
  NumMechanicalDynamicsIterationsAdjustment : ℚ
deriving DecidableEq, Repr

namespace GameParameters

/-- `SimulationStepTimeDuration<float> = 0.02f` (GameParameters.h:26). -/
def SimulationStepTimeDuration : ℚ := 2 / 100

/-- `BombsTemperatureTrigger = 373.15f`, 100C (GameParameters.h:361). -/
def BombsTemperatureTrigger : ℚ := 37315 / 100

/-- `MaxWorldWidth = 5000.0f` (GameParameters.h:387). -/
def MaxWorldWidth : ℚ := 5000

/-- `HalfMaxWorldWidth = MaxWorldWidth / 2.0f` (GameParameters.h:388). -/
def HalfMaxWorldWidth : ℚ := MaxWorldWidth / 2

/-- `MaxThanosSnaps = 8u` (GameParameters.h:398). -/
def MaxThanosSnaps : Nat := 8

/-- A concrete parameter set, used to evaluate the definitions. -/
def sample : GameParameters :=
  { BombBlastRadius := 2, BombBlastHeat := 100, BombBlastForceAdjustment := 1,
    IsUltraViolentMode := false, NumberOfFishes := 3,
    NumMechanicalDynamicsIterationsAdjustment := 1 }

/-- `MinNumMechanicalDynamicsIterationsAdjustment = 0.5f` (GameParameters.h:89). -/
def MinNumMechanicalDynamicsIterationsAdjustment : ℚ := 5 / 10

/-- `MaxNumMechanicalDynamicsIterationsAdjustment = 20.0f` (GameParameters.h:90). -/
def MaxNumMechanicalDynamicsIterationsAdjustment : ℚ := 20

/-- `BasisNumMechanicalDynamicsIterations = 24` (GameParameters.h:413). -/
def BasisNumMechanicalDynamicsIterations : Nat := 24

/-- `NumMechanicalDynamicsIterations<float>()` (GameParameters.h:92-98). -/
def NumMechanicalDynamicsIterations (gameParameters : GameParameters) : ℚ :=
  (BasisNumMechanicalDynamicsIterations : ℚ)
    * gameParameters.NumMechanicalDynamicsIterationsAdjustment

/-- The static `MechanicalSimulationStepTimeDuration<float>(numMechanicalDynamicsIterations)`
(GameParameters.h:34-38). -/
def MechanicalSimulationStepTimeDurationFor (numMechanicalDynamicsIterations : ℚ) : ℚ :=
  SimulationStepTimeDuration / numMechanicalDynamicsIterations

/-- The member `MechanicalSimulationStepTimeDuration<float>()` (GameParameters.h:28-32). -/
def MechanicalSimulationStepTimeDuration (gameParameters : GameParameters) : ℚ :=
  MechanicalSimulationStepTimeDurationFor (NumMechanicalDynamicsIterations gameParameters)

end GameParameters

/-! ## Physics::ImpactBombGadget -/

namespace Physics

abbrev ElementIndex := Nat

abbrev PlaneId := Nat

/-- The gadget type tag passed to `OnBombExplosion`. -/
inductive GadgetType
  | ImpactBomb
deriving DecidableEq, Repr

/-- The explosion type tag passed to `StartExplosion`. -/
inductive ExplosionType
  | Deflagration
deriving DecidableEq, Repr

/-- `ImpactBombGadget::State`. -/
inductive ImpactBombGadget.State
  | Idle
  | TriggeringExplosion
  | Exploding
  | Expired
deriving DecidableEq, Repr

/-- The mutable members of an `ImpactBombGadget`: the attached spring of the
`Gadget` base (absent once detached), `mState` and `mExplosionFadeoutCounter`. -/
structure ImpactBombGadget where
  mAttachedSpringIndex : Option ElementIndex
  mState : ImpactBombGadget.State
  mExplosionFadeoutCounter : Nat
deriving DecidableEq, Repr

/-- What `Update` reads from the ship and the world: point temperatures, spring
endpoints, and the gadget's plane and position (as the `Gadget` base computes
them from the gadget at the time of the call). -/
structure ShipView where
  GetTemperature : ElementIndex → ℚ
  GetEndpointAIndex : ElementIndex → ElementIndex
  GetEndpointBIndex : ElementIndex → ElementIndex
  GetPlaneId : ImpactBombGadget → PlaneId
  GetPosition : ImpactBombGadget → vec2f
  IsUnderwater : vec2f → Bool

/-- The arguments of one `Update` call, with the ship as it is at that call. -/
structure UpdateArgs where
  ship : ShipView
  currentSimulationTime : ℚ
  gameParameters : GameParameters

/-- The calls `Update` makes, in program order. -/
inductive Call
  | DetachIfAttached
  | StartExplosion (currentSimulationTime : ℚ) (planeId : PlaneId) (centerPosition : vec2f)
      (blastRadius blastStrength blastHeat : ℚ) (explosionType : ExplosionType)
      (gameParameters : GameParameters)
  | OnBombExplosion (gadgetType : GadgetType) (isUnderwater : Bool) (size : Nat)
deriving DecidableEq, Repr

/-- Whether a call is `IShipPhysicsHandler::StartExplosion`. -/
def Call.isStartExplosion : Call → Bool
  | .StartExplosion .. => true
  | _ => false

/-- Whether a call is `GameEventDispatcher::OnBombExplosion`. -/
def Call.isOnBombExplosion : Call → Bool
  | .OnBombExplosion .. => true
  | _ => false

/-- The blast radius, strength and heat passed by a `StartExplosion` call. -/
def Call.blast : Call → Option (ℚ × ℚ × ℚ)
  | .StartExplosion _ _ _ blastRadius blastStrength blastHeat _ _ =>
    some (blastRadius, blastStrength, blastHeat)
  | _ => none

/-- The return value of `Update`, the gadget after the call, and the calls made. -/
structure UpdateResult where
  result : Bool
  gadget : ImpactBombGadget
  calls : List Call

namespace ImpactBombGadget

/-- The constructor (ImpactBombGadget.cpp:12-32): attached to `springIndex`,
`mState(State::Idle)`, `mExplosionFadeoutCounter(0u)`. -/
def new (springIndex : ElementIndex) : ImpactBombGadget :=
  { mAttachedSpringIndex := some springIndex, mState := .Idle, mExplosionFadeoutCounter := 0 }

/-- Modelled from the spec: `Gadget::GetAttachedSpringIndex` of the absent `Gadget`
base class, "a presence check ... returning an optional". -/
def GetAttachedSpringIndex (g : ImpactBombGadget) : Option ElementIndex :=
  g.mAttachedSpringIndex

/-- Modelled from the spec: `Gadget::DetachIfAttached` of the absent `Gadget` base
class; the gadget is "attached to a spring index (until detonation, when it
detaches)". -/
def DetachIfAttached (g : ImpactBombGadget) : ImpactBombGadget :=
  { g with mAttachedSpringIndex := none }

/-- The local `blastRadius` (ImpactBombGadget.cpp:70-72). -/
def blastRadius (gameParameters : GameParameters) : ℚ :=
  gameParameters.BombBlastRadius * (if gameParameters.IsUltraViolentMode then 10 else 1)

/-- The local `blastStrength` (ImpactBombGadget.cpp:75-77). -/
def blastStrength (gameParameters : GameParameters) : ℚ :=
  60 * gameParameters.BombBlastForceAdjustment

/-- The local `blastHeat` (ImpactBombGadget.cpp:80-82). -/
def blastHeat (gameParameters : GameParameters) : ℚ :=
  gameParameters.BombBlastHeat * (12 / 10)
    * (if gameParameters.IsUltraViolentMode then 10 else 1)

/-- `ImpactBombGadget::Update` (ImpactBombGadget.cpp:34-128).
`ExplosionFadeoutStepsCount` is a class constant declared in the absent header and
is taken as a parameter. The counter is only ever compared against it right after
an increment from a value below it, so it stays within the constant's range. -/
def Update (ExplosionFadeoutStepsCount : Nat) (a : UpdateArgs) (g : ImpactBombGadget) :
    UpdateResult :=
  match g.mState with
  | .Idle =>
    match GetAttachedSpringIndex g with
    | some springIndex =>
      if a.ship.GetTemperature (a.ship.GetEndpointAIndex springIndex)
            > GameParameters.BombsTemperatureTrigger
          ∨ a.ship.GetTemperature (a.ship.GetEndpointBIndex springIndex)
            > GameParameters.BombsTemperatureTrigger then
        { result := true, gadget := { g with mState := .TriggeringExplosion }, calls := [] }
      else
        { result := true, gadget := g, calls := [] }
    | none => { result := true, gadget := g, calls := [] }
  | .TriggeringExplosion =>
    let g1 := DetachIfAttached g
    { result := true
      gadget := { g1 with mState := .Exploding }
      calls :=
        [ Call.DetachIfAttached,
          Call.StartExplosion a.currentSimulationTime (a.ship.GetPlaneId g1)
            (a.ship.GetPosition g1) (blastRadius a.gameParameters)
            (blastStrength a.gameParameters) (blastHeat a.gameParameters)
            ExplosionType.Deflagration a.gameParameters,
          Call.OnBombExplosion GadgetType.ImpactBomb
            (a.ship.IsUnderwater (a.ship.GetPosition g1)) 1 ] }
  | .Exploding =>
    let counter := g.mExplosionFadeoutCounter + 1
    if counter ≥ ExplosionFadeoutStepsCount then
      { result := true
        gadget := { g with mExplosionFadeoutCounter := counter, mState := .Expired }
        calls := [] }
    else
      { result := true, gadget := { g with mExplosionFadeoutCounter := counter }, calls := [] }
  | .Expired => { result := false, gadget := g, calls := [] }

/-- The gadget after a sequence of `Update` calls, one per element of `args`. -/
def runUpdates (N : Nat) : ImpactBombGadget → List UpdateArgs → ImpactBombGadget
  | g, [] => g
  | g, a :: args => runUpdates N (Update N a g).gadget args

/-- The outcome of every call of a sequence of `Update` calls, in order. -/
def runTrace (N : Nat) : ImpactBombGadget → List UpdateArgs → List UpdateResult
  | _, [] => []
  | g, a :: args => Update N a g :: runTrace N (Update N a g).gadget args

/-- The states in which the calls of a sequence of `Update` calls are made. -/
def runStates (N : Nat) : ImpactBombGadget → List UpdateArgs → List State
  | _, [] => []
  | g, a :: args => g.mState :: runStates N (Update N a g).gadget args

/-- All the calls made by a sequence of `Update` calls, in program order. -/
def runCalls (N : Nat) : ImpactBombGadget → List UpdateArgs → List Call
  | _, [] => []
  | g, a :: args => (Update N a g).calls ++ runCalls N (Update N a g).gadget args

/-- Position of a state in the order Idle, TriggeringExplosion, Exploding, Expired. -/
def State.rank : State → Nat
  | .Idle => 0
  | .TriggeringExplosion => 1
  | .Exploding => 2
  | .Expired => 3

/-- The gadgets the program can produce with fade-out constant `N`: built by the
constructor, then updated, or detached from outside (when the spring goes away). -/
inductive Reachable (N : Nat) : ImpactBombGadget → Prop
  | ctor (springIndex : ElementIndex) : Reachable N (new springIndex)
  | update (a : UpdateArgs) (g : ImpactBombGadget) :
      Reachable N g → Reachable N (Update N a g).gadget
  | detach (g : ImpactBombGadget) : Reachable N g → Reachable N (DetachIfAttached g)

/-- What `Upload` reads from the `Gadget` base: the plane, the position and the two
rotation axes of the gadget. -/
structure GadgetView where
  GetPlaneId : ImpactBombGadget → PlaneId
  GetPosition : ImpactBombGadget → vec2f
  mRotationBaseAxis : ImpactBombGadget → vec2f
  GetRotationOffsetAxis : ImpactBombGadget → vec2f

/-- The call `UploadGenericMipMappedTextureRenderSpecification` that `Upload` makes on
the ship render context, for frame 0 of the ImpactBomb texture group. -/
structure UploadCall where
  planeId : PlaneId
  position : vec2f
  scale : ℚ
  rotationBaseAxis : vec2f
  rotationOffsetAxis : vec2f
  alpha : ℚ
deriving DecidableEq, Repr

/-- The gadget after `Upload` and the calls made. -/
structure UploadResult where
  gadget : ImpactBombGadget
  calls : List UploadCall

/-- The local `progress` of `Upload` in state Exploding (ImpactBombGadget.cpp:156-158). -/
def uploadProgress (ExplosionFadeoutStepsCount : Nat) (g : ImpactBombGadget) : ℚ :=
  ((g.mExplosionFadeoutCounter + 1 : Nat) : ℚ) / (ExplosionFadeoutStepsCount : ℚ)

/-- `ImpactBombGadget::Upload` (ImpactBombGadget.cpp:130-178), a `const` member. -/
def Upload (ExplosionFadeoutStepsCount : Nat) (view : GadgetView) (g : ImpactBombGadget) :
    UploadResult :=
  match g.mState with
  | .Idle | .TriggeringExplosion =>
    { gadget := g
      calls :=
        [{ planeId := view.GetPlaneId g, position := view.GetPosition g, scale := 1,
           rotationBaseAxis := view.mRotationBaseAxis g,
           rotationOffsetAxis := view.GetRotationOffsetAxis g, alpha := 1 }] }
  | .Exploding =>
    -- Calculate current progress
    let progress := uploadProgress ExplosionFadeoutStepsCount g
    { gadget := g
      calls :=
        [{ planeId := view.GetPlaneId g, position := view.GetPosition g, scale := 1,
           rotationBaseAxis := view.mRotationBaseAxis g,
           rotationOffsetAxis := view.GetRotationOffsetAxis g, alpha := 1 - progress }] }
  | .Expired =>
    -- No drawing
    { gadget := g, calls := [] }

/-- A view in which every gadget is at the origin of plane 0. -/
def sampleView : GadgetView :=
  { GetPlaneId := fun _ => 0, GetPosition := fun _ => ⟨0, 0⟩,
    mRotationBaseAxis := fun _ => ⟨0, 1⟩, GetRotationOffsetAxis := fun _ => ⟨0, 0⟩ }

/-- The same call arguments with `IsUltraViolentMode` set to `b`. -/
def withUltraViolentMode (a : UpdateArgs) (b : Bool) : UpdateArgs :=
  { a with gameParameters := { a.gameParameters with IsUltraViolentMode := b } }

/-- A ship in which every point has temperature `t`. -/
def uniformShip (t : ℚ) : ShipView :=
  { GetTemperature := fun _ => t
    GetEndpointAIndex := fun s => 2 * s
    GetEndpointBIndex := fun s => 2 * s + 1
    GetPlaneId := fun _ => 0
    GetPosition := fun _ => ⟨0, 0⟩
    IsUnderwater := fun _ => false }

/-- One `Update` call on a ship at uniform temperature `t`. -/
def argsAt (t : ℚ) (gameParameters : GameParameters) : UpdateArgs :=
  { ship := uniformShip t, currentSimulationTime := 0, gameParameters := gameParameters }

end ImpactBombGadget

end Physics

/-! ## GameController: Thanos snap state machines -/

/-- Modelled from the spec: the part of the absent `Physics::World` that the
silence gate uses, "a global silence flag" written by `SetSilence`. -/
structure World where
  silence : ℚ
deriving DecidableEq, Repr

/-- Modelled from the spec: `World::SetSilence` of the absent `Physics::World`,
which records the silence amount. -/
def World.SetSilence (_w : World) (silenceAmount : ℚ) : World :=
  { silence := silenceAmount }

/-- `GameController::ThanosSnapStateMachine` (GameController_StateMachines.cpp:169-180). -/
structure ThanosSnapStateMachine where
  CenterX : ℚ
  StartSimulationTimestamp : ℚ
deriving DecidableEq, Repr

/-- The calls the Thanos-snap code makes on the event dispatcher and the world. -/
inductive ControllerCall
  | OnSilenceStarted
  | SetSilence (silenceAmount : ℚ)
  | ApplyThanosSnap (centerX radius leftFrontX rightFrontX currentSimulationTime : ℚ)
      (gameParameters : GameParameters)
  | OnSilenceLifted
deriving DecidableEq, Repr

/-- Whether a call is `OnSilenceStarted`. -/
def ControllerCall.isOnSilenceStarted : ControllerCall → Bool
  | .OnSilenceStarted => true
  | _ => false

/-- Whether a call is `OnSilenceLifted`. -/
def ControllerCall.isOnSilenceLifted : ControllerCall → Bool
  | .OnSilenceLifted => true
  | _ => false

/-- Whether a call is `World::SetSilence`. -/
def ControllerCall.isSetSilence : ControllerCall → Bool
  | .SetSilence _ => true
  | _ => false

/-- Whether a call is `OnSilenceStarted`, `OnSilenceLifted` or `SetSilence`. -/
def ControllerCall.isSilenceCall (c : ControllerCall) : Bool :=
  c.isOnSilenceStarted || c.isOnSilenceLifted || c.isSetSilence

/-- The members of `GameController` that the state-machine code touches. The
tsunami and daylight state machines are kept abstract (types `T` and `D`). -/
structure GameController (T D : Type) where
  mGameParameters : GameParameters
  mWorld : World
  mTsunamiNotificationStateMachine : Option T
  mThanosSnapStateMachines : List ThanosSnapStateMachine
  mDayLightCycleStateMachine : Option D

/-- A controller after a member function, with the calls the function made. -/
structure ControllerResult (T D : Type) where
  controller : GameController T D
  calls : List ControllerCall

namespace GameController

variable {T D : Type}

/-- `GameController::StartThanosSnapStateMachine`
(GameController_StateMachines.cpp:187-218). -/
def StartThanosSnapStateMachine (x currentSimulationTime : ℚ) (gc : GameController T D) :
    ControllerResult T D :=
  if gc.mThanosSnapStateMachines.isEmpty then
    -- First Thanos snap: start silence, silence world
    { controller :=
        { gc with
          mWorld := gc.mWorld.SetSilence 1
          mThanosSnapStateMachines :=
            gc.mThanosSnapStateMachines ++ [⟨x, currentSimulationTime⟩] }
      calls := [ControllerCall.OnSilenceStarted, ControllerCall.SetSilence 1] }
  else
    -- If full, make room for this latest arrival
    let machines :=
      if gc.mThanosSnapStateMachines.length = GameParameters.MaxThanosSnaps then
        gc.mThanosSnapStateMachines.tail
      else
        gc.mThanosSnapStateMachines
    { controller := { gc with mThanosSnapStateMachines := machines ++ [⟨x, currentSimulationTime⟩] }
      calls := [] }

/-- `GameController::UpdateThanosSnapStateMachine`
(GameController_StateMachines.cpp:220-273): the returned `hasAppliedWave` and the
`ApplyThanosSnap` calls made, in order. -/
def UpdateThanosSnapStateMachine (mGameParameters : GameParameters)
    (stateMachine : ThanosSnapStateMachine) (currentSimulationTime : ℚ) :
    Bool × List ControllerCall :=
  let AdvancingWaveSpeed : ℚ := 25
  let SliceWidth : ℚ := AdvancingWaveSpeed * GameParameters.SimulationStepTimeDuration
  let radius : ℚ :=
    (currentSimulationTime - stateMachine.StartSimulationTimestamp) * AdvancingWaveSpeed
  let hasAppliedWave0 : Bool := false
  let calls0 : List ControllerCall := []
  let leftOuterEdgeX : ℚ := stateMachine.CenterX - radius
  let leftInnerEdgeX : ℚ := leftOuterEdgeX + SliceWidth / 2
  let afterLeft : Bool × List ControllerCall :=
    if leftInnerEdgeX > -GameParameters.HalfMaxWorldWidth then
      (true, calls0 ++ [ControllerCall.ApplyThanosSnap stateMachine.CenterX radius
        leftOuterEdgeX leftInnerEdgeX currentSimulationTime mGameParameters])
    else (hasAppliedWave0, calls0)
  let rightOuterEdgeX : ℚ := stateMachine.CenterX + radius
  let rightInnerEdgeX : ℚ := rightOuterEdgeX - SliceWidth / 2
  if rightInnerEdgeX < GameParameters.HalfMaxWorldWidth then
    (true, afterLeft.2 ++ [ControllerCall.ApplyThanosSnap stateMachine.CenterX radius
      rightInnerEdgeX rightOuterEdgeX currentSimulationTime mGameParameters])
  else afterLeft

/-- The Thanos-snap loop of `UpdateStateMachines`
(GameController_StateMachines.cpp:473-491). `visited` are the machines before the
iterator (already updated and kept), `remaining` the ones from the iterator on; the
collection at any time is `visited ++ remaining`. Returns the final collection, the
world and the calls made. -/
def updateThanosSnaps (mGameParameters : GameParameters) (currentSimulationTime : ℚ) :
    List ThanosSnapStateMachine → List ThanosSnapStateMachine → World →
      List ThanosSnapStateMachine × World × List ControllerCall
  | visited, [], world => (visited, world, [])
  | visited, machine :: remaining, world =>
    let updated := UpdateThanosSnapStateMachine mGameParameters machine currentSimulationTime
    if !updated.1 then
      -- erase(it): the collection is now visited ++ remaining
      if (visited ++ remaining).isEmpty then
        -- this was the last one: lift silence on world, lift silence
        let rest := updateThanosSnaps mGameParameters currentSimulationTime visited remaining
          (world.SetSilence 0)
        (rest.1, rest.2.1,
          updated.2 ++ [ControllerCall.SetSilence 0, ControllerCall.OnSilenceLifted] ++ rest.2.2)
      else
        let rest := updateThanosSnaps mGameParameters currentSimulationTime visited remaining
          world
        (rest.1, rest.2.1, updated.2 ++ rest.2.2)
    else
      let rest := updateThanosSnaps mGameParameters currentSimulationTime
        (visited ++ [machine]) remaining world
      (rest.1, rest.2.1, updated.2 ++ rest.2.2)

/-- `GameController::UpdateStateMachines`
(GameController_StateMachines.cpp:463-498). The `Update` functions of the tsunami
and daylight state machines are parameters; their calls on the render context and
the notification layer are not recorded. -/
def UpdateStateMachines (tsunamiUpdate : T → Bool × T) (dayLightUpdate : D → D)
    (currentSimulationTime : ℚ) (gc : GameController T D) : ControllerResult T D :=
  let tsunami : Option T :=
    match gc.mTsunamiNotificationStateMachine with
    | some machine =>
      if !(tsunamiUpdate machine).1 then none else some (tsunamiUpdate machine).2
    | none => none
  let thanos := updateThanosSnaps gc.mGameParameters currentSimulationTime []
    gc.mThanosSnapStateMachines gc.mWorld
  let dayLight : Option D :=
    match gc.mDayLightCycleStateMachine with
    | some machine => some (dayLightUpdate machine)
    | none => none
  { controller :=
      { gc with
        mWorld := thanos.2.1
        mTsunamiNotificationStateMachine := tsunami
        mThanosSnapStateMachines := thanos.1
        mDayLightCycleStateMachine := dayLight }
    calls := thanos.2.2 }

/-- `GameController::ResetStateMachines` (GameController_StateMachines.cpp:500-507). -/
def ResetStateMachines (gc : GameController T D) : ControllerResult T D :=
  { controller :=
      { gc with mTsunamiNotificationStateMachine := none, mThanosSnapStateMachines := [] }
    calls := [] }

/-- The operations on the state machines that a driver can invoke. -/
inductive Op
  | Start (x currentSimulationTime : ℚ)
  | Update (currentSimulationTime : ℚ)
  | Reset
deriving DecidableEq, Repr

/-- Whether an operation is `ResetStateMachines`. -/
def Op.isReset : Op → Bool
  | .Reset => true
  | _ => false

/-- One operation. -/
def step (tsunamiUpdate : T → Bool × T) (dayLightUpdate : D → D) (gc : GameController T D) :
    Op → ControllerResult T D
  | .Start x currentSimulationTime => StartThanosSnapStateMachine x currentSimulationTime gc
  | .Update currentSimulationTime =>
    UpdateStateMachines tsunamiUpdate dayLightUpdate currentSimulationTime gc
  | .Reset => ResetStateMachines gc

/-- A sequence of operations: the final controller and all the calls made. -/
def run (tsunamiUpdate : T → Bool × T) (dayLightUpdate : D → D) :
    GameController T D → List Op → ControllerResult T D
  | gc, [] => { controller := gc, calls := [] }
  | gc, op :: ops =>
    let first := step tsunamiUpdate dayLightUpdate gc op
    let rest := run tsunamiUpdate dayLightUpdate first.controller ops
    { controller := rest.controller, calls := first.calls ++ rest.calls }

/-- The initial state: no snaps, silence off. -/
def initial (gameParameters : GameParameters) : GameController T D :=
  { mGameParameters := gameParameters
    mWorld := { silence := 0 }
    mTsunamiNotificationStateMachine := none
    mThanosSnapStateMachines := []
    mDayLightCycleStateMachine := none }

/-- The silence gate: the world silence is 1 when a snap is active and 0 when none is. -/
def silenceMatches (gc : GameController T D) : Prop :=
  gc.mWorld.silence = if gc.mThanosSnapStateMachines = [] then 0 else 1

/-- The initial state with trivial tsunami and daylight machines. -/
def initialUnit : GameController Unit Unit := initial GameParameters.sample

/-- A sequence of operations with trivial tsunami and daylight machines. -/
def runUnit : GameController Unit Unit → List Op → ControllerResult Unit Unit :=
  run (fun u => (true, u)) (fun u => u)

end GameController

/-! ## Physics::Fishes -/

namespace Physics

/-- The fields of `FishSpecies` (declared in the absent species database header)
that Fishes.cpp reads. -/
structure FishSpecies where
  BasalSpeed : ℚ
  BasalDepth : ℚ
  TailX : ℚ
deriving DecidableEq, Repr

/-- The fields of `VisibleWorld` that Fishes.cpp mentions. -/
structure VisibleWorld where
  Center : vec2f
  Width : ℚ
  Height : ℚ
deriving DecidableEq, Repr

/-- `Fishes::StateType`. -/
inductive Fishes.StateType
  | Cruising
  | Turning
deriving DecidableEq, Repr

/-- The members of `Fishes::Fish` that Fishes.cpp reads or writes. `Species` is the
species the C++ pointer refers to (the database is constant). -/
structure Fishes.Fish where
  Species : FishSpecies
  RenderFrameIndex : Nat
  PersonalitySeed : ℚ
  CurrentState : Fishes.StateType
  CurrentPosition : vec2f
  TargetPosition : vec2f
  StartVelocity : vec2f
  CurrentVelocity : vec2f
  TargetVelocity : vec2f
  StartDirection : vec2f
  CurrentDirection : vec2f
  TargetDirection : vec2f
  TurningSimulationTimeStart : ℚ
  CurrentProgressPhase : ℚ
  CurrentProgress : ℚ
deriving DecidableEq, Repr

/-- The random engine singleton `GameRandomEngine::GetInstance()`, as a deterministic
generator over a state of type `σ`; each draw returns the value and the next state. -/
structure GameRandomEngine (σ : Type) where
  Choose : Nat → σ → Nat × σ
  GenerateNormalizedUniformReal : σ → ℚ × σ
  GenerateUniformReal : ℚ → ℚ → σ → ℚ × σ

/-- What `Fishes` is given and never changes: the species database, the random
engine, `vec2f::normalise` and the constant `Pi<float>` (both declared in absent
headers), and `std::sin`. -/
structure FishesContext (σ : Type) where
  mFishSpeciesDatabase : List FishSpecies
  random : GameRandomEngine σ
  normalise : vec2f → vec2f
  Pi : ℚ
  sin : ℚ → ℚ

/-- The state `Fishes::Update` works on: the pool `mFishes`, together with the two
pieces of global state it touches, the random engine's state and the function-local
static `todo` of `ChooseTargetPosition`. -/
structure Fishes (σ : Type) where
  mFishes : List Fishes.Fish
  randomState : σ
  todo : vec2f

namespace Fishes

variable {σ : Type}

/-- The initial value of the static `todo` (Fishes.cpp:257). -/
def todoInitial : vec2f := ⟨-20, -20⟩

/-- The constructor (Fishes.cpp:20-24): an empty pool. -/
def new (randomState : σ) : Fishes σ :=
  { mFishes := [], randomState := randomState, todo := todoInitial }

/-- `Fishes::ChooseTargetPosition` (Fishes.cpp:252-287): advances the static `todo`
and returns it; the result is the pair of the returned position and the new `todo`. -/
def ChooseTargetPosition (_fishSpecies : FishSpecies) (_visibleWorld : VisibleWorld)
    (todo : vec2f) : vec2f × vec2f :=
  let todo1 : vec2f :=
    if todo = ⟨0, 0⟩ then ⟨-20, -20⟩
    else if todo = ⟨-20, -20⟩ then ⟨0, -40⟩
    else if todo = ⟨0, -40⟩ then ⟨20, -20⟩
    else if todo = ⟨20, -20⟩ then ⟨0, 0⟩
    else todo
  (todo1, todo1)

/-- `Fishes::CalculateNewCruisingTargetPosition` (Fishes.cpp:289-306): returns
`ChooseTargetPosition(species, visibleWorld)` at its first statement. -/
def CalculateNewCruisingTargetPosition (_currentPosition : vec2f) (species : FishSpecies)
    (visibleWorld : VisibleWorld) (todo : vec2f) : vec2f × vec2f :=
  ChooseTargetPosition species visibleWorld todo

/-- `Fishes::CalculateVelocity` (Fishes.cpp:308-317). -/
def CalculateVelocity (normalise : vec2f → vec2f) (startPosition endPosition : vec2f)
    (species : FishSpecies) (velocityMultiplier personalitySeed : ℚ) : vec2f :=
  (normalise (endPosition.sub startPosition)).scale
    (species.BasalSpeed * velocityMultiplier * (7 / 10 + personalitySeed * (3 / 10)))

/-- Modelled from the spec: the constructor of `Fish`, declared in the absent
Fishes.h. The eight arguments of the `emplace_back` at Fishes.cpp:60-68 initialise
the members of the same meaning ("species reference", "personality seed (fixed at
creation)", "current/target position and velocity", the motion state); the members
that are not passed start from the initial velocity, its direction, and zero. -/
def Fish.new (normalise : vec2f → vec2f) (species : FishSpecies) (renderFrameIndex : Nat)
    (personalitySeed : ℚ) (initialState : StateType) (initialPosition targetPosition : vec2f)
    (targetVelocity : vec2f) (initialProgressPhase : ℚ) : Fish :=
  { Species := species
    RenderFrameIndex := renderFrameIndex
    PersonalitySeed := personalitySeed
    CurrentState := initialState
    CurrentPosition := initialPosition
    TargetPosition := targetPosition
    StartVelocity := targetVelocity
    CurrentVelocity := targetVelocity
    TargetVelocity := targetVelocity
    StartDirection := normalise targetVelocity
    CurrentDirection := normalise targetVelocity
    TargetDirection := normalise targetVelocity
    TurningSimulationTimeStart := 0
    CurrentProgressPhase := initialProgressPhase
    CurrentProgress := 0 }

/-- The body of the loop that adds one fish (Fishes.cpp:47-68). Indexing the species
database outside its bounds has no defined result: `none`. -/
def addFish (ctx : FishesContext σ) (visibleWorld : VisibleWorld) (fishes : Fishes σ) :
    Option (Fishes σ) :=
  -- Choose species
  let chosen := ctx.random.Choose ctx.mFishSpeciesDatabase.length fishes.randomState
  let speciesIndex := chosen.1
  match ctx.mFishSpeciesDatabase[speciesIndex]? with
  | none => none
  | some species =>
    -- Choose initial and target position
    let initial := ChooseTargetPosition species visibleWorld fishes.todo
    let initialPosition := initial.1
    let target := CalculateNewCruisingTargetPosition initialPosition species visibleWorld
      initial.2
    let targetPosition := target.1
    let seed := ctx.random.GenerateNormalizedUniformReal chosen.2
    let personalitySeed := seed.1
    let phase := ctx.random.GenerateUniformReal 0 (2 * ctx.Pi) seed.2
    some
      { mFishes :=
          fishes.mFishes ++
            [Fish.new ctx.normalise species speciesIndex personalitySeed StateType.Cruising
              initialPosition targetPosition
              (CalculateVelocity ctx.normalise initialPosition targetPosition species 1
                personalitySeed)
              phase.1]
        randomState := phase.2
        todo := target.2 }

/-- The loop `for (size_t f = mFishes.size(); f < NumberOfFishes; ++f)`
(Fishes.cpp:45-69), from the value `f` of the loop variable. -/
def addMissingFish (ctx : FishesContext σ) (visibleWorld : VisibleWorld)
    (NumberOfFishes : Nat) (f : Nat) (fishes : Fishes σ) : Option (Fishes σ) :=
  if f < NumberOfFishes then
    match addFish ctx visibleWorld fishes with
    | none => none
    | some fishes1 => addMissingFish ctx visibleWorld NumberOfFishes (f + 1) fishes1
  else
    some fishes
termination_by NumberOfFishes - f

/-- Step 1 of `Fishes::Update`, "Update number of fish" (Fishes.cpp:35-70). -/
def UpdateNumberOfFish (ctx : FishesContext σ) (gameParameters : GameParameters)
    (visibleWorld : VisibleWorld) (fishes : Fishes σ) : Option (Fishes σ) :=
  if fishes.mFishes.length > gameParameters.NumberOfFishes then
    -- Remove extra fish
    some { fishes with mFishes := fishes.mFishes.take gameParameters.NumberOfFishes }
  else
    -- Add missing fish
    addMissingFish ctx visibleWorld gameParameters.NumberOfFishes fishes.mFishes.length fishes

/-- `TurningThreshold = 7.0f` (Fishes.cpp:17). -/
def TurningThreshold : ℚ := 7

/-- `TurningTimeSeconds = 2.5f` (Fishes.cpp:18). -/
def TurningTimeSeconds : ℚ := 25 / 10

/-- `BasalSpeedToProgressPhaseSpeedFactor` (Fishes.cpp:76-78). -/
def BasalSpeedToProgressPhaseSpeedFactor : ℚ := 40 * GameParameters.SimulationStepTimeDuration

/-- The Cruising case of the per-fish `switch` (Fishes.cpp:84-127); returns the fish
and the static `todo` of `ChooseTargetPosition`. -/
def updateCruising (ctx : FishesContext σ) (currentSimulationTime : ℚ)
    (visibleWorld : VisibleWorld) (fish : Fish) (todo : vec2f) : Fish × vec2f :=
  -- Check whether we should start turning
  if |fish.CurrentPosition.x - fish.TargetPosition.x| < TurningThreshold then
    -- Transition to Turning: choose new target position
    let target := CalculateNewCruisingTargetPosition fish.CurrentPosition fish.Species
      visibleWorld todo
    -- Calculate new target velocity and direction
    let targetVelocity := CalculateVelocity ctx.normalise fish.CurrentPosition target.1
      fish.Species 1 fish.PersonalitySeed
    ({ fish with
        CurrentState := StateType.Turning
        TargetPosition := target.1
        StartVelocity := fish.CurrentVelocity
        TargetVelocity := targetVelocity
        StartDirection := fish.CurrentDirection
        TargetDirection := ctx.normalise targetVelocity
        TurningSimulationTimeStart := currentSimulationTime },
      target.2)
  else
    -- Normal dynamics: add velocity, with superimposed sin component
    ({ fish with
        CurrentPosition :=
          fish.CurrentPosition.add
            (fish.CurrentVelocity.add
              (((ctx.normalise fish.CurrentVelocity).scale
                (1 + ctx.sin (2 * fish.CurrentProgressPhase + ctx.Pi / 2))).div 100))
        CurrentProgressPhase :=
          fish.CurrentProgressPhase
            + fish.Species.BasalSpeed * BasalSpeedToProgressPhaseSpeedFactor },
      todo)

/-- The Turning case of the per-fish `switch` (Fishes.cpp:129-205). -/
def updateTurning (currentSimulationTime : ℚ) (fish : Fish) : Fish :=
  -- Check whether we should stop turning
  if currentSimulationTime - fish.TurningSimulationTimeStart ≥ TurningTimeSeconds then
    -- Transition to Cruising, reach all target quantities
    { fish with
      CurrentState := StateType.Cruising
      CurrentVelocity := fish.TargetVelocity
      CurrentDirection := fish.TargetDirection }
  else
    let elapsedFraction : ℚ :=
      (currentSimulationTime - fish.TurningSimulationTimeStart) / TurningTimeSeconds
    -- Velocity: towards zero during the first half, towards target during the second
    let velocity : vec2f :=
      if elapsedFraction ≤ 5 / 10 then
        fish.StartVelocity.scale (1 - elapsedFraction / (5 / 10))
      else
        ((fish.TargetVelocity.scale 1).div (5 / 10)).scale (elapsedFraction - 5 / 10)
    -- Direction Y: towards zero during an initial interval, towards target during a
    -- second interval
    let directionY : ℚ :=
      if elapsedFraction ≤ 30 / 100 then
        fish.StartDirection.y * (1 - elapsedFraction / (30 / 100))
      else if elapsedFraction ≥ 70 / 100 then
        fish.TargetDirection.y * 1 / (30 / 100) * (elapsedFraction - 70 / 100)
      else
        fish.CurrentDirection.y
    -- Direction X: towards target during a central interval
    let directionX : ℚ :=
      if elapsedFraction ≥ 15 / 100 ∧ elapsedFraction ≤ 85 / 100 then
        fish.StartDirection.x
          + (fish.TargetDirection.x - fish.StartDirection.x) / (70 / 100)
            * (elapsedFraction - 15 / 100)
      else
        fish.CurrentDirection.x
    -- Normal dynamics: add velocity, add basal speed to the progress phase
    { fish with
      CurrentVelocity := velocity
      CurrentDirection := ⟨directionX, directionY⟩
      CurrentPosition := fish.CurrentPosition.add velocity
      CurrentProgressPhase :=
        fish.CurrentProgressPhase
          + fish.Species.BasalSpeed * BasalSpeedToProgressPhaseSpeedFactor }

/-- The body of the loop over the fish (Fishes.cpp:80-213): the state machine of one
fish, then its `CurrentProgress`. -/
def updateFish (ctx : FishesContext σ) (currentSimulationTime : ℚ)
    (visibleWorld : VisibleWorld) (fish : Fish) (todo : vec2f) : Fish × vec2f :=
  let stepped : Fish × vec2f :=
    match fish.CurrentState with
    | StateType.Cruising => updateCruising ctx currentSimulationTime visibleWorld fish todo
    | StateType.Turning => (updateTurning currentSimulationTime fish, todo)
  ({ stepped.1 with CurrentProgress := ctx.sin stepped.1.CurrentProgressPhase }, stepped.2)

/-- The loop `for (auto & fish : mFishes)` (Fishes.cpp:80-213). -/
def updateAllFish (ctx : FishesContext σ) (currentSimulationTime : ℚ)
    (visibleWorld : VisibleWorld) : List Fish → vec2f → List Fish × vec2f
  | [], todo => ([], todo)
  | fish :: rest, todo =>
    let first := updateFish ctx currentSimulationTime visibleWorld fish todo
    let others := updateAllFish ctx currentSimulationTime visibleWorld rest first.2
    (first.1 :: others.1, others.2)

/-- `Fishes::Update` (Fishes.cpp:26-214): the number of fish, then every fish. -/
def Update (ctx : FishesContext σ) (currentSimulationTime : ℚ)
    (gameParameters : GameParameters) (visibleWorld : VisibleWorld) (fishes : Fishes σ) :
    Option (Fishes σ) :=
  match UpdateNumberOfFish ctx gameParameters visibleWorld fishes with
  | none => none
  | some resized =>
    let updated := updateAllFish ctx currentSimulationTime visibleWorld resized.mFishes
      resized.todo
    some { resized with mFishes := updated.1, todo := updated.2 }

/-- A fish in the middle of a turn that started at time 10: start velocity (4, 2),
target velocity (-6, 3), start direction (1, 1/2), target direction (-1, 1/4). -/
def sampleTurningFish : Fish :=
  { Species := ⟨1, 10, 0⟩
    RenderFrameIndex := 0
    PersonalitySeed := 1 / 2
    CurrentState := StateType.Turning
    CurrentPosition := ⟨0, -10⟩
    TargetPosition := ⟨-20, -20⟩
    StartVelocity := ⟨4, 2⟩
    CurrentVelocity := ⟨4, 2⟩
    TargetVelocity := ⟨-6, 3⟩
    StartDirection := ⟨1, 1 / 2⟩
    CurrentDirection := ⟨1, 1 / 2⟩
    TargetDirection := ⟨-1, 1 / 4⟩
    TurningSimulationTimeStart := 10
    CurrentProgressPhase := 0
    CurrentProgress := 0 }

/-- A small concrete random engine over a counter: `Choose n` returns the counter
modulo `n`, the reals are fractions of the counter. -/
def counterEngine : GameRandomEngine Nat :=
  { Choose := fun n s => (s % n, s + 1)
    GenerateNormalizedUniformReal := fun s => (1 / ((s : ℚ) + 1), s + 1)
    GenerateUniformReal := fun lo hi s => (lo + (hi - lo) / ((s : ℚ) + 2), s + 1) }

/-- A concrete context: two species, the counter engine, a stand-in for
`normalise` and a rational value for `Pi`. -/
def sampleContext : FishesContext Nat :=
  { mFishSpeciesDatabase := [⟨1, 10, 0⟩, ⟨2, 20, 0⟩]
    random := counterEngine
    normalise := fun v => v
    Pi := 355 / 113
    sin := fun _ => 0 }

/-- A concrete visible world. -/
def sampleVisibleWorld : VisibleWorld := { Center := ⟨0, 0⟩, Width := 100, Height := 50 }

end Fishes

end Physics

/-! ## GameController: tsunami notification and daylight cycle state machines -/

/-- Modelled from the spec: `GameWallClock::Progress` of the absent wall clock
header, the "elapsed wall time over" the duration of the phase, both in seconds. -/
def GameWallClock.Progress (now start duration : ℚ) : ℚ := (now - start) / duration

/-- The functions and the constant of absent math headers that the state machines
use: `Pi<float>`, `sin`, `SmoothStep` and `InverseSmoothStep`. -/
structure MathFunctions where
  Pi : ℚ
  sin : ℚ → ℚ
  SmoothStep : ℚ → ℚ → ℚ → ℚ
  InverseSmoothStep : ℚ → ℚ

/-- Modelled from the spec: the part of the absent `Render::RenderContext` that the
state machines use, which "exposes GetAmbientLightIntensity()/
SetAmbientLightIntensity() and SetPixelOffset()". -/
structure RenderContext where
  ambientLightIntensity : ℚ
  pixelOffset : vec2f
deriving DecidableEq, Repr

/-- The calls the two state machines make on the render context and on the
notification layer. -/
inductive StateMachineCall
  | SetPixelOffset (x y : ℚ)
  | AddEphemeralTextLine (text : String) (lifetimeSeconds : ℚ)
  | GetAmbientLightIntensity
  | SetAmbientLightIntensity (intensity : ℚ)
deriving DecidableEq, Repr

/-- Whether a call is `NotificationLayer::AddEphemeralTextLine`. -/
def StateMachineCall.isAddEphemeralTextLine : StateMachineCall → Bool
  | .AddEphemeralTextLine _ _ => true
  | _ => false

/-- Whether a call is `RenderContext::SetAmbientLightIntensity`. -/
def StateMachineCall.isSetAmbientLightIntensity : StateMachineCall → Bool
  | .SetAmbientLightIntensity _ => true
  | _ => false

namespace GameController

/-- `TsunamiNotificationStateMachine::StateType`
(GameController_StateMachines.cpp:35-41). -/
inductive TsunamiNotificationStateMachine.StateType
  | RumblingFadeIn
  | Rumbling1
  | Rumbling2
  | RumblingFadeOut
deriving DecidableEq, Repr

/-- The mutable members of `GameController::TsunamiNotificationStateMachine`. -/
structure TsunamiNotificationStateMachine where
  mCurrentState : TsunamiNotificationStateMachine.StateType
  mCurrentStateStartTime : ℚ
deriving DecidableEq, Repr

namespace TsunamiNotificationStateMachine

/-- Position of a phase in the order of the enumeration. -/
def StateType.rank : StateType → Nat
  | .RumblingFadeIn => 0
  | .Rumbling1 => 1
  | .Rumbling2 => 2
  | .RumblingFadeOut => 3

/-- The return value of `Update`, the machine after the call, and the calls made. -/
structure UpdateResult where
  result : Bool
  machine : TsunamiNotificationStateMachine
  calls : List StateMachineCall
deriving DecidableEq, Repr

/-- The constructor (GameController_StateMachines.cpp:52-60), at wall clock time
`now`. -/
def new (now : ℚ) : TsunamiNotificationStateMachine :=
  { mCurrentState := StateType.RumblingFadeIn, mCurrentStateStartTime := now }

/-- `TsunamiNotificationStateMachine::Update`
(GameController_StateMachines.cpp:67-151); `now` is the wall clock time the call
reads. -/
def Update (m : MathFunctions) (now : ℚ) (sm : TsunamiNotificationStateMachine) :
    UpdateResult :=
  let TremorAmplitude : ℚ := 5
  let TremorAngularVelocity : ℚ := 2 * m.Pi * 6
  match sm.mCurrentState with
  | .RumblingFadeIn =>
    let progress := GameWallClock.Progress now sm.mCurrentStateStartTime 1
    { result := true
      machine :=
        if progress ≥ 1 then
          { mCurrentState := StateType.Rumbling1, mCurrentStateStartTime := now }
        else sm
      calls :=
        [StateMachineCall.SetPixelOffset
          (progress * TremorAmplitude * m.sin (TremorAngularVelocity * now)) 0] }
  | .Rumbling1 =>
    let progress := GameWallClock.Progress now sm.mCurrentStateStartTime (4500 / 1000)
    if progress ≥ 1 then
      { result := true
        machine := { mCurrentState := StateType.Rumbling2, mCurrentStateStartTime := now }
        calls :=
          [StateMachineCall.SetPixelOffset
            (TremorAmplitude * m.sin (TremorAngularVelocity * now)) 0,
           StateMachineCall.AddEphemeralTextLine "TSUNAMI WARNING!" 5] }
    else
      { result := true
        machine := sm
        calls :=
          [StateMachineCall.SetPixelOffset
            (TremorAmplitude * m.sin (TremorAngularVelocity * now)) 0] }
  | .Rumbling2 =>
    let progress := GameWallClock.Progress now sm.mCurrentStateStartTime (500 / 1000)
    { result := true
      machine :=
        if progress ≥ 1 then
          { mCurrentState := StateType.RumblingFadeOut, mCurrentStateStartTime := now }
        else sm
      calls :=
        [StateMachineCall.SetPixelOffset
          (TremorAmplitude * m.sin (TremorAngularVelocity * now)) 0] }
  | .RumblingFadeOut =>
    let progress := GameWallClock.Progress now sm.mCurrentStateStartTime 2
    { result := if progress ≥ 1 then false else true
      machine := sm
      calls :=
        [StateMachineCall.SetPixelOffset
          ((1 - progress) * TremorAmplitude * m.sin (TremorAngularVelocity * now)) 0] }

/-- The outcome of every call of a sequence of `Update` calls, one per wall clock
reading, in order. -/
def runTrace (m : MathFunctions) : TsunamiNotificationStateMachine → List ℚ → List UpdateResult
  | _, [] => []
  | sm, now :: nows => Update m now sm :: runTrace m (Update m now sm).machine nows

/-- All the calls made by a list of `Update` outcomes, in order. -/
def callsOf : List UpdateResult → List StateMachineCall
  | [] => []
  | r :: rs => r.calls ++ callsOf rs

/-- Stand-ins for the math functions, to evaluate the definitions. -/
def sampleMath : MathFunctions :=
  { Pi := 355 / 113, sin := fun _ => 0, SmoothStep := fun _ _ x => x,
    InverseSmoothStep := fun x => x }

end TsunamiNotificationStateMachine

/-- `DayLightCycleStateMachine::StateType`
(GameController_StateMachines.cpp:297-301). -/
inductive DayLightCycleStateMachine.StateType
  | SunRising
  | SunSetting
deriving DecidableEq, Repr

/-- The mutable members of `GameController::DayLightCycleStateMachine`. -/
structure DayLightCycleStateMachine where
  mCurrentState : DayLightCycleStateMachine.StateType
  mLastChangeTimestamp : ℚ
  mSkipCounter : Int
deriving DecidableEq, Repr

namespace DayLightCycleStateMachine

/-- The machine and the render context after `Update`, and the calls made. -/
structure UpdateResult where
  machine : DayLightCycleStateMachine
  renderContext : RenderContext
  calls : List StateMachineCall
deriving DecidableEq, Repr

/-- The constructor (GameController_StateMachines.cpp:313-322), at wall clock time
`now`. -/
def new (now : ℚ) : DayLightCycleStateMachine :=
  { mCurrentState := StateType.SunSetting, mLastChangeTimestamp := now, mSkipCounter := 0 }

/-- `DayLightCycleStateMachine::Update` (GameController_StateMachines.cpp:328-392).
`dayLightCycleDuration` is `mGameParameters.DayLightCycleDuration` in seconds, `now`
the wall clock time the call reads, `renderContext` the render context at the call. -/
def Update (m : MathFunctions) (dayLightCycleDuration : ℚ) (now : ℚ)
    (renderContext : RenderContext) (sm : DayLightCycleStateMachine) : UpdateResult :=
  -- We don't want to run at each and every frame
  let skipCounter := sm.mSkipCounter + 1
  if skipCounter < 4 then
    { machine := { sm with mSkipCounter := skipCounter }
      renderContext := renderContext
      calls := [] }
  else
    let timeOfDay := m.InverseSmoothStep renderContext.ambientLightIntensity
    -- Calculate fraction of half-cycle elapsed since last time
    let elapsedFraction :=
      GameWallClock.Progress now sm.mLastChangeTimestamp dayLightCycleDuration * 2
    -- Calculate new time of day
    let next : ℚ × StateType :=
      match sm.mCurrentState with
      | .SunRising =>
        if timeOfDay + elapsedFraction ≥ 1 then (1, StateType.SunSetting)
        else (timeOfDay + elapsedFraction, StateType.SunRising)
      | .SunSetting =>
        if timeOfDay - elapsedFraction ≤ 0 then (0, StateType.SunRising)
        else (timeOfDay - elapsedFraction, StateType.SunSetting)
    -- Calculate new ambient light
    let intensity := m.SmoothStep 0 1 next.1
    { machine := { mCurrentState := next.2, mLastChangeTimestamp := now, mSkipCounter := 0 }
      renderContext := { renderContext with ambientLightIntensity := intensity }
      calls :=
        [StateMachineCall.GetAmbientLightIntensity,
         StateMachineCall.SetAmbientLightIntensity intensity] }

/-- What happens around one `Update` call of a run: the wall clock time it reads and,
if present, the intensity that someone else writes to the render context before it. -/
structure Frame where
  now : ℚ
  externalIntensity : Option ℚ
deriving DecidableEq, Repr

/-- The render context as the `Update` of a frame finds it. -/
def Frame.apply (frame : Frame) (renderContext : RenderContext) : RenderContext :=
  match frame.externalIntensity with
  | some intensity => { renderContext with ambientLightIntensity := intensity }
  | none => renderContext

/-- One `Update` call of a run: the machine and the render context it found, and its
outcome. -/
structure Step where
  frame : Frame
  before : DayLightCycleStateMachine
  found : RenderContext
  after : UpdateResult
deriving DecidableEq, Repr

/-- A run of `Update` calls, one per frame. -/
def runSteps (m : MathFunctions) (dayLightCycleDuration : ℚ) :
    DayLightCycleStateMachine → RenderContext → List Frame → List Step
  | _, _, [] => []
  | sm, renderContext, frame :: frames =>
    let found := frame.apply renderContext
    let after := Update m dayLightCycleDuration frame.now found sm
    { frame := frame, before := sm, found := found, after := after }
      :: runSteps m dayLightCycleDuration after.machine after.renderContext frames

/-- All the calls made by the steps of a run, in order. -/
def callsOf : List Step → List StateMachineCall
  | [] => []
  | step :: steps => step.after.calls ++ callsOf steps

end DayLightCycleStateMachine

end GameController

/-! ## GameCore: Buffer2D -/

/-- The `for (int i = 0; i < n; ++i)` loop over a state, for a natural bound: the
body runs for `i = 0, 1, ..., n - 1` in this order and may fail. -/
def forLoopNat {σ : Type} : Nat → (Nat → σ → Option σ) → σ → Option σ
  | 0, _, s => some s
  | n + 1, body, s => (forLoopNat n body s).bind (body n)

/-- The `for (int i = 0; i < n; ++i)` loop over a state, for an `int` bound; a
bound that is zero or negative runs no iteration. -/
def forLoop {σ : Type} (n : Int) (body : Int → σ → Option σ) (s : σ) : Option σ :=
  forLoopNat n.toNat (fun i => body (i : Int)) s

/-- Reading cell `i` of an array of `size` cells; outside the array there is no
defined result. -/
def readCell {α : Type} (cells : Int → α) (size : Int) (i : Int) : Option α :=
  if 0 ≤ i ∧ i < size then some (cells i) else none

/-- Writing cell `i` of an array of `size` cells; outside the array there is no
defined result. -/
def writeCell {α : Type} (cells : Int → α) (size : Int) (i : Int) (value : α) :
    Option (Int → α) :=
  if 0 ≤ i ∧ i < size then some (fun j => if j = i then value else cells j) else none

/-- `std::memcpy` of `count` elements from `source + sourceIndex` to
`target + targetIndex`, for two distinct arrays; both ranges have to lie within
their arrays. -/
def memcpy {α : Type} (target : Int → α) (targetSize targetIndex : Int) (source : Int → α)
    (sourceSize sourceIndex count : Int) : Option (Int → α) :=
  if 0 ≤ count ∧ 0 ≤ targetIndex ∧ targetIndex + count ≤ targetSize
      ∧ 0 ≤ sourceIndex ∧ sourceIndex + count ≤ sourceSize then
    some (fun j =>
      if targetIndex ≤ j ∧ j < targetIndex + count then source (sourceIndex + (j - targetIndex))
      else target j)
  else none

/-- `std::memmove` of `count` elements from `cells + sourceIndex` to
`cells + targetIndex` within one array: the moved cells receive what the source
range held before the call, also when the two ranges overlap. -/
def memmove {α : Type} (cells : Int → α) (size targetIndex sourceIndex count : Int) :
    Option (Int → α) :=
  if 0 ≤ count ∧ 0 ≤ targetIndex ∧ targetIndex + count ≤ size
      ∧ 0 ≤ sourceIndex ∧ sourceIndex + count ≤ size then
    some (fun j =>
      if targetIndex ≤ j ∧ j < targetIndex + count then cells (sourceIndex + (j - targetIndex))
      else cells j)
  else none

/-- `_IntegralSize` of the absent GameTypes.h: `int` width and height. -/
structure IntegralRectSize where
  width : Int
  height : Int
deriving DecidableEq, Repr

/-- `_IntegralCoordinates` of the absent GameTypes.h: `int` x and y. -/
structure IntegralCoordinates where
  x : Int
  y : Int
deriving DecidableEq, Repr

/-- `_IntegralRect` of the absent GameTypes.h: an origin and a size. -/
structure IntegralRect where
  origin : IntegralCoordinates
  size : IntegralRectSize
deriving DecidableEq, Repr

/-- Modelled from the spec: `_IntegralCoordinates::IsInSize` of the absent
GameTypes.h, "0 <= c.x < size.width and 0 <= c.y < size.height". -/
def IntegralCoordinates.IsInSize (c : IntegralCoordinates) (size : IntegralRectSize) : Prop :=
  0 ≤ c.x ∧ c.x < size.width ∧ 0 ≤ c.y ∧ c.y < size.height

instance (c : IntegralCoordinates) (size : IntegralRectSize) : Decidable (c.IsInSize size) := by
  unfold IntegralCoordinates.IsInSize
  infer_instance

/-- Modelled from the spec: `operator+` of coordinates and a size, of the absent
GameTypes.h: the width is added to x and the height to y. -/
def IntegralCoordinates.addSize (c : IntegralCoordinates) (size : IntegralRectSize) :
    IntegralCoordinates :=
  { x := c.x + size.width, y := c.y + size.height }

/-- Modelled from the spec: `_IntegralCoordinates::FlipX` of the absent GameTypes.h,
the coordinates mirrored in a row of the given width: x becomes width - 1 - x. -/
def IntegralCoordinates.FlipX (c : IntegralCoordinates) (width : Int) : IntegralCoordinates :=
  { x := width - 1 - c.x, y := c.y }

/-- Modelled from the spec: `_IntegralCoordinates::FlipY` of the absent GameTypes.h,
the coordinates mirrored in a column of the given height: y becomes height - 1 - y. -/
def IntegralCoordinates.FlipY (c : IntegralCoordinates) (height : Int) : IntegralCoordinates :=
  { x := c.x, y := height - 1 - c.y }

/-- Modelled from the spec: `_IntegralRect::IsContainedInRect` of the absent
GameTypes.h: the rectangle lies within the container on all four sides. -/
def IntegralRect.IsContainedInRect (r container : IntegralRect) : Prop :=
  r.origin.x ≥ container.origin.x
  ∧ r.origin.y ≥ container.origin.y
  ∧ r.origin.x + r.size.width ≤ container.origin.x + container.size.width
  ∧ r.origin.y + r.size.height ≤ container.origin.y + container.size.height

instance (r container : IntegralRect) : Decidable (r.IsContainedInRect container) := by
  unfold IntegralRect.IsContainedInRect
  infer_instance

/-- Modelled from the spec: `DirectionType` of the absent GameTypes.h, a set of the
two flags Horizontal and Vertical. -/
structure DirectionType where
  horizontal : Bool
  vertical : Bool
deriving DecidableEq, Repr

namespace DirectionType

/-- `DirectionType::Horizontal`. -/
def Horizontal : DirectionType := ⟨true, false⟩

/-- `DirectionType::Vertical`. -/
def Vertical : DirectionType := ⟨false, true⟩

/-- The `operator|` of two directions. -/
def or (a b : DirectionType) : DirectionType :=
  ⟨a.horizontal || b.horizontal, a.vertical || b.vertical⟩

end DirectionType

/-- `Buffer2D<TElement, TIntegralTag>` (Buffer2D.h): `Size`, the array `Data` as the
content of its cells by linear index, and the number `mLinearSize` of cells. -/
structure Buffer2D (α : Type) where
  Size : IntegralRectSize
  Data : Int → α
  mLinearSize : Int

namespace Buffer2D

variable {α : Type}

/-- The invariant the constructors establish: non-negative dimensions and
`mLinearSize = width * height`. -/
def WellFormed (b : Buffer2D α) : Prop :=
  0 ≤ b.Size.width ∧ 0 ≤ b.Size.height ∧ b.mLinearSize = b.Size.width * b.Size.height

/-- The constructor `Buffer2D(size, data)` (Buffer2D.h:67-85). -/
def ofData (size : IntegralRectSize) (data : Int → α) : Buffer2D α :=
  { Size := size, Data := data, mLinearSize := size.width * size.height }

/-- The constructor `Buffer2D(width, height, defaultValue)` (Buffer2D.h:53-65). -/
def fill (width height : Int) (defaultValue : α) : Buffer2D α :=
  { Size := ⟨width, height⟩, Data := fun _ => defaultValue, mLinearSize := width * height }

/-- A buffer with the given rows, top row first; cells not covered hold `filler`. -/
def ofRows (width height : Int) (rows : List α) (filler : α) : Buffer2D α :=
  { Size := ⟨width, height⟩
    Data := fun i => if 0 ≤ i then rows.getD i.toNat filler else filler
    mLinearSize := width * height }

/-- `operator[](index) const` (Buffer2D.h:113-121); a failing assertion gives no
result. -/
def get (b : Buffer2D α) (index : IntegralCoordinates) : Option α :=
  if index.IsInSize b.Size then
    let linearIndex := index.y * b.Size.width + index.x
    if linearIndex < b.mLinearSize then some (b.Data linearIndex) else none
  else none

/-- An assignment through `operator[](index)` (Buffer2D.h:108-111). -/
def set (b : Buffer2D α) (index : IntegralCoordinates) (value : α) : Option (Buffer2D α) :=
  if index.IsInSize b.Size then
    let linearIndex := index.y * b.Size.width + index.x
    if linearIndex < b.mLinearSize then
      some { b with Data := fun j => if j = linearIndex then value else b.Data j }
    else none
  else none

/-- `std::swap(this->operator[](c), this->operator[](d))`. -/
def swap (b : Buffer2D α) (c d : IntegralCoordinates) : Option (Buffer2D α) :=
  match b.get c, b.get d with
  | some atC, some atD => (b.set c atD).bind (fun b1 => b1.set d atC)
  | _, _ => none

/-- The body of the loop of `BlitFromRegion` (Buffer2D.h:196-202): the copy of one
row of the region into the array `data` of the target. -/
def blitRow (b : Buffer2D α) (source : Buffer2D α) (sourceRegion : IntegralRect)
    (targetOrigin : IntegralCoordinates) (sourceRegionY : Int) (data : Int → α) :
    Option (Int → α) :=
  let sourceLinearIndex :=
    (sourceRegion.origin.y + sourceRegionY) * source.Size.width + sourceRegion.origin.x
  let targetLinearIndex := (targetOrigin.y + sourceRegionY) * b.Size.width + targetOrigin.x
  memcpy data b.mLinearSize targetLinearIndex source.Data source.mLinearSize
    sourceLinearIndex sourceRegion.size.width

/-- `Buffer2D::BlitFromRegion` (Buffer2D.h:183-204). -/
def BlitFromRegion (b : Buffer2D α) (source : Buffer2D α) (sourceRegion : IntegralRect)
    (targetOrigin : IntegralCoordinates) : Option (Buffer2D α) :=
  -- The source region is entirely in the source buffer
  if ¬ sourceRegion.IsContainedInRect ⟨⟨0, 0⟩, source.Size⟩ then none
  -- The target origin plus the region size are within this buffer
  else if ¬ (IntegralRect.mk targetOrigin sourceRegion.size).IsContainedInRect
      ⟨⟨0, 0⟩, b.Size⟩ then none
  else
    (forLoop sourceRegion.size.height (blitRow b source sourceRegion targetOrigin)
      b.Data).map (fun data => { b with Data := data })

/-- The body of the inner loop of `MakeReframed` (Buffer2D.h:226-235): the cell
(nx, ny) of the new array `data`, which has `newSize.width * newSize.height` cells. -/
def reframeCell (b : Buffer2D α) (newSize : IntegralRectSize)
    (originOffset : IntegralCoordinates) (fillerValue : α) (ny nx : Int) (data : Int → α) :
    Option (Int → α) :=
  let leftFillerWRange := originOffset.x
  let rightFillerWRange := min (originOffset.x + b.Size.width) newSize.width
  let leftFillerHRange := originOffset.y
  let rightFillerHRange := min (originOffset.y + b.Size.height) newSize.height
  let oldYOffset := (ny - leftFillerHRange) * b.Size.width
  let newYOffset := ny * newSize.width
  if nx < leftFillerWRange ∨ nx ≥ rightFillerWRange
      ∨ ny < leftFillerHRange ∨ ny ≥ rightFillerHRange then
    writeCell data (newSize.width * newSize.height) (newYOffset + nx) fillerValue
  else
    (readCell b.Data b.mLinearSize (oldYOffset + nx - leftFillerWRange)).bind
      (fun value => writeCell data (newSize.width * newSize.height) (newYOffset + nx) value)

/-- The body of the outer loop of `MakeReframed` (Buffer2D.h:221-236): the row `ny`
of the new array. -/
def reframeRow (b : Buffer2D α) (newSize : IntegralRectSize)
    (originOffset : IntegralCoordinates) (fillerValue : α) (ny : Int) (data : Int → α) :
    Option (Int → α) :=
  forLoop newSize.width (reframeCell b newSize originOffset fillerValue ny) data

/-- `Buffer2D::MakeReframed` (Buffer2D.h:206-242); the new array is value-initialised
by `make_unique`, which has no result for a negative number of cells. -/
def MakeReframed [Inhabited α] (b : Buffer2D α) (newSize : IntegralRectSize)
    (originOffset : IntegralCoordinates) (fillerValue : α) : Option (Buffer2D α) :=
  if newSize.width * newSize.height < 0 then none
  else
    (forLoop newSize.height (reframeRow b newSize originOffset fillerValue)
      (fun _ => default)).map (fun data => ofData newSize data)

/-- The body of the loop of `CloneRegion` (Buffer2D.h:144-150): the copy of one row
of the region into the new array `data`, which has
`regionRect.size.width * regionRect.size.height` cells. -/
def cloneRow (b : Buffer2D α) (regionRect : IntegralRect) (targetY : Int) (data : Int → α) :
    Option (Int → α) :=
  let sourceLinearIndex := (targetY + regionRect.origin.y) * b.Size.width + regionRect.origin.x
  let targetLinearIndex := targetY * regionRect.size.width
  memcpy data (regionRect.size.width * regionRect.size.height) targetLinearIndex b.Data
    b.mLinearSize sourceLinearIndex regionRect.size.width

/-- `Buffer2D::CloneRegion` (Buffer2D.h:134-156); the new array is value-initialised
by `make_unique`, which has no result for a negative number of cells. -/
def CloneRegion [Inhabited α] (b : Buffer2D α) (regionRect : IntegralRect) :
    Option (Buffer2D α) :=
  -- The region is entirely within this buffer
  if ¬ regionRect.origin.IsInSize b.Size then none
  else if ¬ (regionRect.origin.addSize regionRect.size).IsInSize b.Size then none
  else if regionRect.size.width * regionRect.size.height < 0 then none
  else
    (forLoop regionRect.size.height (cloneRow b regionRect) (fun _ => default)).map
      (fun data => ofData regionRect.size data)

/-- The body of the loop of `Trim` (Buffer2D.h:169-175): the move of one row of the
rect to its place in the same array. -/
def trimRow (b : Buffer2D α) (rect : IntegralRect) (targetY : Int) (data : Int → α) :
    Option (Int → α) :=
  let sourceLinearIndex := (targetY + rect.origin.y) * b.Size.width + rect.origin.x
  let targetLinearIndex := targetY * rect.size.width
  memmove data b.mLinearSize targetLinearIndex sourceLinearIndex rect.size.width

/-- `Buffer2D::Trim` (Buffer2D.h:158-181). -/
def Trim (b : Buffer2D α) (rect : IntegralRect) : Option (Buffer2D α) :=
  -- The new rect is smaller than the previous
  if ¬ (rect.origin.x + rect.size.width ≤ b.Size.width) then none
  else if ¬ (rect.origin.y + rect.size.height ≤ b.Size.height) then none
  else if rect.size ≠ b.Size then
    -- In-place shrinking
    (forLoop rect.size.height (trimRow b rect) b.Data).map
      (fun data =>
        { Size := rect.size, Data := data
          mLinearSize := rect.size.width * rect.size.height })
  else some b

/-- The bound `xMax` of the inner loop of `Flip<H, V>` (Buffer2D.h:299). -/
def flipXMax (H V : Bool) (size : IntegralRectSize) : Int :=
  if H && !V then size.width / 2 else size.width

/-- The bound `yMax` of the outer loop of `Flip<H, V>` (Buffer2D.h:300). -/
def flipYMax (V : Bool) (size : IntegralRectSize) : Int :=
  if V then size.height / 2 else size.height

/-- The `dstCoords` that `Flip<H, V>` computes for `srcCoords` (Buffer2D.h:308-312). -/
def flipDst (H V : Bool) (size : IntegralRectSize) (srcCoords : IntegralCoordinates) :
    IntegralCoordinates :=
  let dstCoords := srcCoords
  let dstCoords := if H then dstCoords.FlipX size.width else dstCoords
  let dstCoords := if V then dstCoords.FlipY size.height else dstCoords
  dstCoords

/-- Whether the loops of `Flip<H, V>` reach the coordinates `c`. -/
def flipVisits (H V : Bool) (size : IntegralRectSize) (c : IntegralCoordinates) : Prop :=
  c.x < flipXMax H V size ∧ c.y < flipYMax V size

/-- The body of the inner loop of `Flip<H, V>` (Buffer2D.h:306-314): the swap of the
cell (x, y) with its mirror image. -/
def flipCell (H V : Bool) (y x : Int) (b : Buffer2D α) : Option (Buffer2D α) :=
  let srcCoords : IntegralCoordinates := ⟨x, y⟩
  let dstCoords := srcCoords
  let dstCoords := if H then dstCoords.FlipX b.Size.width else dstCoords
  let dstCoords := if V then dstCoords.FlipY b.Size.height else dstCoords
  b.swap srcCoords dstCoords

/-- The private `Buffer2D::Flip<H, V>()` (Buffer2D.h:296-317). -/
def FlipHV (H V : Bool) (b : Buffer2D α) : Option (Buffer2D α) :=
  let xMax := if H && !V then b.Size.width / 2 else b.Size.width
  let yMax := if V then b.Size.height / 2 else b.Size.height
  forLoop yMax (fun y b1 => forLoop xMax (flipCell H V y) b1) b

/-- `Buffer2D::Flip(direction)` (Buffer2D.h:244-258). -/
def Flip (direction : DirectionType) (b : Buffer2D α) : Option (Buffer2D α) :=
  if direction = DirectionType.Horizontal then FlipHV true false b
  else if direction = DirectionType.Vertical then FlipHV false true b
  else if direction = DirectionType.or DirectionType.Vertical DirectionType.Horizontal then
    FlipHV true true b
  else some b

/-- The buffer `r` is the buffer `b` with the cells at the coordinates where `P`
holds exchanged with the cells at their images under `mirror`: same `Size` and
number of cells, at in-size coordinates `c` the cell of `b` at `mirror c` when `P`
holds at `c` or at `mirror c`, the cell of `b` at `c` otherwise, and the cells of
`b` at the linear indices outside `Size.width * Size.height`. -/
def SwappedOn (mirror : IntegralCoordinates → IntegralCoordinates)
    (P : IntegralCoordinates → Prop) (b r : Buffer2D α) : Prop :=
  r.Size = b.Size
  ∧ r.mLinearSize = b.mLinearSize
  ∧ (∀ c : IntegralCoordinates, c.IsInSize b.Size →
      ((P c ∨ P (mirror c)) →
        r.Data (c.y * b.Size.width + c.x)
          = b.Data ((mirror c).y * b.Size.width + (mirror c).x))
      ∧ (¬ (P c ∨ P (mirror c)) →
        r.Data (c.y * b.Size.width + c.x) = b.Data (c.y * b.Size.width + c.x)))
  ∧ ∀ j : Int, (j < 0 ∨ b.Size.width * b.Size.height ≤ j) → r.Data j = b.Data j

end Buffer2D

/-! ## GameCore: ParameterSmoother -/

/-- The mutable members of `ParameterSmoother<float>` (ParameterSmoother.h:116-119). -/
structure ParameterSmoother where
  mConvergenceFactor : ℚ
  mCurrentValue : ℚ
  mTargetValue : ℚ
deriving DecidableEq, Repr

namespace ParameterSmoother

/-- The smoother after `Update` and the values it passed to the setter, in order. -/
structure UpdateResult where
  smoother : ParameterSmoother
  setterCalls : List ℚ
deriving DecidableEq, Repr

/-- `ParameterSmoother::Distance(float, float)` (ParameterSmoother.h:101-104). -/
def Distance (value1 value2 : ℚ) : ℚ := |value1 - value2|

/-- `ParameterSmoother::Update` (ParameterSmoother.h:71-92); `mSetter` and `mClamper`
are the functions given at construction, by the value they return. -/
def Update (mSetter mClamper : ℚ → ℚ) (s : ParameterSmoother) : UpdateResult :=
  if s.mCurrentValue ≠ s.mTargetValue then
    -- Converge
    let converged := s.mCurrentValue + (s.mTargetValue - s.mCurrentValue) * s.mConvergenceFactor
    -- See if close enough
    let current := if Distance converged s.mTargetValue < 1 / 10000 then s.mTargetValue
      else converged
    -- Set, and pick up the new target value
    { smoother :=
        { s with mCurrentValue := mSetter current, mTargetValue := mClamper s.mTargetValue }
      setterCalls := [current] }
  else
    { smoother := s, setterCalls := [] }

/-- The smoother after `n` calls of `Update` with a setter and a clamper that return
their argument. -/
def updates : Nat → ParameterSmoother → ParameterSmoother
  | 0, s => s
  | n + 1, s => updates n (Update id id s).smoother

end ParameterSmoother

/-! ## Theorems: ImpactBombGadget -/

namespace Physics

namespace ImpactBombGadget

/-! ### One call, state by state -/

theorem Update_of_Idle_detached (N : Nat) (a : UpdateArgs) (g : ImpactBombGadget)
    (hs : g.mState = .Idle) (hd : g.mAttachedSpringIndex = none) :
    Update N a g = { result := true, gadget := g, calls := [] } := by
  simp [Update, GetAttachedSpringIndex, hs, hd]

theorem Update_of_Idle_hot (N : Nat) (a : UpdateArgs) (g : ImpactBombGadget) (s : ElementIndex)
    (hs : g.mState = .Idle) (hatt : g.mAttachedSpringIndex = some s)
    (hT : a.ship.GetTemperature (a.ship.GetEndpointAIndex s)
            > GameParameters.BombsTemperatureTrigger
          ∨ a.ship.GetTemperature (a.ship.GetEndpointBIndex s)
            > GameParameters.BombsTemperatureTrigger) :
    Update N a g
      = { result := true, gadget := { g with mState := .TriggeringExplosion }, calls := [] } := by
  simp only [Update, GetAttachedSpringIndex, hs, hatt]
  rw [if_pos hT]

theorem Update_of_Idle_cold (N : Nat) (a : UpdateArgs) (g : ImpactBombGadget) (s : ElementIndex)
    (hs : g.mState = .Idle) (hatt : g.mAttachedSpringIndex = some s)
    (hT : ¬ (a.ship.GetTemperature (a.ship.GetEndpointAIndex s)
            > GameParameters.BombsTemperatureTrigger
          ∨ a.ship.GetTemperature (a.ship.GetEndpointBIndex s)
            > GameParameters.BombsTemperatureTrigger)) :
    Update N a g = { result := true, gadget := g, calls := [] } := by
  simp only [Update, GetAttachedSpringIndex, hs, hatt]
  rw [if_neg hT]

theorem Update_of_TriggeringExplosion (N : Nat) (a : UpdateArgs) (g : ImpactBombGadget)
    (hs : g.mState = .TriggeringExplosion) :
    Update N a g =
      { result := true
        gadget := { DetachIfAttached g with mState := .Exploding }
        calls :=
          [ Call.DetachIfAttached,
            Call.StartExplosion a.currentSimulationTime (a.ship.GetPlaneId (DetachIfAttached g))
              (a.ship.GetPosition (DetachIfAttached g)) (blastRadius a.gameParameters)
              (blastStrength a.gameParameters) (blastHeat a.gameParameters)
              ExplosionType.Deflagration a.gameParameters,
            Call.OnBombExplosion GadgetType.ImpactBomb
              (a.ship.IsUnderwater (a.ship.GetPosition (DetachIfAttached g))) 1 ] } := by
  simp [Update, hs]

theorem Update_of_Exploding_last (N : Nat) (a : UpdateArgs) (g : ImpactBombGadget)
    (hs : g.mState = .Exploding) (hc : N ≤ g.mExplosionFadeoutCounter + 1) :
    Update N a g =
      { result := true
        gadget := { g with mExplosionFadeoutCounter := g.mExplosionFadeoutCounter + 1,
                           mState := .Expired }
        calls := [] } := by
  simp [Update, hs, hc]

theorem Update_of_Exploding_more (N : Nat) (a : UpdateArgs) (g : ImpactBombGadget)
    (hs : g.mState = .Exploding) (hc : g.mExplosionFadeoutCounter + 1 < N) :
    Update N a g =
      { result := true
        gadget := { g with mExplosionFadeoutCounter := g.mExplosionFadeoutCounter + 1 }
        calls := [] } := by
  have : ¬ N ≤ g.mExplosionFadeoutCounter + 1 := by omega
  simp [Update, hs, this]

theorem Update_of_Expired (N : Nat) (a : UpdateArgs) (g : ImpactBombGadget)
    (hs : g.mState = .Expired) :
    Update N a g = { result := false, gadget := g, calls := [] } := by
  simp [Update, hs]

/-! ### Invariant of the reachable gadgets -/

/-- Before the explosion starts the fade-out counter is still zero. -/
theorem Reachable.counter_zero {N : Nat} {g : ImpactBombGadget} (h : Reachable N g) :
    g.mState = .Idle ∨ g.mState = .TriggeringExplosion → g.mExplosionFadeoutCounter = 0 := by
  induction h with
  | ctor s => intro _; rfl
  | update a g _ ih =>
    intro hst
    cases hg : g.mState with
    | Idle =>
      cases hatt : g.mAttachedSpringIndex with
      | none =>
        rw [Update_of_Idle_detached N a g hg hatt]
        exact ih (Or.inl hg)
      | some s =>
        by_cases hT : a.ship.GetTemperature (a.ship.GetEndpointAIndex s)
            > GameParameters.BombsTemperatureTrigger
          ∨ a.ship.GetTemperature (a.ship.GetEndpointBIndex s)
            > GameParameters.BombsTemperatureTrigger
        · rw [Update_of_Idle_hot N a g s hg hatt hT]
          exact ih (Or.inl hg)
        · rw [Update_of_Idle_cold N a g s hg hatt hT]
          exact ih (Or.inl hg)
    | TriggeringExplosion =>
      rw [Update_of_TriggeringExplosion N a g hg] at hst
      simp at hst
    | Exploding =>
      by_cases hc : N ≤ g.mExplosionFadeoutCounter + 1
      · rw [Update_of_Exploding_last N a g hg hc] at hst
        simp at hst
      · rw [Update_of_Exploding_more N a g hg (by omega)] at hst
        simp [hg] at hst
    | Expired =>
      rw [Update_of_Expired N a g hg] at hst
      simp [hg] at hst
  | detach g _ ih =>
    intro hst
    exact ih hst

/-! ### The fade-out -/

/-- While exploding with counter `c`, fewer than `N - c` calls leave the gadget
exploding and the call number `N - c` expires it. -/
theorem runUpdates_of_Exploding (N : Nat) (args : List UpdateArgs) :
    ∀ g : ImpactBombGadget, g.mState = .Exploding → g.mExplosionFadeoutCounter < N →
      (args.length < N - g.mExplosionFadeoutCounter →
          (runUpdates N g args).mState = .Exploding)
        ∧ (args.length = N - g.mExplosionFadeoutCounter →
          (runUpdates N g args).mState = .Expired) := by
  induction args with
  | nil =>
    intro g hs hc
    refine ⟨fun _ => hs, fun h => ?_⟩
    simp at h
    omega
  | cons a args ih =>
    intro g hs hc
    by_cases hlast : N ≤ g.mExplosionFadeoutCounter + 1
    · have hN : N - g.mExplosionFadeoutCounter = 1 := by omega
      refine ⟨fun h => ?_, fun h => ?_⟩
      · simp at h; omega
      · have hnil : args = [] := by
          simp [hN] at h
          exact h
        subst hnil
        simp [runUpdates, Update_of_Exploding_last N a g hs hlast]
    · have hmore : g.mExplosionFadeoutCounter + 1 < N := by omega
      have hstep := Update_of_Exploding_more N a g hs hmore
      have := ih (Update N a g).gadget (by rw [hstep]; exact hs) (by rw [hstep]; exact hmore)
      rw [hstep] at this
      simp only [runUpdates, hstep]
      refine ⟨fun h => this.1 ?_, fun h => this.2 ?_⟩
      · simp at h ⊢; omega
      · simp at h ⊢; omega

/-- C1. Lifecycle timing: for every fade-out constant `N >= 1` and every gadget the
program can produce that is Idle, attached to a spring, with an endpoint of that
spring hotter than `BombsTemperatureTrigger`, one `Update` moves it to
TriggeringExplosion; the next `Update`, whatever its arguments, moves it to
Exploding; after any fewer than `N` further calls it is still Exploding, and after
exactly `N` further calls it is Expired. -/
theorem lifecycle_timing (N : Nat) (hN : 1 ≤ N) (g : ImpactBombGadget) (hr : Reachable N g)
    (hIdle : g.mState = .Idle) (s : ElementIndex) (hatt : g.mAttachedSpringIndex = some s)
    (a1 : UpdateArgs)
    (hT : a1.ship.GetTemperature (a1.ship.GetEndpointAIndex s)
            > GameParameters.BombsTemperatureTrigger
          ∨ a1.ship.GetTemperature (a1.ship.GetEndpointBIndex s)
            > GameParameters.BombsTemperatureTrigger) :
    (Update N a1 g).gadget.mState = .TriggeringExplosion
    ∧ ∀ a2 : UpdateArgs,
        (Update N a2 (Update N a1 g).gadget).gadget.mState = .Exploding
        ∧ ∀ args : List UpdateArgs,
            (args.length < N →
              (runUpdates N (Update N a2 (Update N a1 g).gadget).gadget args).mState
                = .Exploding)
            ∧ (args.length = N →
              (runUpdates N (Update N a2 (Update N a1 g).gadget).gadget args).mState
                = .Expired) := by
  have hc0 : g.mExplosionFadeoutCounter = 0 := hr.counter_zero (Or.inl hIdle)
  have h1 := Update_of_Idle_hot N a1 g s hIdle hatt hT
  refine ⟨by rw [h1], fun a2 => ?_⟩
  have h2 := Update_of_TriggeringExplosion N a2 (Update N a1 g).gadget (by rw [h1])
  refine ⟨by rw [h2], fun args => ?_⟩
  have hcnt : (Update N a2 (Update N a1 g).gadget).gadget.mExplosionFadeoutCounter = 0 := by
    rw [h2, h1]; exact hc0
  have := runUpdates_of_Exploding N args (Update N a2 (Update N a1 g).gadget).gadget
    (by rw [h2]) (by rw [hcnt]; exact hN)
  rw [hcnt] at this
  simpa using this

/-- Witness of C1: a freshly built gadget on spring 7, a ship at 400 K, `N = 3`,
a cold second call, then two and three further calls. -/
theorem lifecycle_timing_witness :
    (Update 3 (argsAt 400 GameParameters.sample) (new 7)).gadget.mState
        = .TriggeringExplosion
    ∧ (Update 3 (argsAt 0 GameParameters.sample)
        (Update 3 (argsAt 400 GameParameters.sample) (new 7)).gadget).gadget.mState
          = .Exploding
    ∧ (runUpdates 3 (Update 3 (argsAt 0 GameParameters.sample)
        (Update 3 (argsAt 400 GameParameters.sample) (new 7)).gadget).gadget
        [argsAt 0 GameParameters.sample, argsAt 400 GameParameters.sample]).mState
          = .Exploding
    ∧ (runUpdates 3 (Update 3 (argsAt 0 GameParameters.sample)
        (Update 3 (argsAt 400 GameParameters.sample) (new 7)).gadget).gadget
        [argsAt 0 GameParameters.sample, argsAt 400 GameParameters.sample,
          argsAt 0 GameParameters.sample]).mState
          = .Expired := by
  have h := lifecycle_timing 3 (by decide) (new 7) (Reachable.ctor 7) rfl 7 rfl
    (argsAt 400 GameParameters.sample)
    (Or.inl (by norm_num [argsAt, uniformShip, GameParameters.BombsTemperatureTrigger]))
  exact ⟨h.1, (h.2 _).1, ((h.2 _).2 _).1 (by decide), ((h.2 _).2 _).2 rfl⟩

/-! ### Return values -/

theorem runTrace_of_Expired (N : Nat) (args : List UpdateArgs) :
    ∀ g : ImpactBombGadget, g.mState = .Expired →
      ∀ r ∈ runTrace N g args, r.result = false ∧ r.gadget.mState = .Expired := by
  induction args with
  | nil => intro g _ r hr; simp [runTrace] at hr
  | cons a args ih =>
    intro g hs r hr
    have hstep := Update_of_Expired N a g hs
    simp only [runTrace, List.mem_cons] at hr
    rcases hr with hr | hr
    · subst hr
      rw [hstep]
      exact ⟨rfl, hs⟩
    · exact ih (Update N a g).gadget (by rw [hstep]; exact hs) r hr

theorem runTrace_of_Exploding (N : Nat) (args : List UpdateArgs) :
    ∀ g : ImpactBombGadget, g.mState = .Exploding → g.mExplosionFadeoutCounter < N →
      ∀ (k : Nat) (r : UpdateResult), (runTrace N g args)[k]? = some r →
        (r.result = true ↔ k < N - g.mExplosionFadeoutCounter)
        ∧ (r.gadget.mState = .Expired ↔ N - g.mExplosionFadeoutCounter ≤ k + 1) := by
  induction args with
  | nil => intro g _ _ k r hr; simp [runTrace] at hr
  | cons a args ih =>
    intro g hs hc k r hr
    by_cases hlast : N ≤ g.mExplosionFadeoutCounter + 1
    · have hstep := Update_of_Exploding_last N a g hs hlast
      cases k with
      | zero =>
        simp only [runTrace, List.getElem?_cons_zero, Option.some.injEq] at hr
        subst hr
        rw [hstep]
        simp
        omega
      | succ k =>
        simp only [runTrace, List.getElem?_cons_succ] at hr
        have hmem : r ∈ runTrace N (Update N a g).gadget args := List.getElem?_mem hr
        have := runTrace_of_Expired N args (Update N a g).gadget (by rw [hstep]) r hmem
        rw [this.1, this.2]
        simp
        omega
    · have hmore : g.mExplosionFadeoutCounter + 1 < N := by omega
      have hstep := Update_of_Exploding_more N a g hs hmore
      cases k with
      | zero =>
        simp only [runTrace, List.getElem?_cons_zero, Option.some.injEq] at hr
        subst hr
        rw [hstep]
        simp [hs]
        omega
      | succ k =>
        simp only [runTrace, List.getElem?_cons_succ] at hr
        have := ih (Update N a g).gadget (by rw [hstep]; exact hs) (by rw [hstep]; exact hmore)
          k r hr
        rw [hstep] at this
        simp only at this
        constructor
        · rw [this.1]; omega
        · rw [this.2]; omega

/-- C2, as the code has it. `Update` returns false exactly on the calls made in
state Expired. Over the life of a gadget that triggers at call 0 (Idle, attached,
hot endpoint), given `N >= 1`: the calls numbered 0 .. N+1 return true, call N+1
(the `N`-th made while Exploding) being the one that leaves the gadget Expired;
every later call returns false. -/
theorem Update_false_only_after_Expired (N : Nat) (hN : 1 ≤ N) (g : ImpactBombGadget)
    (hr : Reachable N g) (hIdle : g.mState = .Idle) (s : ElementIndex)
    (hatt : g.mAttachedSpringIndex = some s) (a1 : UpdateArgs)
    (hT : a1.ship.GetTemperature (a1.ship.GetEndpointAIndex s)
            > GameParameters.BombsTemperatureTrigger
          ∨ a1.ship.GetTemperature (a1.ship.GetEndpointBIndex s)
            > GameParameters.BombsTemperatureTrigger)
    (args : List UpdateArgs) :
    (∀ (a : UpdateArgs) (g' : ImpactBombGadget),
        (Update N a g').result = false ↔ g'.mState = .Expired)
    ∧ ∀ (k : Nat) (r : UpdateResult), (runTrace N g (a1 :: args))[k]? = some r →
        (r.result = true ↔ k < N + 2) ∧ (r.gadget.mState = .Expired ↔ N + 1 ≤ k) := by
  constructor
  · intro a g'
    cases hg : g'.mState with
    | Idle =>
      cases hatt' : g'.mAttachedSpringIndex with
      | none => simp [Update_of_Idle_detached N a g' hg hatt']
      | some s' =>
        by_cases hT' : a.ship.GetTemperature (a.ship.GetEndpointAIndex s')
            > GameParameters.BombsTemperatureTrigger
          ∨ a.ship.GetTemperature (a.ship.GetEndpointBIndex s')
            > GameParameters.BombsTemperatureTrigger
        · simp [Update_of_Idle_hot N a g' s' hg hatt' hT']
        · simp [Update_of_Idle_cold N a g' s' hg hatt' hT']
    | TriggeringExplosion => simp [Update_of_TriggeringExplosion N a g' hg]
    | Exploding =>
      by_cases hc : N ≤ g'.mExplosionFadeoutCounter + 1
      · simp [Update_of_Exploding_last N a g' hg hc]
      · simp [Update_of_Exploding_more N a g' hg (by omega)]
    | Expired => simp [Update_of_Expired N a g' hg]
  · intro k r hk
    have hc0 : g.mExplosionFadeoutCounter = 0 := hr.counter_zero (Or.inl hIdle)
    have h1 := Update_of_Idle_hot N a1 g s hIdle hatt hT
    cases k with
    | zero =>
      simp only [runTrace, List.getElem?_cons_zero, Option.some.injEq] at hk
      subst hk
      rw [h1]
      simp
    | succ k =>
      simp only [runTrace, List.getElem?_cons_succ] at hk
      cases args with
      | nil => simp [runTrace] at hk
      | cons a2 args =>
        have h2 := Update_of_TriggeringExplosion N a2 (Update N a1 g).gadget (by rw [h1])
        cases k with
        | zero =>
          simp only [runTrace, List.getElem?_cons_zero, Option.some.injEq] at hk
          subst hk
          rw [h2]
          simp
          omega
        | succ k =>
          simp only [runTrace, List.getElem?_cons_succ] at hk
          have hcnt :
              (Update N a2 (Update N a1 g).gadget).gadget.mExplosionFadeoutCounter = 0 := by
            rw [h2, h1]; exact hc0
          have := runTrace_of_Exploding N args (Update N a2 (Update N a1 g).gadget).gadget
            (by rw [h2]) (by rw [hcnt]; exact hN) k r hk
          rw [hcnt] at this
          constructor
          · rw [this.1]; omega
          · rw [this.2]; omega

/-- Counterexample to C2 as stated: with `N = 2` and a ship at 400 K, six calls on
a fresh gadget return true, true, true, true, false, false; the fourth call (the
second made while Exploding) is the one that leaves the gadget Expired, and it
returns true; false is returned on each call after it. -/
theorem Update_true_on_reaching_Expired :
    (runTrace 2 (new 7) (List.replicate 6 (argsAt 400 GameParameters.sample))).map
        (fun r => (r.result, r.gadget.mState))
      = [(true, .TriggeringExplosion), (true, .Exploding), (true, .Exploding),
         (true, .Expired), (false, .Expired), (false, .Expired)] := by
  have hT : (400 : ℚ) > GameParameters.BombsTemperatureTrigger := by
    norm_num [GameParameters.BombsTemperatureTrigger]
  simp [List.replicate, runTrace, Update, new, argsAt, uniformShip, GetAttachedSpringIndex,
    DetachIfAttached, hT]

/-- Witness of the amended C2: fresh gadget on spring 7, ship at 400 K, `N = 2`, six
calls; the call numbered 3 returns true and leaves the gadget Expired, the call
numbered 4 returns false. -/
theorem Update_false_only_after_Expired_witness :
    (((Update 2 (argsAt 400 GameParameters.sample) ⟨none, .Exploding, 1⟩).result = true
        ↔ 3 < 2 + 2)
      ∧ ((Update 2 (argsAt 400 GameParameters.sample) ⟨none, .Exploding, 1⟩).gadget.mState
        = .Expired ↔ 2 + 1 ≤ 3))
    ∧ (((Update 2 (argsAt 400 GameParameters.sample) ⟨none, .Expired, 2⟩).result = true
        ↔ 4 < 2 + 2)
      ∧ ((Update 2 (argsAt 400 GameParameters.sample) ⟨none, .Expired, 2⟩).gadget.mState
        = .Expired ↔ 2 + 1 ≤ 4)) := by
  have hT : (400 : ℚ) > GameParameters.BombsTemperatureTrigger := by
    norm_num [GameParameters.BombsTemperatureTrigger]
  have h := (Update_false_only_after_Expired 2 (by decide) (new 7) (Reachable.ctor 7) rfl 7 rfl
    (argsAt 400 GameParameters.sample) (Or.inl hT)
    (List.replicate 5 (argsAt 400 GameParameters.sample))).2
  refine ⟨h 3 _ ?_, h 4 _ ?_⟩
  · simp [List.replicate, runTrace, Update, new, argsAt, uniformShip, GetAttachedSpringIndex,
      DetachIfAttached, hT]
  · simp [List.replicate, runTrace, Update, new, argsAt, uniformShip, GetAttachedSpringIndex,
      DetachIfAttached, hT]

/-! ### The trigger condition -/

/-- C3. Trigger condition of an Idle gadget: one `Update` moves it to
TriggeringExplosion if and only if it is attached to a spring and the temperature
of endpoint A or of endpoint B of that spring is strictly above
`BombsTemperatureTrigger` (373.15); otherwise the gadget is left as it was, Idle;
in all cases the call returns true; and over any number of calls in which both
endpoint temperatures are at or below the threshold the gadget stays as it was. -/
theorem idle_trigger_condition (N : Nat) (g : ImpactBombGadget) (hIdle : g.mState = .Idle)
    (a : UpdateArgs) :
    ((Update N a g).gadget.mState = .TriggeringExplosion ↔
        ∃ s, g.mAttachedSpringIndex = some s
          ∧ (a.ship.GetTemperature (a.ship.GetEndpointAIndex s) > (37315 / 100 : ℚ)
            ∨ a.ship.GetTemperature (a.ship.GetEndpointBIndex s) > (37315 / 100 : ℚ)))
    ∧ ((¬ ∃ s, g.mAttachedSpringIndex = some s
          ∧ (a.ship.GetTemperature (a.ship.GetEndpointAIndex s) > (37315 / 100 : ℚ)
            ∨ a.ship.GetTemperature (a.ship.GetEndpointBIndex s) > (37315 / 100 : ℚ))) →
        (Update N a g).gadget = g ∧ (Update N a g).gadget.mState = .Idle)
    ∧ (Update N a g).result = true
    ∧ ∀ args : List UpdateArgs,
        (∀ b ∈ args, ∀ s, g.mAttachedSpringIndex = some s →
            b.ship.GetTemperature (b.ship.GetEndpointAIndex s) ≤ (37315 / 100 : ℚ)
            ∧ b.ship.GetTemperature (b.ship.GetEndpointBIndex s) ≤ (37315 / 100 : ℚ)) →
          runUpdates N g args = g ∧ (runUpdates N g args).mState = .Idle := by
  have hone : ∀ b : UpdateArgs,
      (¬ ∃ s, g.mAttachedSpringIndex = some s
          ∧ (b.ship.GetTemperature (b.ship.GetEndpointAIndex s) > (37315 / 100 : ℚ)
            ∨ b.ship.GetTemperature (b.ship.GetEndpointBIndex s) > (37315 / 100 : ℚ))) →
        Update N b g = { result := true, gadget := g, calls := [] } := by
    intro b hno
    cases hatt : g.mAttachedSpringIndex with
    | none => exact Update_of_Idle_detached N b g hIdle hatt
    | some s =>
      apply Update_of_Idle_cold N b g s hIdle hatt
      intro hT
      exact hno ⟨s, hatt, hT⟩
  refine ⟨?_, ?_, ?_, ?_⟩
  · constructor
    · intro h
      by_contra hno
      rw [hone a hno] at h
      simp [hIdle] at h
    · rintro ⟨s, hatt, hT⟩
      rw [Update_of_Idle_hot N a g s hIdle hatt hT]
  · intro hno
    rw [hone a hno]
    exact ⟨rfl, hIdle⟩
  · by_cases hc : ∃ s, g.mAttachedSpringIndex = some s
          ∧ (a.ship.GetTemperature (a.ship.GetEndpointAIndex s) > (37315 / 100 : ℚ)
            ∨ a.ship.GetTemperature (a.ship.GetEndpointBIndex s) > (37315 / 100 : ℚ))
    · obtain ⟨s, hatt, hT⟩ := hc
      rw [Update_of_Idle_hot N a g s hIdle hatt hT]
    · rw [hone a hc]
  · intro args
    induction args with
    | nil => intro _; exact ⟨rfl, hIdle⟩
    | cons b args ih =>
      intro hcold
      have hb : ¬ ∃ s, g.mAttachedSpringIndex = some s
          ∧ (b.ship.GetTemperature (b.ship.GetEndpointAIndex s) > (37315 / 100 : ℚ)
            ∨ b.ship.GetTemperature (b.ship.GetEndpointBIndex s) > (37315 / 100 : ℚ)) := by
        rintro ⟨s, hatt, hT⟩
        have := hcold b (List.mem_cons_self b args) s hatt
        rcases hT with hT | hT
        · exact absurd this.1 (not_le.mpr hT)
        · exact absurd this.2 (not_le.mpr hT)
      have hrest := ih (fun c hc => hcold c (List.mem_cons_of_mem b hc))
      simp only [runUpdates, hone b hb]
      exact hrest

/-- Witness of C3: a fresh gadget on spring 7; one call at 400 K triggers it, and
three calls at exactly 373.15 K leave it Idle. -/
theorem idle_trigger_condition_witness :
    (Update 3 (argsAt 400 GameParameters.sample) (new 7)).gadget.mState = .TriggeringExplosion
    ∧ (Update 3 (argsAt 400 GameParameters.sample) (new 7)).result = true
    ∧ (runUpdates 3 (new 7) (List.replicate 3 (argsAt (37315 / 100) GameParameters.sample))).mState
        = .Idle := by
  have h := idle_trigger_condition 3 (new 7) rfl (argsAt 400 GameParameters.sample)
  refine ⟨h.1.mpr ⟨7, rfl, Or.inl ?_⟩, h.2.2.1, (h.2.2.2 _ ?_).2⟩
  · norm_num [argsAt, uniformShip]
  · intro b hb s _
    rw [List.eq_of_mem_replicate hb]
    simp [argsAt, uniformShip]

/-! ### One-shot explosion -/

theorem rank_Update (N : Nat) (a : UpdateArgs) (g : ImpactBombGadget) :
    g.mState.rank ≤ (Update N a g).gadget.mState.rank
    ∧ (Update N a g).gadget.mState.rank ≤ g.mState.rank + 1 := by
  cases hg : g.mState with
  | Idle =>
    cases hatt : g.mAttachedSpringIndex with
    | none => simp [Update_of_Idle_detached N a g hg hatt, hg]
    | some s =>
      by_cases hT : a.ship.GetTemperature (a.ship.GetEndpointAIndex s)
          > GameParameters.BombsTemperatureTrigger
        ∨ a.ship.GetTemperature (a.ship.GetEndpointBIndex s)
          > GameParameters.BombsTemperatureTrigger
      · simp [Update_of_Idle_hot N a g s hg hatt hT, State.rank]
      · simp [Update_of_Idle_cold N a g s hg hatt hT, hg]
  | TriggeringExplosion => simp [Update_of_TriggeringExplosion N a g hg, State.rank]
  | Exploding =>
    by_cases hc : N ≤ g.mExplosionFadeoutCounter + 1
    · simp [Update_of_Exploding_last N a g hg hc, State.rank]
    · simp [Update_of_Exploding_more N a g hg (by omega), hg, State.rank]
  | Expired => simp [Update_of_Expired N a g hg, hg]

theorem calls_Update_of_not_Triggering (N : Nat) (a : UpdateArgs) (g : ImpactBombGadget)
    (hs : g.mState ≠ .TriggeringExplosion) : (Update N a g).calls = [] := by
  cases hg : g.mState with
  | Idle =>
    cases hatt : g.mAttachedSpringIndex with
    | none => simp [Update_of_Idle_detached N a g hg hatt]
    | some s =>
      by_cases hT : a.ship.GetTemperature (a.ship.GetEndpointAIndex s)
          > GameParameters.BombsTemperatureTrigger
        ∨ a.ship.GetTemperature (a.ship.GetEndpointBIndex s)
          > GameParameters.BombsTemperatureTrigger
      · simp [Update_of_Idle_hot N a g s hg hatt hT]
      · simp [Update_of_Idle_cold N a g s hg hatt hT]
  | TriggeringExplosion => exact absurd hg hs
  | Exploding =>
    by_cases hc : N ≤ g.mExplosionFadeoutCounter + 1
    · simp [Update_of_Exploding_last N a g hg hc]
    · simp [Update_of_Exploding_more N a g hg (by omega)]
  | Expired => simp [Update_of_Expired N a g hg]

theorem rank_runUpdates (N : Nat) (args : List UpdateArgs) :
    ∀ g : ImpactBombGadget, g.mState.rank ≤ (runUpdates N g args).mState.rank := by
  induction args with
  | nil => intro g; exact le_refl _
  | cons a args ih =>
    intro g
    exact le_trans (rank_Update N a g).1 (ih _)

/-- Once past TriggeringExplosion, a run makes no call and never is in that state;
from Idle or TriggeringExplosion it makes at most one `StartExplosion`, at most one
`OnBombExplosion`, and at most one of its calls is made in TriggeringExplosion. -/
theorem run_counts (N : Nat) (args : List UpdateArgs) :
    ∀ g : ImpactBombGadget,
      ((runCalls N g args).countP Call.isStartExplosion ≤ 1
        ∧ (runCalls N g args).countP Call.isOnBombExplosion ≤ 1
        ∧ (runStates N g args).count .TriggeringExplosion ≤ 1)
      ∧ (2 ≤ g.mState.rank →
          runCalls N g args = [] ∧ (runStates N g args).count .TriggeringExplosion = 0) := by
  induction args with
  | nil => intro g; simp [runCalls, runStates]
  | cons a args ih =>
    intro g
    have hnext := ih (Update N a g).gadget
    by_cases hs : g.mState = .TriggeringExplosion
    · have hstep := Update_of_TriggeringExplosion N a g hs
      have h2 : 2 ≤ (Update N a g).gadget.mState.rank := by rw [hstep]; simp [State.rank]
      have hz := hnext.2 h2
      constructor
      · simp only [runCalls, runStates, hz.1, List.append_nil, hs, List.count_cons_self, hz.2]
        rw [hstep]
        simp [Call.isStartExplosion, Call.isOnBombExplosion, List.countP_cons]
      · intro h; rw [hs] at h; simp [State.rank] at h
    · have hcalls := calls_Update_of_not_Triggering N a g hs
      have hne : (g.mState == State.TriggeringExplosion) = false := by simpa using hs
      constructor
      · simp only [runCalls, runStates, hcalls, List.nil_append, List.count_cons, hne]
        simpa using hnext.1
      · intro h
        have h2 : 2 ≤ (Update N a g).gadget.mState.rank := le_trans h (rank_Update N a g).1
        have hz := hnext.2 h2
        simp only [runCalls, runStates, hcalls, List.nil_append, List.count_cons, hne]
        simpa using hz

/-- C4. One-shot explosion. Over any sequence of `Update` calls on one gadget,
from any state: `StartExplosion` is called at most once and `OnBombExplosion` at
most once, and at most one call is made in state TriggeringExplosion. A call makes
them exactly when it is made in TriggeringExplosion: its calls are then
`DetachIfAttached`, `StartExplosion`, `OnBombExplosion` in this order, the position
passed is the one of the detached gadget, and the gadget is left detached and
Exploding. A call never moves the state backwards in the order Idle,
TriggeringExplosion, Exploding, Expired nor skips a state, and Expired is never
left. -/
theorem one_shot_explosion (N : Nat) (g : ImpactBombGadget) (args : List UpdateArgs) :
    (runCalls N g args).countP Call.isStartExplosion ≤ 1
    ∧ (runCalls N g args).countP Call.isOnBombExplosion ≤ 1
    ∧ (runStates N g args).count .TriggeringExplosion ≤ 1
    ∧ (∀ (a : UpdateArgs) (h : ImpactBombGadget),
        (h.mState ≠ .TriggeringExplosion → (Update N a h).calls = [])
        ∧ (h.mState = .TriggeringExplosion →
            (Update N a h).calls =
              [ Call.DetachIfAttached,
                Call.StartExplosion a.currentSimulationTime
                  (a.ship.GetPlaneId (DetachIfAttached h))
                  (a.ship.GetPosition (DetachIfAttached h)) (blastRadius a.gameParameters)
                  (blastStrength a.gameParameters) (blastHeat a.gameParameters)
                  ExplosionType.Deflagration a.gameParameters,
                Call.OnBombExplosion GadgetType.ImpactBomb
                  (a.ship.IsUnderwater (a.ship.GetPosition (DetachIfAttached h))) 1 ]
            ∧ (Update N a h).gadget.mAttachedSpringIndex = none
            ∧ (Update N a h).gadget.mState = .Exploding)
        ∧ h.mState.rank ≤ (Update N a h).gadget.mState.rank
        ∧ (Update N a h).gadget.mState.rank ≤ h.mState.rank + 1)
    ∧ g.mState.rank ≤ (runUpdates N g args).mState.rank
    ∧ (g.mState = .Expired → (runUpdates N g args).mState = .Expired) := by
  have hc := (run_counts N args g).1
  refine ⟨hc.1, hc.2.1, hc.2.2, ?_, rank_runUpdates N args g, ?_⟩
  · intro a h
    refine ⟨calls_Update_of_not_Triggering N a h, ?_, (rank_Update N a h).1,
      (rank_Update N a h).2⟩
    intro hs
    rw [Update_of_TriggeringExplosion N a h hs]
    simp [DetachIfAttached]
  · intro hs
    have h3 := rank_runUpdates N args g
    rw [hs] at h3
    cases hfin : (runUpdates N g args).mState <;> simp [hfin, State.rank] at h3
    rfl

/-! ### Ultra-violent mode -/

/-- The blast values a call made in TriggeringExplosion passes to `StartExplosion`. -/
theorem blasts_of_Triggering (N : Nat) (a : UpdateArgs) (g : ImpactBombGadget)
    (hs : g.mState = .TriggeringExplosion) :
    (Update N a g).calls.filterMap Call.blast
      = [(blastRadius a.gameParameters, blastStrength a.gameParameters,
          blastHeat a.gameParameters)] := by
  rw [Update_of_TriggeringExplosion N a g hs]
  simp [List.filterMap, Call.blast]

/-- C5, as the code has it. For the same other arguments, the blast radius and the
blast heat that `Update` passes to `StartExplosion` are exactly 10 times larger when
`IsUltraViolentMode` is true than when it is false; the blast strength is the same in
both modes, 60 times `BombBlastForceAdjustment`. -/
theorem ultra_violent_scaling (N : Nat) (a : UpdateArgs) (g : ImpactBombGadget)
    (hs : g.mState = .TriggeringExplosion) :
    ∃ radius strength heat : ℚ,
      (Update N (withUltraViolentMode a false) g).calls.filterMap Call.blast
          = [(radius, strength, heat)]
      ∧ (Update N (withUltraViolentMode a true) g).calls.filterMap Call.blast
          = [(10 * radius, strength, 10 * heat)]
      ∧ strength = 60 * a.gameParameters.BombBlastForceAdjustment := by
  refine ⟨a.gameParameters.BombBlastRadius, 60 * a.gameParameters.BombBlastForceAdjustment,
    a.gameParameters.BombBlastHeat * (12 / 10), ?_, ?_, rfl⟩
  · rw [blasts_of_Triggering N _ g hs]
    simp [withUltraViolentMode, blastRadius, blastStrength, blastHeat]
  · rw [blasts_of_Triggering N _ g hs]
    simp only [withUltraViolentMode, blastRadius, blastStrength, blastHeat, if_true]
    simp only [List.cons.injEq, Prod.mk.injEq, and_true, true_and]
    constructor
    · ring
    · ring

/-- Witness of the amended C5: a triggering gadget and the sample parameters. -/
theorem ultra_violent_scaling_witness :
    ∃ radius strength heat : ℚ,
      (Update 3 (withUltraViolentMode (argsAt 400 GameParameters.sample) false)
          ⟨some 7, .TriggeringExplosion, 0⟩).calls.filterMap Call.blast
          = [(radius, strength, heat)]
      ∧ (Update 3 (withUltraViolentMode (argsAt 400 GameParameters.sample) true)
          ⟨some 7, .TriggeringExplosion, 0⟩).calls.filterMap Call.blast
          = [(10 * radius, strength, 10 * heat)]
      ∧ strength = 60 * (argsAt 400 GameParameters.sample).gameParameters.BombBlastForceAdjustment :=
  ultra_violent_scaling 3 (argsAt 400 GameParameters.sample) ⟨some 7, .TriggeringExplosion, 0⟩ rfl

/-- Counterexample to C5 as stated: with the sample parameters (radius 2, heat 100,
force adjustment 1) the call passes (2, 60, 120) in normal mode and (20, 60, 1200)
in ultra-violent mode: the strength is 60 in both, not 600. -/
theorem blast_strength_not_scaled :
    (Update 3 (withUltraViolentMode (argsAt 400 GameParameters.sample) false)
        ⟨some 7, .TriggeringExplosion, 0⟩).calls.filterMap Call.blast = [(2, 60, 120)]
    ∧ (Update 3 (withUltraViolentMode (argsAt 400 GameParameters.sample) true)
        ⟨some 7, .TriggeringExplosion, 0⟩).calls.filterMap Call.blast = [(20, 60, 1200)]
    ∧ (60 : ℚ) ≠ 10 * 60 := by
  refine ⟨?_, ?_, by norm_num⟩
  · rw [blasts_of_Triggering 3 _ _ rfl]
    norm_num [withUltraViolentMode, argsAt, GameParameters.sample, blastRadius, blastStrength,
      blastHeat]
  · rw [blasts_of_Triggering 3 _ _ rfl]
    norm_num [withUltraViolentMode, argsAt, GameParameters.sample, blastRadius, blastStrength,
      blastHeat]

end ImpactBombGadget

end Physics

/-! ### Upload -/

namespace Physics

namespace ImpactBombGadget

/-- While a reachable gadget is Exploding its fade-out counter is below `N`. -/
theorem Reachable.counter_lt {N : Nat} (hN : 1 ≤ N) {g : ImpactBombGadget}
    (h : Reachable N g) : g.mState = .Exploding → g.mExplosionFadeoutCounter < N := by
  induction h with
  | ctor s =>
    intro hst
    simp [new] at hst
  | update a g hr ih =>
    intro hst
    cases hg : g.mState with
    | Idle =>
      cases hatt : g.mAttachedSpringIndex with
      | none =>
        rw [Update_of_Idle_detached N a g hg hatt] at hst
        rw [hg] at hst
        cases hst
      | some s =>
        by_cases hT : a.ship.GetTemperature (a.ship.GetEndpointAIndex s)
            > GameParameters.BombsTemperatureTrigger
          ∨ a.ship.GetTemperature (a.ship.GetEndpointBIndex s)
            > GameParameters.BombsTemperatureTrigger
        · rw [Update_of_Idle_hot N a g s hg hatt hT] at hst
          simp at hst
        · rw [Update_of_Idle_cold N a g s hg hatt hT] at hst
          rw [hg] at hst
          cases hst
    | TriggeringExplosion =>
      rw [Update_of_TriggeringExplosion N a g hg]
      have h0 : g.mExplosionFadeoutCounter = 0 := hr.counter_zero (Or.inr hg)
      show (DetachIfAttached g).mExplosionFadeoutCounter < N
      have : (DetachIfAttached g).mExplosionFadeoutCounter = g.mExplosionFadeoutCounter := rfl
      omega
    | Exploding =>
      by_cases hc : N ≤ g.mExplosionFadeoutCounter + 1
      · rw [Update_of_Exploding_last N a g hg hc] at hst
        simp at hst
      · rw [Update_of_Exploding_more N a g hg (by omega)]
        show g.mExplosionFadeoutCounter + 1 < N
        omega
    | Expired =>
      rw [Update_of_Expired N a g hg] at hst
      rw [hg] at hst
      cases hst
  | detach g _ ih =>
    intro hst
    exact ih hst

/-- C29. Fade-out invariant: for `N >= 1`, every gadget reachable from construction
through `Update` calls (and detaching) that is Exploding has
`mExplosionFadeoutCounter < N`; so the progress `(counter + 1) / N` that `Upload`
computes lies in (0, 1], the one call `Upload` makes carries alpha `1 - progress`,
which lies in [0, 1); and `Upload` leaves the gadget, so `mState` and the counter,
as they were, in every state. -/
theorem Upload_fadeout_invariant (N : Nat) (hN : 1 ≤ N) (view : GadgetView)
    (g : ImpactBombGadget) (hr : Reachable N g) :
    (Upload N view g).gadget = g
    ∧ (g.mState = .Exploding →
        g.mExplosionFadeoutCounter < N
        ∧ 0 < uploadProgress N g ∧ uploadProgress N g ≤ 1
        ∧ ∃ call : UploadCall, (Upload N view g).calls = [call]
            ∧ call.alpha = 1 - uploadProgress N g
            ∧ 0 ≤ call.alpha ∧ call.alpha < 1) := by
  constructor
  · unfold Upload
    cases g.mState <;> rfl
  · intro hst
    have hlt := hr.counter_lt hN hst
    have hNpos : (0 : ℚ) < (N : ℚ) := by exact_mod_cast hN
    have hpos : 0 < uploadProgress N g := by
      unfold uploadProgress
      apply div_pos _ hNpos
      exact_mod_cast Nat.succ_pos _
    have hle : uploadProgress N g ≤ 1 := by
      unfold uploadProgress
      rw [div_le_one hNpos]
      exact_mod_cast hlt
    refine ⟨hlt, hpos, hle, ?_⟩
    have hcalls : (Upload N view g).calls
        = [UploadCall.mk (view.GetPlaneId g) (view.GetPosition g) 1 (view.mRotationBaseAxis g)
            (view.GetRotationOffsetAxis g) (1 - uploadProgress N g)] := by
      simp only [Upload, hst]
    refine ⟨_, hcalls, rfl, ?_, ?_⟩
    · show 0 ≤ 1 - uploadProgress N g
      linarith
    · show 1 - uploadProgress N g < 1
      linarith

/-- Witness of C29: with `N = 3`, the gadget built on spring 7 and updated twice on a
ship at 400 K is Exploding with counter 0; `Upload` draws it with alpha 2/3. -/
theorem Upload_fadeout_invariant_witness :
    (Update 3 (argsAt 400 GameParameters.sample)
      (Update 3 (argsAt 400 GameParameters.sample) (new 7)).gadget).gadget.mState = .Exploding
    ∧ (Upload 3 sampleView (Update 3 (argsAt 400 GameParameters.sample)
        (Update 3 (argsAt 400 GameParameters.sample) (new 7)).gadget).gadget).gadget
      = (Update 3 (argsAt 400 GameParameters.sample)
        (Update 3 (argsAt 400 GameParameters.sample) (new 7)).gadget).gadget
    ∧ (Update 3 (argsAt 400 GameParameters.sample)
        (Update 3 (argsAt 400 GameParameters.sample) (new 7)).gadget).gadget.mExplosionFadeoutCounter
      < 3 := by
  have hT : (argsAt 400 GameParameters.sample).ship.GetTemperature
        ((argsAt 400 GameParameters.sample).ship.GetEndpointAIndex 7)
          > GameParameters.BombsTemperatureTrigger
      ∨ (argsAt 400 GameParameters.sample).ship.GetTemperature
        ((argsAt 400 GameParameters.sample).ship.GetEndpointBIndex 7)
          > GameParameters.BombsTemperatureTrigger :=
    Or.inl (by norm_num [argsAt, uniformShip, GameParameters.BombsTemperatureTrigger])
  have h1 := Update_of_Idle_hot 3 (argsAt 400 GameParameters.sample) (new 7) 7 rfl rfl hT
  have h2 := Update_of_TriggeringExplosion 3 (argsAt 400 GameParameters.sample)
    (Update 3 (argsAt 400 GameParameters.sample) (new 7)).gadget (by rw [h1])
  have hst : (Update 3 (argsAt 400 GameParameters.sample)
      (Update 3 (argsAt 400 GameParameters.sample) (new 7)).gadget).gadget.mState
        = .Exploding := by rw [h2]
  have h := Upload_fadeout_invariant 3 (by decide) sampleView _
    (Reachable.update (argsAt 400 GameParameters.sample) _
      (Reachable.update (argsAt 400 GameParameters.sample) _ (Reachable.ctor 7)))
  exact ⟨hst, h.1, (h.2 hst).1⟩

end ImpactBombGadget

end Physics

/-! ## Theorems: Thanos snap -/

namespace GameController

variable {T D : Type}

/-! ### One state machine -/

/-- The result of `UpdateThanosSnapStateMachine` in closed form. -/
theorem UpdateThanosSnapStateMachine_eq (gp : GameParameters) (sm : ThanosSnapStateMachine)
    (t : ℚ) :
    UpdateThanosSnapStateMachine gp sm t =
      (decide (sm.CenterX - (t - sm.StartSimulationTimestamp) * 25 + 1 / 4 > -2500)
          || decide (sm.CenterX + (t - sm.StartSimulationTimestamp) * 25 - 1 / 4 < 2500),
        (if sm.CenterX - (t - sm.StartSimulationTimestamp) * 25 + 1 / 4 > -2500 then
            [ControllerCall.ApplyThanosSnap sm.CenterX ((t - sm.StartSimulationTimestamp) * 25)
              (sm.CenterX - (t - sm.StartSimulationTimestamp) * 25)
              (sm.CenterX - (t - sm.StartSimulationTimestamp) * 25 + 1 / 4) t gp]
          else [])
        ++ (if sm.CenterX + (t - sm.StartSimulationTimestamp) * 25 - 1 / 4 < 2500 then
            [ControllerCall.ApplyThanosSnap sm.CenterX ((t - sm.StartSimulationTimestamp) * 25)
              (sm.CenterX + (t - sm.StartSimulationTimestamp) * 25 - 1 / 4)
              (sm.CenterX + (t - sm.StartSimulationTimestamp) * 25) t gp]
          else [])) := by
  have h1 : (25 : ℚ) * GameParameters.SimulationStepTimeDuration / 2 = 1 / 4 := by
    norm_num [GameParameters.SimulationStepTimeDuration]
  have h2 : GameParameters.HalfMaxWorldWidth = 2500 := by
    norm_num [GameParameters.HalfMaxWorldWidth, GameParameters.MaxWorldWidth]
  simp only [UpdateThanosSnapStateMachine, h1, h2]
  by_cases hl : sm.CenterX - (t - sm.StartSimulationTimestamp) * 25 + 1 / 4 > -2500 <;>
    by_cases hr : sm.CenterX + (t - sm.StartSimulationTimestamp) * 25 - 1 / 4 < 2500 <;>
    simp only [hl, hr, if_true, if_false, decide_True, decide_False, Bool.or_self, Bool.or_true,
      Bool.or_false, List.nil_append, List.append_nil]

/-- A state machine's update makes no silence call. -/
theorem UpdateThanosSnapStateMachine_no_silence (gp : GameParameters)
    (sm : ThanosSnapStateMachine) (t : ℚ) :
    (UpdateThanosSnapStateMachine gp sm t).2.filter ControllerCall.isSilenceCall = [] := by
  rw [UpdateThanosSnapStateMachine_eq]
  by_cases hl : sm.CenterX - (t - sm.StartSimulationTimestamp) * 25 + 1 / 4 > -2500 <;>
    by_cases hr : sm.CenterX + (t - sm.StartSimulationTimestamp) * 25 - 1 / 4 < 2500 <;>
    simp [hl, hr, ControllerCall.isSilenceCall, ControllerCall.isOnSilenceStarted,
      ControllerCall.isOnSilenceLifted, ControllerCall.isSetSilence]

/-- C9. Thanos-snap completion. With radius = (currentSimulationTime -
StartSimulationTimestamp) * 25 and half a slice width = 25 * 0.02 / 2 = 1/4,
`UpdateThanosSnapStateMachine` returns false if and only if
CenterX - radius + 1/4 <= -2500 and CenterX + radius - 1/4 >= 2500; otherwise it
returns true; and its `ApplyThanosSnap` calls are one for the left side when the left
inner edge is above -2500, then one for the right side when the right inner edge is
below 2500, and no other. -/
theorem thanos_completion (gp : GameParameters) (sm : ThanosSnapStateMachine) (t : ℚ) :
    ((UpdateThanosSnapStateMachine gp sm t).1 = false ↔
        sm.CenterX - (t - sm.StartSimulationTimestamp) * 25 + 25 * (2 / 100) / 2 ≤ -2500
        ∧ sm.CenterX + (t - sm.StartSimulationTimestamp) * 25 - 25 * (2 / 100) / 2 ≥ 2500)
    ∧ ((UpdateThanosSnapStateMachine gp sm t).1 = true ↔
        sm.CenterX - (t - sm.StartSimulationTimestamp) * 25 + 25 * (2 / 100) / 2 > -2500
        ∨ sm.CenterX + (t - sm.StartSimulationTimestamp) * 25 - 25 * (2 / 100) / 2 < 2500)
    ∧ (UpdateThanosSnapStateMachine gp sm t).2 =
        (if sm.CenterX - (t - sm.StartSimulationTimestamp) * 25 + 25 * (2 / 100) / 2 > -2500 then
            [ControllerCall.ApplyThanosSnap sm.CenterX ((t - sm.StartSimulationTimestamp) * 25)
              (sm.CenterX - (t - sm.StartSimulationTimestamp) * 25)
              (sm.CenterX - (t - sm.StartSimulationTimestamp) * 25 + 25 * (2 / 100) / 2) t gp]
          else [])
        ++ (if sm.CenterX + (t - sm.StartSimulationTimestamp) * 25 - 25 * (2 / 100) / 2 < 2500 then
            [ControllerCall.ApplyThanosSnap sm.CenterX ((t - sm.StartSimulationTimestamp) * 25)
              (sm.CenterX + (t - sm.StartSimulationTimestamp) * 25 - 25 * (2 / 100) / 2)
              (sm.CenterX + (t - sm.StartSimulationTimestamp) * 25) t gp]
          else []) := by
  have hq : (25 : ℚ) * (2 / 100) / 2 = 1 / 4 := by norm_num
  rw [UpdateThanosSnapStateMachine_eq, hq]
  refine ⟨?_, ?_, rfl⟩
  · simp only [Bool.or_eq_false_iff, decide_eq_false_iff_not, not_lt, ge_iff_le, gt_iff_lt]
  · simp only [Bool.or_eq_true, decide_eq_true_eq]

/-! ### The update loop -/

/-- The Thanos-snap loop, from any iterator position: the collection it leaves, the
world it leaves, the silence calls it makes, and where they stand among its calls. -/
theorem updateThanosSnaps_spec (gp : GameParameters) (t : ℚ) :
    ∀ (remaining visited : List ThanosSnapStateMachine) (world : World),
      (updateThanosSnaps gp t visited remaining world).1
          = visited ++ remaining.filter (fun m => (UpdateThanosSnapStateMachine gp m t).1)
      ∧ (updateThanosSnaps gp t visited remaining world).2.1
          = (if remaining ≠ []
                ∧ visited ++ remaining.filter (fun m => (UpdateThanosSnapStateMachine gp m t).1)
                  = [] then
              world.SetSilence 0 else world)
      ∧ (updateThanosSnaps gp t visited remaining world).2.2.filter ControllerCall.isSilenceCall
          = (if remaining ≠ []
                ∧ visited ++ remaining.filter (fun m => (UpdateThanosSnapStateMachine gp m t).1)
                  = [] then
              [ControllerCall.SetSilence 0, ControllerCall.OnSilenceLifted] else [])
      ∧ (remaining ≠ []
            ∧ visited ++ remaining.filter (fun m => (UpdateThanosSnapStateMachine gp m t).1)
              = [] →
          ∃ before, (updateThanosSnaps gp t visited remaining world).2.2
            = before ++ [ControllerCall.SetSilence 0, ControllerCall.OnSilenceLifted]) := by
  intro remaining
  induction remaining with
  | nil =>
    intro visited world
    simp [updateThanosSnaps]
  | cons m rest ih =>
    intro visited world
    have hsil := UpdateThanosSnapStateMachine_no_silence gp m t
    cases halive : (UpdateThanosSnapStateMachine gp m t).1 with
    | false =>
      have hfilter : (m :: rest).filter (fun m => (UpdateThanosSnapStateMachine gp m t).1)
          = rest.filter (fun m => (UpdateThanosSnapStateMachine gp m t).1) := by
        simp [List.filter_cons, halive]
      by_cases hempty : (visited ++ rest).isEmpty = true
      · have hboth : visited = [] ∧ rest = [] := by
          simpa [List.isEmpty_iff] using hempty
        obtain ⟨hv, hr⟩ := hboth
        subst hv
        subst hr
        simp only [updateThanosSnaps, halive, List.append_nil, List.isEmpty_nil, Bool.not_false,
          if_true, List.filter_cons, List.filter_nil, List.nil_append]
        simp [hsil, ControllerCall.isSilenceCall, ControllerCall.isOnSilenceStarted,
          ControllerCall.isOnSilenceLifted, ControllerCall.isSetSilence]
      · have hne : visited ++ rest ≠ [] := by
          simpa [List.isEmpty_iff] using hempty
        have hcond : ((m :: rest) ≠ []
              ∧ visited ++ rest.filter (fun m => (UpdateThanosSnapStateMachine gp m t).1) = [])
            ↔ (rest ≠ []
              ∧ visited ++ rest.filter (fun m => (UpdateThanosSnapStateMachine gp m t).1) = []) := by
          constructor
          · rintro ⟨_, h⟩
            refine ⟨?_, h⟩
            intro hr
            apply hne
            rw [hr]
            rw [hr] at h
            simpa using h
          · rintro ⟨_, h⟩
            exact ⟨List.cons_ne_nil _ _, h⟩
        obtain ⟨ih1, ih2, ih3, ih4⟩ := ih visited world
        have hstep : updateThanosSnaps gp t visited (m :: rest) world
            = ((updateThanosSnaps gp t visited rest world).1,
               (updateThanosSnaps gp t visited rest world).2.1,
               (UpdateThanosSnapStateMachine gp m t).2
                 ++ (updateThanosSnaps gp t visited rest world).2.2) := by
          simp [updateThanosSnaps, halive, hempty]
        rw [hstep, hfilter]
        simp only [hcond]
        refine ⟨ih1, ih2, ?_, ?_⟩
        · rw [List.filter_append, hsil, List.nil_append]
          exact ih3
        · intro h
          obtain ⟨before, hb⟩ := ih4 h
          exact ⟨(UpdateThanosSnapStateMachine gp m t).2 ++ before, by
            simp only [hb, List.append_assoc]⟩
    | true =>
      have hfilter : (m :: rest).filter (fun m => (UpdateThanosSnapStateMachine gp m t).1)
          = m :: rest.filter (fun m => (UpdateThanosSnapStateMachine gp m t).1) := by
        simp [List.filter_cons, halive]
      obtain ⟨ih1, ih2, ih3, _⟩ := ih (visited ++ [m]) world
      have hstep : updateThanosSnaps gp t visited (m :: rest) world
          = ((updateThanosSnaps gp t (visited ++ [m]) rest world).1,
             (updateThanosSnaps gp t (visited ++ [m]) rest world).2.1,
             (UpdateThanosSnapStateMachine gp m t).2
               ++ (updateThanosSnaps gp t (visited ++ [m]) rest world).2.2) := by
        simp [updateThanosSnaps, halive]
      have hno : ¬ (rest ≠ []
          ∧ visited ++ [m] ++ rest.filter (fun m => (UpdateThanosSnapStateMachine gp m t).1)
            = []) := by
        simp
      have hno2 : ¬ ((m :: rest) ≠ []
          ∧ visited ++ m :: rest.filter (fun m => (UpdateThanosSnapStateMachine gp m t).1)
            = []) := by
        simp
      rw [if_neg hno] at ih2 ih3
      rw [hstep, hfilter]
      simp only [if_neg hno2]
      refine ⟨?_, ih2, ?_, ?_⟩
      · rw [ih1]; simp
      · rw [List.filter_append, hsil, List.nil_append]
        exact ih3
      · intro h
        exact absurd h hno2

/-! ### Starting a snap -/

theorem StartThanosSnapStateMachine_of_empty (gc : GameController T D) (x t : ℚ)
    (h : gc.mThanosSnapStateMachines = []) :
    StartThanosSnapStateMachine x t gc =
      { controller :=
          { gc with mWorld := gc.mWorld.SetSilence 1, mThanosSnapStateMachines := [⟨x, t⟩] }
        calls := [ControllerCall.OnSilenceStarted, ControllerCall.SetSilence 1] } := by
  simp [StartThanosSnapStateMachine, h]

theorem StartThanosSnapStateMachine_of_nonempty (gc : GameController T D) (x t : ℚ)
    (h : gc.mThanosSnapStateMachines ≠ []) :
    StartThanosSnapStateMachine x t gc =
      { controller :=
          { gc with
            mThanosSnapStateMachines :=
              (if gc.mThanosSnapStateMachines.length = 8 then gc.mThanosSnapStateMachines.tail
                else gc.mThanosSnapStateMachines) ++ [⟨x, t⟩] }
        calls := [] } := by
  have : gc.mThanosSnapStateMachines.isEmpty = false := by
    cases hl : gc.mThanosSnapStateMachines with
    | nil => exact absurd hl h
    | cons _ _ => rfl
  simp [StartThanosSnapStateMachine, this, GameParameters.MaxThanosSnaps]

/-! ### The whole update -/

theorem UpdateStateMachines_thanos (tsunamiUpdate : T → Bool × T) (dayLightUpdate : D → D)
    (t : ℚ) (gc : GameController T D) :
    (UpdateStateMachines tsunamiUpdate dayLightUpdate t gc).controller.mThanosSnapStateMachines
        = (updateThanosSnaps gc.mGameParameters t [] gc.mThanosSnapStateMachines gc.mWorld).1
    ∧ (UpdateStateMachines tsunamiUpdate dayLightUpdate t gc).controller.mWorld
        = (updateThanosSnaps gc.mGameParameters t [] gc.mThanosSnapStateMachines gc.mWorld).2.1
    ∧ (UpdateStateMachines tsunamiUpdate dayLightUpdate t gc).calls
        = (updateThanosSnaps gc.mGameParameters t [] gc.mThanosSnapStateMachines gc.mWorld).2.2
    ∧ (UpdateStateMachines tsunamiUpdate dayLightUpdate t gc).controller.mGameParameters
        = gc.mGameParameters := by
  simp [UpdateStateMachines]

/-- C6. Thanos-snap silence events. `StartThanosSnapStateMachine` on an empty
collection makes exactly the calls `OnSilenceStarted`, `SetSilence(1)`; on a
non-empty collection (full or not) it makes no call. `UpdateStateMachines` keeps the
snaps whose update returns true; its silence calls are `SetSilence(0)`,
`OnSilenceLifted`, once each and as the last calls of the update, when the
collection was non-empty before and is empty after, and none at all otherwise. -/
theorem thanos_silence_events (tsunamiUpdate : T → Bool × T) (dayLightUpdate : D → D)
    (gc : GameController T D) (x t : ℚ) :
    (gc.mThanosSnapStateMachines = [] →
        (StartThanosSnapStateMachine x t gc).calls
            = [ControllerCall.OnSilenceStarted, ControllerCall.SetSilence 1]
        ∧ (StartThanosSnapStateMachine x t gc).controller.mWorld.silence = 1)
    ∧ (gc.mThanosSnapStateMachines ≠ [] → (StartThanosSnapStateMachine x t gc).calls = [])
    ∧ (UpdateStateMachines tsunamiUpdate dayLightUpdate t gc).controller.mThanosSnapStateMachines
        = gc.mThanosSnapStateMachines.filter
            (fun m => (UpdateThanosSnapStateMachine gc.mGameParameters m t).1)
    ∧ (UpdateStateMachines tsunamiUpdate dayLightUpdate t gc).calls.filter
          ControllerCall.isSilenceCall
        = (if gc.mThanosSnapStateMachines ≠ []
              ∧ (UpdateStateMachines tsunamiUpdate dayLightUpdate t
                  gc).controller.mThanosSnapStateMachines = [] then
            [ControllerCall.SetSilence 0, ControllerCall.OnSilenceLifted] else [])
    ∧ (UpdateStateMachines tsunamiUpdate dayLightUpdate t gc).calls.countP
          ControllerCall.isOnSilenceLifted
        = (if gc.mThanosSnapStateMachines ≠ []
              ∧ (UpdateStateMachines tsunamiUpdate dayLightUpdate t
                  gc).controller.mThanosSnapStateMachines = [] then 1 else 0)
    ∧ (gc.mThanosSnapStateMachines ≠ []
          ∧ (UpdateStateMachines tsunamiUpdate dayLightUpdate t
              gc).controller.mThanosSnapStateMachines = [] →
        (∃ before, (UpdateStateMachines tsunamiUpdate dayLightUpdate t gc).calls
          = before ++ [ControllerCall.SetSilence 0, ControllerCall.OnSilenceLifted])
        ∧ (UpdateStateMachines tsunamiUpdate dayLightUpdate t gc).controller.mWorld.silence
          = 0) := by
  obtain ⟨hu1, hu2, hu3, _⟩ := UpdateStateMachines_thanos tsunamiUpdate dayLightUpdate t gc
  obtain ⟨hs1, hs2, hs3, hs4⟩ :=
    updateThanosSnaps_spec gc.mGameParameters t gc.mThanosSnapStateMachines [] gc.mWorld
  simp only [List.nil_append] at hs1 hs2 hs3 hs4
  have hfin : (UpdateStateMachines tsunamiUpdate dayLightUpdate t
      gc).controller.mThanosSnapStateMachines
        = gc.mThanosSnapStateMachines.filter
            (fun m => (UpdateThanosSnapStateMachine gc.mGameParameters m t).1) := by
    rw [hu1, hs1]
  have hfilter : (UpdateStateMachines tsunamiUpdate dayLightUpdate t gc).calls.filter
          ControllerCall.isSilenceCall
        = (if gc.mThanosSnapStateMachines ≠ []
              ∧ (UpdateStateMachines tsunamiUpdate dayLightUpdate t
                  gc).controller.mThanosSnapStateMachines = [] then
            [ControllerCall.SetSilence 0, ControllerCall.OnSilenceLifted] else []) := by
    rw [hu3, hs3, hfin]
  refine ⟨?_, ?_, hfin, hfilter, ?_, ?_⟩
  · intro h
    rw [StartThanosSnapStateMachine_of_empty gc x t h]
    exact ⟨rfl, rfl⟩
  · intro h
    rw [StartThanosSnapStateMachine_of_nonempty gc x t h]
  · have hcount : ∀ l : List ControllerCall,
        l.countP ControllerCall.isOnSilenceLifted
          = (l.filter ControllerCall.isSilenceCall).countP ControllerCall.isOnSilenceLifted := by
      intro l
      induction l with
      | nil => rfl
      | cons c l ih =>
        cases c <;>
          simp [List.countP_cons, List.filter_cons, ControllerCall.isSilenceCall,
            ControllerCall.isOnSilenceStarted, ControllerCall.isOnSilenceLifted,
            ControllerCall.isSetSilence, ih]
    rw [hcount, hfilter]
    split_ifs <;> simp [List.countP_cons, ControllerCall.isOnSilenceLifted]
  · intro h
    rw [hfin] at h
    refine ⟨?_, ?_⟩
    · rw [hu3]
      exact hs4 h
    · rw [hu2, hs2, if_pos h]
      rfl

/-! ### Silence and the collection -/

theorem silenceMatches_Start (gc : GameController T D) (x t : ℚ) (h : silenceMatches gc) :
    silenceMatches (StartThanosSnapStateMachine x t gc).controller := by
  by_cases he : gc.mThanosSnapStateMachines = []
  · rw [StartThanosSnapStateMachine_of_empty gc x t he]
    simp [silenceMatches, World.SetSilence]
  · rw [StartThanosSnapStateMachine_of_nonempty gc x t he]
    simp only [silenceMatches, if_neg he] at h
    simp [silenceMatches, h]

theorem silenceMatches_Update (tsunamiUpdate : T → Bool × T) (dayLightUpdate : D → D)
    (gc : GameController T D) (t : ℚ) (h : silenceMatches gc) :
    silenceMatches (UpdateStateMachines tsunamiUpdate dayLightUpdate t gc).controller := by
  obtain ⟨hu1, hu2, _, _⟩ := UpdateStateMachines_thanos tsunamiUpdate dayLightUpdate t gc
  obtain ⟨hs1, hs2, _, _⟩ :=
    updateThanosSnaps_spec gc.mGameParameters t gc.mThanosSnapStateMachines [] gc.mWorld
  simp only [List.nil_append] at hs1 hs2
  unfold silenceMatches at h ⊢
  rw [hu1, hu2, hs1, hs2]
  by_cases he : gc.mThanosSnapStateMachines = []
  · simp [he] at h ⊢
    exact h
  · rw [if_neg he] at h
    by_cases hf : gc.mThanosSnapStateMachines.filter
        (fun m => (UpdateThanosSnapStateMachine gc.mGameParameters m t).1) = []
    · simp [he, hf, World.SetSilence]
    · simp [hf, h]

/-- Without `ResetStateMachines`, silence is on exactly while a snap is active. -/
theorem silenceMatches_run_without_Reset (tsunamiUpdate : T → Bool × T)
    (dayLightUpdate : D → D) (ops : List Op) :
    ∀ gc : GameController T D, silenceMatches gc → (∀ op ∈ ops, op.isReset = false) →
      silenceMatches (run tsunamiUpdate dayLightUpdate gc ops).controller := by
  induction ops with
  | nil => intro gc h _; exact h
  | cons op ops ih =>
    intro gc h hops
    have hop := hops op (List.mem_cons_self op ops)
    have hrest : ∀ o ∈ ops, o.isReset = false := fun o ho => hops o (List.mem_cons_of_mem op ho)
    simp only [run]
    apply ih _ _ hrest
    cases op with
    | Start x t => exact silenceMatches_Start gc x t h
    | Update t => exact silenceMatches_Update tsunamiUpdate dayLightUpdate gc t h
    | Reset => simp [Op.isReset] at hop

/-- C7, the code at the failing input. From the initial state, one
`StartThanosSnapStateMachine` followed by `ResetStateMachines` leaves the collection
empty with the world silence still 1 and no `OnSilenceLifted` made; a further
`StartThanosSnapStateMachine` then makes a second `OnSilenceStarted`. -/
theorem reset_leaves_silence_on :
    (runUnit initialUnit [Op.Start 0 0, Op.Reset]).controller.mThanosSnapStateMachines = []
    ∧ (runUnit initialUnit [Op.Start 0 0, Op.Reset]).controller.mWorld.silence = 1
    ∧ (runUnit initialUnit [Op.Start 0 0, Op.Reset]).calls
        = [ControllerCall.OnSilenceStarted, ControllerCall.SetSilence 1]
    ∧ (runUnit initialUnit [Op.Start 0 0, Op.Reset, Op.Start 10 1]).calls
        = [ControllerCall.OnSilenceStarted, ControllerCall.SetSilence 1,
           ControllerCall.OnSilenceStarted, ControllerCall.SetSilence 1] := by
  simp [runUnit, run, step, initialUnit, initial, StartThanosSnapStateMachine,
    ResetStateMachines, World.SetSilence]

/-! ### The pool bound -/

theorem length_step_le (tsunamiUpdate : T → Bool × T) (dayLightUpdate : D → D)
    (gc : GameController T D) (op : Op) (h : gc.mThanosSnapStateMachines.length ≤ 8) :
    (step tsunamiUpdate dayLightUpdate gc op).controller.mThanosSnapStateMachines.length ≤ 8 := by
  cases op with
  | Start x t =>
    simp only [step]
    by_cases he : gc.mThanosSnapStateMachines = []
    · rw [StartThanosSnapStateMachine_of_empty gc x t he]
      simp
    · rw [StartThanosSnapStateMachine_of_nonempty gc x t he]
      by_cases hfull : gc.mThanosSnapStateMachines.length = 8
      · simp [hfull]
      · simp only [if_neg hfull, List.length_append, List.length_singleton]
        omega
  | Update t =>
    simp only [step]
    rw [(UpdateStateMachines_thanos tsunamiUpdate dayLightUpdate t gc).1,
      (updateThanosSnaps_spec gc.mGameParameters t gc.mThanosSnapStateMachines [] gc.mWorld).1]
    simp only [List.nil_append]
    exact le_trans (List.length_filter_le _ _) h
  | Reset => simp [step, ResetStateMachines]

theorem length_run_le (tsunamiUpdate : T → Bool × T) (dayLightUpdate : D → D)
    (ops : List Op) :
    ∀ gc : GameController T D, gc.mThanosSnapStateMachines.length ≤ 8 →
      (run tsunamiUpdate dayLightUpdate gc ops).controller.mThanosSnapStateMachines.length
        ≤ 8 := by
  induction ops with
  | nil => intro gc h; exact h
  | cons op ops ih =>
    intro gc h
    simp only [run]
    exact ih _ (length_step_le tsunamiUpdate dayLightUpdate gc op h)

/-- C8. Thanos-snap pool bound with FIFO eviction. In every state reached from the
initial state through `StartThanosSnapStateMachine`, `UpdateStateMachines` and
`ResetStateMachines` the collection holds at most `MaxThanosSnaps` = 8 state
machines. `StartThanosSnapStateMachine` always ends with the new snap as the last
element; called with exactly 8 snaps it removes the front one and keeps the other 7
in their order; called with fewer it keeps them all. -/
theorem thanos_pool_bound (tsunamiUpdate : T → Bool × T) (dayLightUpdate : D → D)
    (gp : GameParameters) (ops : List Op) (gc : GameController T D) (x t : ℚ) :
    (run tsunamiUpdate dayLightUpdate (initial gp)
        ops).controller.mThanosSnapStateMachines.length ≤ GameParameters.MaxThanosSnaps
    ∧ (StartThanosSnapStateMachine x t gc).controller.mThanosSnapStateMachines.getLast?
        = some ⟨x, t⟩
    ∧ (gc.mThanosSnapStateMachines.length = 8 →
        ∃ front others, gc.mThanosSnapStateMachines = front :: others ∧ others.length = 7
          ∧ (StartThanosSnapStateMachine x t gc).controller.mThanosSnapStateMachines
            = others ++ [⟨x, t⟩])
    ∧ (gc.mThanosSnapStateMachines.length < 8 →
        (StartThanosSnapStateMachine x t gc).controller.mThanosSnapStateMachines
          = gc.mThanosSnapStateMachines ++ [⟨x, t⟩]) := by
  refine ⟨?_, ?_, ?_, ?_⟩
  · exact length_run_le tsunamiUpdate dayLightUpdate ops (initial gp) (by simp [initial])
  · by_cases he : gc.mThanosSnapStateMachines = []
    · rw [StartThanosSnapStateMachine_of_empty gc x t he]
      simp
    · rw [StartThanosSnapStateMachine_of_nonempty gc x t he]
      simp
  · intro hfull
    cases hl : gc.mThanosSnapStateMachines with
    | nil => rw [hl] at hfull; simp at hfull
    | cons front others =>
      refine ⟨front, others, rfl, ?_, ?_⟩
      · have h8 : (front :: others).length = 8 := by rw [← hl]; exact hfull
        simpa using h8
      · have hne : gc.mThanosSnapStateMachines ≠ [] := by rw [hl]; simp
        rw [StartThanosSnapStateMachine_of_nonempty gc x t hne]
        have h8 : (front :: others).length = 8 := by rw [← hl]; exact hfull
        simp only [hl, List.tail_cons, if_pos h8]
  · intro hlt
    by_cases he : gc.mThanosSnapStateMachines = []
    · rw [StartThanosSnapStateMachine_of_empty gc x t he]
      simp [he]
    · rw [StartThanosSnapStateMachine_of_nonempty gc x t he]
      have : gc.mThanosSnapStateMachines.length ≠ 8 := by omega
      simp [this]

end GameController

/-! ## Theorems: Fishes -/

namespace Physics

namespace Fishes

variable {σ : Type}

/-! ### Adding fish -/

/-- When the chosen species index is within the database, one pass of the loop body
appends one fish in state Cruising and leaves the fish already there untouched. -/
theorem addFish_spec (ctx : FishesContext σ) (visibleWorld : VisibleWorld) (fishes : Fishes σ)
    (hchoose : ∀ s, (ctx.random.Choose ctx.mFishSpeciesDatabase.length s).1
      < ctx.mFishSpeciesDatabase.length) :
    ∃ (fish : Fish) (randomState : σ) (todo : vec2f),
      addFish ctx visibleWorld fishes
          = some { mFishes := fishes.mFishes ++ [fish], randomState := randomState, todo := todo }
      ∧ fish.CurrentState = StateType.Cruising := by
  have hlt := hchoose fishes.randomState
  obtain ⟨species, hspecies⟩ :
      ∃ species, ctx.mFishSpeciesDatabase[(ctx.random.Choose ctx.mFishSpeciesDatabase.length
        fishes.randomState).1]? = some species :=
    ⟨_, List.getElem?_eq_getElem hlt⟩
  simp only [addFish, hspecies]
  exact ⟨_, _, _, rfl, rfl⟩

/-- The adding loop, from loop variable `f`, appends `NumberOfFishes - f` fish in
state Cruising. -/
theorem addMissingFish_spec (ctx : FishesContext σ) (visibleWorld : VisibleWorld) (N : Nat)
    (hchoose : ∀ s, (ctx.random.Choose ctx.mFishSpeciesDatabase.length s).1
      < ctx.mFishSpeciesDatabase.length) :
    ∀ (n f : Nat) (fishes : Fishes σ), N - f = n →
      ∃ (added : List Fish) (randomState : σ) (todo : vec2f),
        addMissingFish ctx visibleWorld N f fishes
            = some { mFishes := fishes.mFishes ++ added, randomState := randomState,
                     todo := todo }
        ∧ added.length = N - f
        ∧ ∀ fish ∈ added, fish.CurrentState = StateType.Cruising := by
  intro n
  induction n with
  | zero =>
    intro f fishes hn
    have hf : ¬ f < N := by omega
    rw [addMissingFish, if_neg hf]
    exact ⟨[], fishes.randomState, fishes.todo, by simp, by simp; omega, by simp⟩
  | succ n ih =>
    intro f fishes hn
    have hf : f < N := by omega
    obtain ⟨fish, rs, td, hadd, hstate⟩ := addFish_spec ctx visibleWorld fishes hchoose
    obtain ⟨added, rs2, td2, hrest, hlen, hall⟩ :=
      ih (f + 1) { mFishes := fishes.mFishes ++ [fish], randomState := rs, todo := td }
        (by omega)
    rw [addMissingFish, if_pos hf, hadd]
    simp only
    rw [hrest]
    refine ⟨fish :: added, rs2, td2, by simp, by simp [hlen]; omega, ?_⟩
    intro x hx
    rcases List.mem_cons.mp hx with hx | hx
    · rw [hx]; exact hstate
    · exact hall x hx

/-- C10. Fish pool resize. With `NumberOfFishes` = N on a pool of M fish, step 1 of
`Fishes::Update` returns a pool of exactly N fish. If N < M they are the first N
fish of the old pool, in order and unmodified. If N = M nothing changes. If N > M
(and the random engine chooses species indices within the database) the first M
are the old fish, in order and unmodified, followed by N - M new fish, every one in
state Cruising. -/
theorem fish_pool_resize (ctx : FishesContext σ) (gameParameters : GameParameters)
    (visibleWorld : VisibleWorld) (fishes : Fishes σ) :
    (gameParameters.NumberOfFishes < fishes.mFishes.length →
        UpdateNumberOfFish ctx gameParameters visibleWorld fishes
            = some { fishes with mFishes := fishes.mFishes.take gameParameters.NumberOfFishes }
        ∧ (fishes.mFishes.take gameParameters.NumberOfFishes).length
            = gameParameters.NumberOfFishes)
    ∧ (gameParameters.NumberOfFishes = fishes.mFishes.length →
        UpdateNumberOfFish ctx gameParameters visibleWorld fishes = some fishes)
    ∧ (fishes.mFishes.length < gameParameters.NumberOfFishes →
        (∀ s, (ctx.random.Choose ctx.mFishSpeciesDatabase.length s).1
          < ctx.mFishSpeciesDatabase.length) →
        ∃ (added : List Fish) (randomState : σ) (todo : vec2f),
          UpdateNumberOfFish ctx gameParameters visibleWorld fishes
              = some { mFishes := fishes.mFishes ++ added, randomState := randomState,
                       todo := todo }
          ∧ added.length = gameParameters.NumberOfFishes - fishes.mFishes.length
          ∧ (fishes.mFishes ++ added).length = gameParameters.NumberOfFishes
          ∧ ∀ fish ∈ added, fish.CurrentState = StateType.Cruising) := by
  refine ⟨?_, ?_, ?_⟩
  · intro h
    constructor
    · simp [UpdateNumberOfFish, h]
    · simp only [List.length_take]
      omega
  · intro h
    have h1 : ¬ fishes.mFishes.length > gameParameters.NumberOfFishes := by omega
    have h2 : ¬ fishes.mFishes.length < gameParameters.NumberOfFishes := by omega
    rw [UpdateNumberOfFish, if_neg h1, addMissingFish, if_neg h2]
  · intro h hchoose
    have h1 : ¬ fishes.mFishes.length > gameParameters.NumberOfFishes := by omega
    obtain ⟨added, rs, td, hrun, hlen, hall⟩ :=
      addMissingFish_spec ctx visibleWorld gameParameters.NumberOfFishes hchoose _
        fishes.mFishes.length fishes rfl
    refine ⟨added, rs, td, ?_, hlen, ?_, hall⟩
    · rw [UpdateNumberOfFish, if_neg h1, hrun]
    · simp only [List.length_append, hlen]
      omega

/-- Witness of C10: growing the empty pool to the 3 fish of the sample parameters,
with the sample context. -/
theorem fish_pool_resize_witness :
    ∃ (added : List Fish) (randomState : Nat) (todo : vec2f),
      UpdateNumberOfFish sampleContext GameParameters.sample sampleVisibleWorld (Fishes.new 0)
          = some { mFishes := (Fishes.new 0).mFishes ++ added, randomState := randomState,
                   todo := todo }
      ∧ added.length = GameParameters.sample.NumberOfFishes - (Fishes.new 0).mFishes.length
      ∧ ((Fishes.new 0).mFishes ++ added).length = GameParameters.sample.NumberOfFishes
      ∧ ∀ fish ∈ added, fish.CurrentState = StateType.Cruising :=
  (fish_pool_resize sampleContext GameParameters.sample sampleVisibleWorld (Fishes.new 0)).2.2
    (by decide)
    (by
      intro s
      show s % 2 < 2
      omega)

/-! ### Turning -/

/-- A fish in Turning is updated by the Turning case, and only its `CurrentProgress`
is set afterwards. -/
theorem updateFish_of_Turning (ctx : FishesContext σ) (t : ℚ) (visibleWorld : VisibleWorld)
    (fish : Fish) (todo : vec2f) (hs : fish.CurrentState = StateType.Turning) :
    updateFish ctx t visibleWorld fish todo
      = ({ updateTurning t fish with
            CurrentProgress := ctx.sin (updateTurning t fish).CurrentProgressPhase }, todo) := by
  simp [updateFish, hs]

/-- The Turning case before the window expires, field by field. -/
theorem updateTurning_of_lt (t : ℚ) (fish : Fish)
    (h : t - fish.TurningSimulationTimeStart < 25 / 10) :
    (updateTurning t fish).CurrentState = fish.CurrentState
    ∧ (updateTurning t fish).CurrentVelocity
        = (if (t - fish.TurningSimulationTimeStart) / (25 / 10) ≤ 5 / 10 then
            fish.StartVelocity.scale (1 - (t - fish.TurningSimulationTimeStart) / (25 / 10) / (5 / 10))
          else
            ((fish.TargetVelocity.scale 1).div (5 / 10)).scale
              ((t - fish.TurningSimulationTimeStart) / (25 / 10) - 5 / 10))
    ∧ (updateTurning t fish).CurrentDirection.y
        = (if (t - fish.TurningSimulationTimeStart) / (25 / 10) ≤ 30 / 100 then
            fish.StartDirection.y * (1 - (t - fish.TurningSimulationTimeStart) / (25 / 10) / (30 / 100))
          else if (t - fish.TurningSimulationTimeStart) / (25 / 10) ≥ 70 / 100 then
            fish.TargetDirection.y * 1 / (30 / 100)
              * ((t - fish.TurningSimulationTimeStart) / (25 / 10) - 70 / 100)
          else fish.CurrentDirection.y)
    ∧ (updateTurning t fish).CurrentDirection.x
        = (if (t - fish.TurningSimulationTimeStart) / (25 / 10) ≥ 15 / 100
              ∧ (t - fish.TurningSimulationTimeStart) / (25 / 10) ≤ 85 / 100 then
            fish.StartDirection.x
              + (fish.TargetDirection.x - fish.StartDirection.x) / (70 / 100)
                * ((t - fish.TurningSimulationTimeStart) / (25 / 10) - 15 / 100)
          else fish.CurrentDirection.x) := by
  have hnot : ¬ (t - fish.TurningSimulationTimeStart ≥ TurningTimeSeconds) := by
    simp only [TurningTimeSeconds, ge_iff_le, not_le]
    exact h
  rw [updateTurning, if_neg hnot]
  exact ⟨rfl, rfl, rfl, rfl⟩

/-- C11. Fish turning velocity blend, in exact arithmetic. For a fish in Turning
updated at elapsedFraction e = (currentSimulationTime - TurningSimulationTimeStart)
/ 2.5 with e < 1 (so for every 0 <= e < 1), `CurrentVelocity` after the update is
StartVelocity * (1 - e/0.5) when e <= 0.5 and TargetVelocity * ((e - 0.5)/0.5) when
e > 0.5; it is StartVelocity at e = 0 and (0,0) at e = 0.5. -/
theorem turning_velocity_blend (ctx : FishesContext σ) (t : ℚ) (visibleWorld : VisibleWorld)
    (fish : Fish) (todo : vec2f) (hs : fish.CurrentState = StateType.Turning) (e : ℚ)
    (he : e = (t - fish.TurningSimulationTimeStart) / (25 / 10)) (h1 : e < 1) :
    (e ≤ 1 / 2 →
        (updateFish ctx t visibleWorld fish todo).1.CurrentVelocity
          = fish.StartVelocity.scale (1 - e / (1 / 2)))
    ∧ (1 / 2 < e →
        (updateFish ctx t visibleWorld fish todo).1.CurrentVelocity
          = fish.TargetVelocity.scale ((e - 1 / 2) / (1 / 2)))
    ∧ (e = 0 → (updateFish ctx t visibleWorld fish todo).1.CurrentVelocity = fish.StartVelocity)
    ∧ (e = 1 / 2 → (updateFish ctx t visibleWorld fish todo).1.CurrentVelocity = ⟨0, 0⟩) := by
  have hlt : t - fish.TurningSimulationTimeStart < 25 / 10 := by
    have h := h1
    rw [he, div_lt_iff₀ (by norm_num)] at h
    linarith
  have hv := (updateTurning_of_lt t fish hlt).2.1
  rw [← he] at hv
  have hfish : (updateFish ctx t visibleWorld fish todo).1.CurrentVelocity
      = (updateTurning t fish).CurrentVelocity := by
    rw [updateFish_of_Turning ctx t visibleWorld fish todo hs]
  rw [hfish, hv]
  have hfirst : e ≤ 1 / 2 →
      (if e ≤ 5 / 10 then fish.StartVelocity.scale (1 - e / (5 / 10))
        else ((fish.TargetVelocity.scale 1).div (5 / 10)).scale (e - 5 / 10))
      = fish.StartVelocity.scale (1 - e / (1 / 2)) := by
    intro h
    have h' : e ≤ 5 / 10 := by linarith
    rw [if_pos h']
    norm_num
  refine ⟨hfirst, ?_, ?_, ?_⟩
  · intro h
    have h' : ¬ e ≤ 5 / 10 := by
      rw [not_le]; linarith
    rw [if_neg h']
    simp only [vec2f.scale, vec2f.div, vec2f.mk.injEq]
    constructor <;> ring
  · intro h
    rw [hfirst (by rw [h]; norm_num), h]
    simp [vec2f.scale]
  · intro h
    rw [hfirst (by rw [h]), h]
    simp [vec2f.scale]

/-- Witness of C11: the sample fish (turn started at 10) updated at time 45/4, that
is e = 1/2; its velocity becomes (0, 0). -/
theorem turning_velocity_blend_witness :
    (updateFish sampleContext (45 / 4) sampleVisibleWorld sampleTurningFish
      todoInitial).1.CurrentVelocity = ⟨0, 0⟩ :=
  (turning_velocity_blend sampleContext (45 / 4) sampleVisibleWorld sampleTurningFish
    todoInitial rfl (1 / 2) (by norm_num [sampleTurningFish]) (by norm_num)).2.2.2 rfl

/-- C12. Fish turn expiry. For a fish in Turning, an update with
currentSimulationTime - TurningSimulationTimeStart >= 2.5 sets its state to Cruising,
its `CurrentVelocity` to `TargetVelocity` and its `CurrentDirection` to
`TargetDirection`; with a smaller elapsed time the fish stays in Turning. -/
theorem turn_expiry (ctx : FishesContext σ) (t : ℚ) (visibleWorld : VisibleWorld)
    (fish : Fish) (todo : vec2f) (hs : fish.CurrentState = StateType.Turning) :
    (t - fish.TurningSimulationTimeStart ≥ 25 / 10 →
        (updateFish ctx t visibleWorld fish todo).1.CurrentState = StateType.Cruising
        ∧ (updateFish ctx t visibleWorld fish todo).1.CurrentVelocity = fish.TargetVelocity
        ∧ (updateFish ctx t visibleWorld fish todo).1.CurrentDirection = fish.TargetDirection)
    ∧ (t - fish.TurningSimulationTimeStart < 25 / 10 →
        (updateFish ctx t visibleWorld fish todo).1.CurrentState = StateType.Turning) := by
  rw [updateFish_of_Turning ctx t visibleWorld fish todo hs]
  constructor
  · intro h
    have h' : t - fish.TurningSimulationTimeStart ≥ TurningTimeSeconds := by
      simpa [TurningTimeSeconds] using h
    rw [updateTurning, if_pos h']
    exact ⟨rfl, rfl, rfl⟩
  · intro h
    show (updateTurning t fish).CurrentState = StateType.Turning
    rw [(updateTurning_of_lt t fish h).1, hs]

/-- Witness of C12: the sample fish (turn started at 10) updated at time 25/2, when
exactly 2.5 seconds have elapsed. -/
theorem turn_expiry_witness :
    (updateFish sampleContext (25 / 2) sampleVisibleWorld sampleTurningFish
        todoInitial).1.CurrentState = StateType.Cruising
    ∧ (updateFish sampleContext (25 / 2) sampleVisibleWorld sampleTurningFish
        todoInitial).1.CurrentVelocity = sampleTurningFish.TargetVelocity
    ∧ (updateFish sampleContext (25 / 2) sampleVisibleWorld sampleTurningFish
        todoInitial).1.CurrentDirection = sampleTurningFish.TargetDirection :=
  (turn_expiry sampleContext (25 / 2) sampleVisibleWorld sampleTurningFish todoInitial rfl).1
    (by norm_num [sampleTurningFish])

/-- C13. Fish turning direction schedule, in exact arithmetic. For a Turning update
at elapsedFraction e < 1 (so for every e in [0,1)): the direction's Y is
StartDirection.y * (1 - e/0.30)
when e <= 0.30 and TargetDirection.y * ((e - 0.70)/0.30) when e >= 0.70; the
direction's X is StartDirection.x + (TargetDirection.x - StartDirection.x) *
((e - 0.15)/0.70) when 0.15 <= e <= 0.85. So X is StartDirection.x at 15% and
TargetDirection.x at 85%, and Y is 0 at 30% and at 70%. -/
theorem turning_direction_schedule (ctx : FishesContext σ) (t : ℚ)
    (visibleWorld : VisibleWorld) (fish : Fish) (todo : vec2f)
    (hs : fish.CurrentState = StateType.Turning) (e : ℚ)
    (he : e = (t - fish.TurningSimulationTimeStart) / (25 / 10)) (h1 : e < 1) :
    (e ≤ 30 / 100 →
        (updateFish ctx t visibleWorld fish todo).1.CurrentDirection.y
          = fish.StartDirection.y * (1 - e / (30 / 100)))
    ∧ (70 / 100 ≤ e →
        (updateFish ctx t visibleWorld fish todo).1.CurrentDirection.y
          = fish.TargetDirection.y * ((e - 70 / 100) / (30 / 100)))
    ∧ (15 / 100 ≤ e → e ≤ 85 / 100 →
        (updateFish ctx t visibleWorld fish todo).1.CurrentDirection.x
          = fish.StartDirection.x
            + (fish.TargetDirection.x - fish.StartDirection.x) * ((e - 15 / 100) / (70 / 100)))
    ∧ (e = 15 / 100 →
        (updateFish ctx t visibleWorld fish todo).1.CurrentDirection.x = fish.StartDirection.x)
    ∧ (e = 85 / 100 →
        (updateFish ctx t visibleWorld fish todo).1.CurrentDirection.x = fish.TargetDirection.x)
    ∧ (e = 30 / 100 → (updateFish ctx t visibleWorld fish todo).1.CurrentDirection.y = 0)
    ∧ (e = 70 / 100 → (updateFish ctx t visibleWorld fish todo).1.CurrentDirection.y = 0) := by
  have hlt : t - fish.TurningSimulationTimeStart < 25 / 10 := by
    have h := h1
    rw [he, div_lt_iff₀ (by norm_num)] at h
    linarith
  obtain ⟨_, _, hy, hx⟩ := updateTurning_of_lt t fish hlt
  rw [← he] at hy hx
  have hfy : (updateFish ctx t visibleWorld fish todo).1.CurrentDirection.y
      = (updateTurning t fish).CurrentDirection.y := by
    rw [updateFish_of_Turning ctx t visibleWorld fish todo hs]
  have hfx : (updateFish ctx t visibleWorld fish todo).1.CurrentDirection.x
      = (updateTurning t fish).CurrentDirection.x := by
    rw [updateFish_of_Turning ctx t visibleWorld fish todo hs]
  rw [hfy, hfx, hy, hx]
  have hY1 : e ≤ 30 / 100 →
      (if e ≤ 30 / 100 then fish.StartDirection.y * (1 - e / (30 / 100))
        else if e ≥ 70 / 100 then fish.TargetDirection.y * 1 / (30 / 100) * (e - 70 / 100)
        else fish.CurrentDirection.y)
      = fish.StartDirection.y * (1 - e / (30 / 100)) := fun h => by rw [if_pos h]
  have hY2 : 70 / 100 ≤ e →
      (if e ≤ 30 / 100 then fish.StartDirection.y * (1 - e / (30 / 100))
        else if e ≥ 70 / 100 then fish.TargetDirection.y * 1 / (30 / 100) * (e - 70 / 100)
        else fish.CurrentDirection.y)
      = fish.TargetDirection.y * ((e - 70 / 100) / (30 / 100)) := by
    intro h
    have h' : ¬ e ≤ 30 / 100 := by
      rw [not_le]; linarith
    rw [if_neg h', if_pos h]
    ring
  have hX : 15 / 100 ≤ e → e ≤ 85 / 100 →
      (if e ≥ 15 / 100 ∧ e ≤ 85 / 100 then
          fish.StartDirection.x
            + (fish.TargetDirection.x - fish.StartDirection.x) / (70 / 100) * (e - 15 / 100)
        else fish.CurrentDirection.x)
      = fish.StartDirection.x
          + (fish.TargetDirection.x - fish.StartDirection.x) * ((e - 15 / 100) / (70 / 100)) := by
    intro ha hb
    rw [if_pos ⟨ha, hb⟩]
    ring
  refine ⟨hY1, hY2, hX, ?_, ?_, ?_, ?_⟩
  · intro h
    rw [hX (by rw [h]) (by rw [h]; norm_num), h]
    norm_num
  · intro h
    rw [hX (by rw [h]; norm_num) (by rw [h]), h]
    norm_num
  · intro h
    rw [hY1 (by rw [h]), h]
    norm_num
  · intro h
    rw [hY2 (by rw [h]), h]
    norm_num

/-- Witness of C13: the sample fish (turn started at 10) updated at time 47/4, that
is e = 70/100; the Y of its direction becomes 0. -/
theorem turning_direction_schedule_witness :
    (updateFish sampleContext (47 / 4) sampleVisibleWorld sampleTurningFish
      todoInitial).1.CurrentDirection.y = 0 :=
  (turning_direction_schedule sampleContext (47 / 4) sampleVisibleWorld sampleTurningFish
    todoInitial rfl (70 / 100) (by norm_num [sampleTurningFish])
    (by norm_num)).2.2.2.2.2.2 rfl

end Fishes

end Physics

/-! ### Direction Y in the middle of a turn -/

namespace Physics

namespace Fishes

variable {σ : Type}

/-- C24, the claim at a concrete turn. The sample fish starts its turn at time 10
with direction Y 1/2. Updated at time 10.74 (e = 0.296) and then at time 10.76
(e = 0.304, within [0.30, 0.70]) its direction Y is 1/150, the value the first
update left, and not 0; updated at time 11.25 (e = 0.5) straight away, its
direction Y is still 1/2. -/
theorem turning_directionY_not_reset :
    (1076 / 100 - sampleTurningFish.TurningSimulationTimeStart) / TurningTimeSeconds
        = 304 / 1000
    ∧ (updateFish sampleContext (1076 / 100) sampleVisibleWorld
        (updateFish sampleContext (1074 / 100) sampleVisibleWorld sampleTurningFish
          todoInitial).1 todoInitial).1.CurrentDirection.y = 1 / 150
    ∧ (1125 / 100 - sampleTurningFish.TurningSimulationTimeStart) / TurningTimeSeconds
        = 5 / 10
    ∧ (updateFish sampleContext (1125 / 100) sampleVisibleWorld sampleTurningFish
        todoInitial).1.CurrentDirection.y = 1 / 2 := by
  have hstart : sampleTurningFish.TurningSimulationTimeStart = 10 := rfl
  have h1 := updateTurning_of_lt (1074 / 100) sampleTurningFish
    (by rw [hstart]; norm_num)
  have hf1 := updateFish_of_Turning sampleContext (1074 / 100) sampleVisibleWorld
    sampleTurningFish todoInitial rfl
  have hy1 : (updateTurning (1074 / 100) sampleTurningFish).CurrentDirection.y = 1 / 150 := by
    rw [h1.2.2.1, hstart]
    norm_num [sampleTurningFish]
  have hnot : ¬ ((1074 / 100 : ℚ) - sampleTurningFish.TurningSimulationTimeStart
      ≥ TurningTimeSeconds) := by
    rw [hstart]
    norm_num [TurningTimeSeconds]
  have hst1 : (updateTurning (1074 / 100) sampleTurningFish).TurningSimulationTimeStart
      = 10 := by
    rw [updateTurning, if_neg hnot]
    rfl
  have hstate1 : (updateTurning (1074 / 100) sampleTurningFish).CurrentState
      = StateType.Turning := h1.1
  refine ⟨by rw [hstart]; norm_num [TurningTimeSeconds], ?_,
    by rw [hstart]; norm_num [TurningTimeSeconds], ?_⟩
  · have key : ∀ f1 : Fish, f1.CurrentState = StateType.Turning →
        f1.TurningSimulationTimeStart = 10 → f1.CurrentDirection.y = 1 / 150 →
        (updateFish sampleContext (1076 / 100) sampleVisibleWorld f1
          todoInitial).1.CurrentDirection.y = 1 / 150 := by
      intro f1 hA hB hC
      rw [updateFish_of_Turning sampleContext (1076 / 100) sampleVisibleWorld f1 todoInitial
        hA]
      have h2 := updateTurning_of_lt (1076 / 100) f1 (by rw [hB]; norm_num)
      show (updateTurning (1076 / 100) f1).CurrentDirection.y = 1 / 150
      rw [h2.2.2.1, hB, hC]
      norm_num
    apply key
    · rw [hf1]
      exact hstate1
    · rw [hf1]
      exact hst1
    · rw [hf1]
      exact hy1
  · rw [updateFish_of_Turning sampleContext (1125 / 100) sampleVisibleWorld
      sampleTurningFish todoInitial rfl]
    have h3 := updateTurning_of_lt (1125 / 100) sampleTurningFish
      (by rw [hstart]; norm_num)
    show (updateTurning (1125 / 100) sampleTurningFish).CurrentDirection.y = 1 / 2
    rw [h3.2.2.1, hstart]
    norm_num [sampleTurningFish]

/-- C24, amended. For a Turning update at elapsedFraction e with 0.30 <= e <= 0.70:
at e = 0.30 and at e = 0.70 exactly the direction's Y after the update is 0, and for
0.30 < e < 0.70 the update leaves the direction's Y as the preceding update left it
(so it is 0 there only when it was 0 before). -/
theorem turning_directionY_middle (ctx : FishesContext σ) (t : ℚ)
    (visibleWorld : VisibleWorld) (fish : Fish) (todo : vec2f)
    (hs : fish.CurrentState = StateType.Turning) (e : ℚ)
    (he : e = (t - fish.TurningSimulationTimeStart) / (25 / 10))
    (hlo : 30 / 100 ≤ e) (hhi : e ≤ 70 / 100) :
    (updateFish ctx t visibleWorld fish todo).1.CurrentDirection.y
      = if e = 30 / 100 ∨ e = 70 / 100 then 0 else fish.CurrentDirection.y := by
  have hlt : t - fish.TurningSimulationTimeStart < 25 / 10 := by
    have h : e < 1 := by linarith
    rw [he, div_lt_iff₀ (by norm_num)] at h
    linarith
  obtain ⟨_, _, hy, _⟩ := updateTurning_of_lt t fish hlt
  rw [← he] at hy
  rw [updateFish_of_Turning ctx t visibleWorld fish todo hs]
  show (updateTurning t fish).CurrentDirection.y = _
  rw [hy]
  by_cases h30 : e = 30 / 100
  · rw [if_pos (Or.inl h30), if_pos (le_of_eq h30), h30]
    norm_num
  · have hgt : ¬ e ≤ 30 / 100 := fun h => h30 (le_antisymm h hlo)
    rw [if_neg hgt]
    by_cases h70 : e = 70 / 100
    · rw [if_pos (Or.inr h70), if_pos (ge_of_eq h70), h70]
      norm_num
    · have hlt70 : ¬ e ≥ 70 / 100 := fun h => h70 (le_antisymm hhi h)
      rw [if_neg hlt70, if_neg (by rintro (h | h); exact h30 h; exact h70 h)]

/-- Witness of C24, amended: the sample fish (turn started at 10, direction Y 1/2)
updated at time 45/4, that is e = 1/2, keeps the direction Y 1/2. -/
theorem turning_directionY_middle_witness :
    (updateFish sampleContext (45 / 4) sampleVisibleWorld sampleTurningFish
      todoInitial).1.CurrentDirection.y
      = if (1 / 2 : ℚ) = 30 / 100 ∨ (1 / 2 : ℚ) = 70 / 100 then 0
        else sampleTurningFish.CurrentDirection.y :=
  turning_directionY_middle sampleContext (45 / 4) sampleVisibleWorld sampleTurningFish
    todoInitial rfl (1 / 2) (by norm_num [sampleTurningFish]) (by norm_num) (by norm_num)

end Fishes

end Physics

/-! ## Theorems: daylight cycle -/

namespace GameController

namespace DayLightCycleStateMachine

/-- A call that finds the skip counter below 3 only increments it. -/
theorem Update_of_skip (m : MathFunctions) (duration now : ℚ) (rc : RenderContext)
    (sm : DayLightCycleStateMachine) (h : sm.mSkipCounter + 1 < 4) :
    Update m duration now rc sm
      = { machine := { sm with mSkipCounter := sm.mSkipCounter + 1 }
          renderContext := rc
          calls := [] } := by
  simp [Update, h]

/-- A call that finds the skip counter at 3 or more recomputes. -/
theorem Update_of_recompute (m : MathFunctions) (duration now : ℚ) (rc : RenderContext)
    (sm : DayLightCycleStateMachine) (h : 4 ≤ sm.mSkipCounter + 1) :
    (Update m duration now rc sm).calls
        = [StateMachineCall.GetAmbientLightIntensity,
           StateMachineCall.SetAmbientLightIntensity
            (Update m duration now rc sm).renderContext.ambientLightIntensity]
    ∧ (Update m duration now rc sm).machine.mLastChangeTimestamp = now
    ∧ (Update m duration now rc sm).machine.mSkipCounter = 0
    ∧ (Update m duration now rc sm).renderContext.ambientLightIntensity
        = m.SmoothStep 0 1
            (match sm.mCurrentState with
              | .SunRising =>
                min 1 (m.InverseSmoothStep rc.ambientLightIntensity
                  + GameWallClock.Progress now sm.mLastChangeTimestamp duration * 2)
              | .SunSetting =>
                max 0 (m.InverseSmoothStep rc.ambientLightIntensity
                  - GameWallClock.Progress now sm.mLastChangeTimestamp duration * 2)) := by
  have hnot : ¬ sm.mSkipCounter + 1 < 4 := by omega
  refine ⟨by simp [Update, hnot], by simp [Update, hnot], by simp [Update, hnot], ?_⟩
  simp only [Update, if_neg hnot]
  cases sm.mCurrentState with
  | SunRising =>
    by_cases hc : m.InverseSmoothStep rc.ambientLightIntensity
        + GameWallClock.Progress now sm.mLastChangeTimestamp duration * 2 ≥ 1
    · simp only [if_pos hc]
      rw [min_eq_left hc]
    · simp only [if_neg hc]
      rw [min_eq_right (le_of_lt (not_le.mp hc))]
  | SunSetting =>
    by_cases hc : m.InverseSmoothStep rc.ambientLightIntensity
        - GameWallClock.Progress now sm.mLastChangeTimestamp duration * 2 ≤ 0
    · simp only [if_pos hc]
      rw [max_eq_left hc]
    · simp only [if_neg hc]
      rw [max_eq_right (le_of_lt (not_le.mp hc))]

/-- A run that starts with the skip counter at `c < 4`: the call number `k` (from 0)
finds the counter at `(c + k) % 4`, recomputes exactly when 4 divides `c + k + 1`,
and the run makes `(c + n) / 4` writes over `n` calls. -/
theorem runSteps_from (m : MathFunctions) (duration : ℚ) (frames : List Frame) :
    ∀ (sm : DayLightCycleStateMachine) (rc : RenderContext) (c : Nat),
      sm.mSkipCounter = (c : Int) → c < 4 →
      (∀ (k : Nat) (step : Step), (runSteps m duration sm rc frames)[k]? = some step →
          step.before.mSkipCounter = (((c + k) % 4 : Nat) : Int)
          ∧ step.found = step.frame.apply step.found
          ∧ step.after = Update m duration step.frame.now step.found step.before)
      ∧ (callsOf (runSteps m duration sm rc frames)).countP
            StateMachineCall.isSetAmbientLightIntensity
          = (c + frames.length) / 4 := by
  induction frames with
  | nil =>
    intro sm rc c _ hc
    refine ⟨fun k step h => by simp [runSteps] at h, ?_⟩
    simp [runSteps, callsOf]
    omega
  | cons frame frames ih =>
    intro sm rc c hsm hc
    by_cases hskip : sm.mSkipCounter + 1 < 4
    · have hup := Update_of_skip m duration frame.now (frame.apply rc) sm hskip
      have hc' : c + 1 < 4 := by omega
      obtain ⟨ih1, ih2⟩ := ih (Update m duration frame.now (frame.apply rc) sm).machine
        (Update m duration frame.now (frame.apply rc) sm).renderContext (c + 1)
        (by rw [hup]; simp [hsm]) hc'
      constructor
      · intro k step hk
        cases k with
        | zero =>
          simp only [runSteps, List.getElem?_cons_zero, Option.some.injEq] at hk
          subst hk
          refine ⟨?_, ?_, rfl⟩
          · simp only [hsm, Nat.add_zero]
            rw [Nat.mod_eq_of_lt hc]
          · cases hf : frame.externalIntensity <;> simp [Frame.apply, hf]
        | succ k =>
          simp only [runSteps, List.getElem?_cons_succ] at hk
          obtain ⟨h1, h2, h3⟩ := ih1 k step hk
          refine ⟨?_, h2, h3⟩
          rw [h1]
          congr 2
          omega
      · simp only [runSteps, callsOf, List.countP_append, ih2]
        rw [hup]
        simp only [List.countP_nil, List.length_cons]
        omega
    · have hc3 : c = 3 := by omega
      have hrec := Update_of_recompute m duration frame.now (frame.apply rc) sm (by omega)
      obtain ⟨ih1, ih2⟩ := ih (Update m duration frame.now (frame.apply rc) sm).machine
        (Update m duration frame.now (frame.apply rc) sm).renderContext 0
        (by rw [hrec.2.2.1]; rfl) (by omega)
      constructor
      · intro k step hk
        cases k with
        | zero =>
          simp only [runSteps, List.getElem?_cons_zero, Option.some.injEq] at hk
          subst hk
          refine ⟨?_, ?_, rfl⟩
          · simp only [hsm, Nat.add_zero]
            rw [Nat.mod_eq_of_lt hc]
          · cases hf : frame.externalIntensity <;> simp [Frame.apply, hf]
        | succ k =>
          simp only [runSteps, List.getElem?_cons_succ] at hk
          obtain ⟨h1, h2, h3⟩ := ih1 k step hk
          refine ⟨?_, h2, h3⟩
          have hmod : (0 + k) % 4 = (c + (k + 1)) % 4 := by omega
          rw [h1, hmod]
      · simp only [runSteps, callsOf, List.countP_append, ih2]
        rw [hrec.1]
        simp only [List.countP_cons, List.countP_nil,
          StateMachineCall.isSetAmbientLightIntensity, List.length_cons]
        simp
        omega

/-- C14. DayLightCycle throttling. Counting `Update` calls from construction, the
call number k (from 1) recomputes - it makes the calls `GetAmbientLightIntensity`,
`SetAmbientLightIntensity` and sets `mLastChangeTimestamp` to the time it read - if
and only if k is a multiple of 4; every other call makes no call and changes
nothing but the skip counter, which it increments; so n calls make exactly
floor(n/4) writes of the ambient light. -/
theorem daylight_throttling (m : MathFunctions) (duration start : ℚ) (rc : RenderContext)
    (frames : List Frame) :
    (∀ (k : Nat) (step : Step),
        (runSteps m duration (new start) rc frames)[k]? = some step →
          (4 ∣ k + 1 →
            step.after.calls
                = [StateMachineCall.GetAmbientLightIntensity,
                   StateMachineCall.SetAmbientLightIntensity
                    step.after.renderContext.ambientLightIntensity]
            ∧ step.after.machine.mLastChangeTimestamp = step.frame.now
            ∧ step.after.machine.mSkipCounter = 0)
          ∧ (¬ 4 ∣ k + 1 →
            step.after.calls = []
            ∧ step.after.renderContext = step.found
            ∧ step.after.machine
                = { step.before with mSkipCounter := step.before.mSkipCounter + 1 }))
    ∧ (callsOf (runSteps m duration (new start) rc frames)).countP
          StateMachineCall.isSetAmbientLightIntensity
        = frames.length / 4 := by
  obtain ⟨h1, h2⟩ := runSteps_from m duration frames (new start) rc 0 rfl (by decide)
  refine ⟨?_, by simpa using h2⟩
  intro k step hk
  obtain ⟨hb0, _, ha⟩ := h1 k step hk
  have hb : step.before.mSkipCounter = ((k % 4 : Nat) : Int) := by
    rw [hb0, Nat.zero_add]
  constructor
  · intro hdiv
    have h4 : 4 ≤ step.before.mSkipCounter + 1 := by
      rw [hb]; omega
    rw [ha]
    have := Update_of_recompute m duration step.frame.now step.found step.before h4
    exact ⟨this.1, this.2.1, this.2.2.1⟩
  · intro hdiv
    have h4 : step.before.mSkipCounter + 1 < 4 := by
      rw [hb]; omega
    rw [ha, Update_of_skip m duration step.frame.now step.found step.before h4]
    exact ⟨rfl, rfl, rfl⟩

/-- C15. DayLightCycle is stateless with respect to the intensity. A recomputing
`Update` writes SmoothStep(0, 1, t') with t' = min(1, InverseSmoothStep(read) + f)
when the sun is rising and t' = max(0, InverseSmoothStep(read) - f) when it is
setting, where `read` is the ambient light intensity found in the render context at
that call and f is twice the progress of the wall clock since
`mLastChangeTimestamp` over the cycle duration. Two calls on the same machine at the
same time, on render contexts in which the same intensity has been written from
outside, make the same calls, write the same value and leave the same machine,
whatever the render contexts held before. -/
theorem daylight_stateless (m : MathFunctions) (duration now : ℚ) (rc : RenderContext)
    (sm : DayLightCycleStateMachine) (h : 4 ≤ sm.mSkipCounter + 1) :
    (Update m duration now rc sm).calls
        = [StateMachineCall.GetAmbientLightIntensity,
           StateMachineCall.SetAmbientLightIntensity
            (m.SmoothStep 0 1
              (match sm.mCurrentState with
                | .SunRising =>
                  min 1 (m.InverseSmoothStep rc.ambientLightIntensity
                    + (now - sm.mLastChangeTimestamp) / duration * 2)
                | .SunSetting =>
                  max 0 (m.InverseSmoothStep rc.ambientLightIntensity
                    - (now - sm.mLastChangeTimestamp) / duration * 2)))]
    ∧ (∀ (rc1 rc2 : RenderContext) (intensity : ℚ),
        (Update m duration now { rc1 with ambientLightIntensity := intensity } sm).calls
            = (Update m duration now { rc2 with ambientLightIntensity := intensity } sm).calls
        ∧ (Update m duration now { rc1 with ambientLightIntensity := intensity }
              sm).renderContext.ambientLightIntensity
            = (Update m duration now { rc2 with ambientLightIntensity := intensity }
              sm).renderContext.ambientLightIntensity
        ∧ (Update m duration now { rc1 with ambientLightIntensity := intensity } sm).machine
            = (Update m duration now { rc2 with ambientLightIntensity := intensity }
              sm).machine) := by
  have hnot : ¬ sm.mSkipCounter + 1 < 4 := by omega
  constructor
  · have hrec := Update_of_recompute m duration now rc sm h
    rw [hrec.1, hrec.2.2.2]
    rfl
  · intro rc1 rc2 intensity
    simp [Update, hnot]

/-- Witness of C15: a rising machine with the skip counter at 3, last changed at
time 0, updated at time 10 with a cycle of 100 seconds and intensity 1/2 in the
render context; with the stand-in math functions it writes 1/2 + 1/5. -/
theorem daylight_stateless_witness :
    (Update TsunamiNotificationStateMachine.sampleMath 100 10 ⟨1 / 2, ⟨0, 0⟩⟩
        ⟨StateType.SunRising, 0, 3⟩).calls
      = [StateMachineCall.GetAmbientLightIntensity,
         StateMachineCall.SetAmbientLightIntensity (7 / 10)] := by
  have h := (daylight_stateless TsunamiNotificationStateMachine.sampleMath 100 10
    ⟨1 / 2, ⟨0, 0⟩⟩ ⟨StateType.SunRising, 0, 3⟩ (by decide)).1
  rw [h]
  norm_num [TsunamiNotificationStateMachine.sampleMath]

end DayLightCycleStateMachine

end GameController

/-! ## Theorems: tsunami notification -/

namespace GameController

namespace TsunamiNotificationStateMachine

/-- One `Update` call: the phase after it, the text lines it adds, its return value. -/
theorem Update_spec (m : MathFunctions) (now : ℚ) (sm : TsunamiNotificationStateMachine) :
    (sm.mCurrentState = .RumblingFadeIn →
        (Update m now sm).machine
          = if (now - sm.mCurrentStateStartTime) / 1 ≥ 1 then ⟨.Rumbling1, now⟩ else sm)
    ∧ (sm.mCurrentState = .Rumbling1 →
        (Update m now sm).machine
          = if (now - sm.mCurrentStateStartTime) / (45 / 10) ≥ 1 then ⟨.Rumbling2, now⟩ else sm)
    ∧ (sm.mCurrentState = .Rumbling2 →
        (Update m now sm).machine
          = if (now - sm.mCurrentStateStartTime) / (5 / 10) ≥ 1 then ⟨.RumblingFadeOut, now⟩
            else sm)
    ∧ (sm.mCurrentState = .RumblingFadeOut → (Update m now sm).machine = sm)
    ∧ (Update m now sm).calls.filter StateMachineCall.isAddEphemeralTextLine
        = (if sm.mCurrentState = .Rumbling1
              ∧ (now - sm.mCurrentStateStartTime) / (45 / 10) ≥ 1 then
            [StateMachineCall.AddEphemeralTextLine "TSUNAMI WARNING!" 5] else [])
    ∧ ((Update m now sm).result = false ↔
        sm.mCurrentState = .RumblingFadeOut ∧ (now - sm.mCurrentStateStartTime) / 2 ≥ 1) := by
  have h45 : (4500 / 1000 : ℚ) = 45 / 10 := by norm_num
  have h5 : (500 / 1000 : ℚ) = 5 / 10 := by norm_num
  cases hs : sm.mCurrentState with
  | RumblingFadeIn =>
    simp [Update, hs, GameWallClock.Progress, StateMachineCall.isAddEphemeralTextLine]
  | Rumbling1 =>
    by_cases hp : (now - sm.mCurrentStateStartTime) / (45 / 10) ≥ 1
    · have hp' : GameWallClock.Progress now sm.mCurrentStateStartTime (4500 / 1000) ≥ 1 := by
        rw [h45]; exact hp
      simp only [Update, hs, if_pos hp']
      simp [StateMachineCall.isAddEphemeralTextLine, hp]
    · have hp' : ¬ GameWallClock.Progress now sm.mCurrentStateStartTime (4500 / 1000) ≥ 1 := by
        rw [h45]; exact hp
      simp only [Update, hs, if_neg hp']
      simp [StateMachineCall.isAddEphemeralTextLine, hp]
  | Rumbling2 =>
    simp only [Update, hs, GameWallClock.Progress, h5]
    simp [StateMachineCall.isAddEphemeralTextLine]
  | RumblingFadeOut =>
    simp only [Update, hs, GameWallClock.Progress]
    by_cases hp : (now - sm.mCurrentStateStartTime) / 2 ≥ 1
    · simp [StateMachineCall.isAddEphemeralTextLine, hp]
    · simp [StateMachineCall.isAddEphemeralTextLine, hp]

/-- A call moves the phase forward by at most one position and never backwards. -/
theorem phase_rank_Update (m : MathFunctions) (now : ℚ) (sm : TsunamiNotificationStateMachine) :
    sm.mCurrentState.rank ≤ (Update m now sm).machine.mCurrentState.rank
    ∧ (Update m now sm).machine.mCurrentState.rank ≤ sm.mCurrentState.rank + 1 := by
  obtain ⟨h1, h2, h3, h4, _, _⟩ := Update_spec m now sm
  cases hs : sm.mCurrentState with
  | RumblingFadeIn =>
    rw [h1 hs]
    split_ifs <;> simp [StateType.rank, hs]
  | Rumbling1 =>
    rw [h2 hs]
    split_ifs <;> simp [StateType.rank, hs]
  | Rumbling2 =>
    rw [h3 hs]
    split_ifs <;> simp [StateType.rank, hs]
  | RumblingFadeOut =>
    rw [h4 hs]
    simp [hs]

/-- The text lines added by a run from any phase: at most one when the run starts in
RumblingFadeIn or Rumbling1 and none otherwise; and exactly that many up to and
including any call that returns false. -/
theorem run_text_lines (m : MathFunctions) (nows : List ℚ) :
    ∀ sm : TsunamiNotificationStateMachine,
      ((callsOf (runTrace m sm nows)).filter StateMachineCall.isAddEphemeralTextLine).length
          ≤ (if sm.mCurrentState.rank ≤ 1 then 1 else 0)
      ∧ ∀ (k : Nat) (r : UpdateResult), (runTrace m sm nows)[k]? = some r → r.result = false →
          (callsOf ((runTrace m sm nows).take (k + 1))).filter
              StateMachineCall.isAddEphemeralTextLine
            = (if sm.mCurrentState.rank ≤ 1 then
                [StateMachineCall.AddEphemeralTextLine "TSUNAMI WARNING!" 5] else []) := by
  induction nows with
  | nil =>
    intro sm
    refine ⟨by simp [runTrace, callsOf], fun k r h => by simp [runTrace] at h⟩
  | cons now nows ih =>
    intro sm
    obtain ⟨h1, h2, h3, h4, htext, hres⟩ := Update_spec m now sm
    obtain ⟨ihc, ihf⟩ := ih (Update m now sm).machine
    have hfirst : ∀ r : UpdateResult, Update m now sm = r → r.result = false →
        sm.mCurrentState = .RumblingFadeOut := by
      intro r hr hfalse
      rw [← hr] at hfalse
      exact (hres.mp hfalse).1
    cases hs : sm.mCurrentState with
    | RumblingFadeIn =>
      have htext0 : (Update m now sm).calls.filter StateMachineCall.isAddEphemeralTextLine
          = [] := by
        rw [htext, hs]; simp
      have hnext : (Update m now sm).machine.mCurrentState.rank ≤ 1 := by
        have := (phase_rank_Update m now sm).2
        rw [hs] at this
        simpa [StateType.rank] using this
      rw [if_pos hnext] at ihc ihf
      constructor
      · simp only [runTrace, callsOf, List.filter_append, htext0, List.nil_append]
        simpa [StateType.rank] using ihc
      · intro k r hk hfalse
        cases k with
        | zero =>
          simp only [runTrace, List.getElem?_cons_zero, Option.some.injEq] at hk
          have := hfirst r hk hfalse
          rw [hs] at this
          cases this
        | succ k =>
          simp only [runTrace, List.getElem?_cons_succ] at hk
          simp only [runTrace, List.take_succ_cons, callsOf, List.filter_append, htext0,
            List.nil_append]
          rw [ihf k r hk hfalse]
          simp [StateType.rank]
    | Rumbling1 =>
      by_cases hp : (now - sm.mCurrentStateStartTime) / (45 / 10) ≥ 1
      · have htext1 : (Update m now sm).calls.filter StateMachineCall.isAddEphemeralTextLine
            = [StateMachineCall.AddEphemeralTextLine "TSUNAMI WARNING!" 5] := by
          rw [htext, if_pos ⟨hs, hp⟩]
        have hnext : ¬ (Update m now sm).machine.mCurrentState.rank ≤ 1 := by
          rw [h2 hs, if_pos hp]
          simp [StateType.rank]
        rw [if_neg hnext] at ihc ihf
        have ihc0 : (callsOf (runTrace m (Update m now sm).machine nows)).filter
            StateMachineCall.isAddEphemeralTextLine = [] := by
          apply List.eq_nil_of_length_eq_zero
          omega
        constructor
        · simp only [runTrace, callsOf, List.filter_append, htext1, ihc0]
          simp [StateType.rank]
        · intro k r hk hfalse
          cases k with
          | zero =>
            simp only [runTrace, List.getElem?_cons_zero, Option.some.injEq] at hk
            have := hfirst r hk hfalse
            rw [hs] at this
            cases this
          | succ k =>
            simp only [runTrace, List.getElem?_cons_succ] at hk
            simp only [runTrace, List.take_succ_cons, callsOf, List.filter_append, htext1]
            rw [ihf k r hk hfalse]
            simp [StateType.rank]
      · have htext0 : (Update m now sm).calls.filter StateMachineCall.isAddEphemeralTextLine
            = [] := by
          rw [htext]
          have : ¬ (sm.mCurrentState = .Rumbling1
              ∧ (now - sm.mCurrentStateStartTime) / (45 / 10) ≥ 1) := fun h => hp h.2
          rw [if_neg this]
        have hnext : (Update m now sm).machine.mCurrentState.rank ≤ 1 := by
          rw [h2 hs, if_neg hp, hs]
          simp [StateType.rank]
        rw [if_pos hnext] at ihc ihf
        constructor
        · simp only [runTrace, callsOf, List.filter_append, htext0, List.nil_append]
          simpa [StateType.rank] using ihc
        · intro k r hk hfalse
          cases k with
          | zero =>
            simp only [runTrace, List.getElem?_cons_zero, Option.some.injEq] at hk
            have := hfirst r hk hfalse
            rw [hs] at this
            cases this
          | succ k =>
            simp only [runTrace, List.getElem?_cons_succ] at hk
            simp only [runTrace, List.take_succ_cons, callsOf, List.filter_append, htext0,
              List.nil_append]
            rw [ihf k r hk hfalse]
            simp [StateType.rank]
    | Rumbling2 =>
      have htext0 : (Update m now sm).calls.filter StateMachineCall.isAddEphemeralTextLine
          = [] := by
        rw [htext, hs]; simp
      have hnext : ¬ (Update m now sm).machine.mCurrentState.rank ≤ 1 := by
        have hr := (phase_rank_Update m now sm).1
        have h2 : StateType.rank StateType.Rumbling2 = 2 := rfl
        rw [hs, h2] at hr
        omega
      rw [if_neg hnext] at ihc ihf
      have ihc0 : (callsOf (runTrace m (Update m now sm).machine nows)).filter
          StateMachineCall.isAddEphemeralTextLine = [] := by
        apply List.eq_nil_of_length_eq_zero
        omega
      constructor
      · simp only [runTrace, callsOf, List.filter_append, htext0, ihc0]
        simp
      · intro k r hk hfalse
        cases k with
        | zero =>
          simp only [runTrace, List.getElem?_cons_zero, Option.some.injEq] at hk
          have := hfirst r hk hfalse
          rw [hs] at this
          cases this
        | succ k =>
          simp only [runTrace, List.getElem?_cons_succ] at hk
          simp only [runTrace, List.take_succ_cons, callsOf, List.filter_append, htext0,
            List.nil_append]
          rw [ihf k r hk hfalse]
          simp [StateType.rank]
    | RumblingFadeOut =>
      have htext0 : (Update m now sm).calls.filter StateMachineCall.isAddEphemeralTextLine
          = [] := by
        rw [htext, hs]; simp
      have hnext : ¬ (Update m now sm).machine.mCurrentState.rank ≤ 1 := by
        rw [h4 hs, hs]
        simp [StateType.rank]
      rw [if_neg hnext] at ihc ihf
      have ihc0 : (callsOf (runTrace m (Update m now sm).machine nows)).filter
          StateMachineCall.isAddEphemeralTextLine = [] := by
        apply List.eq_nil_of_length_eq_zero
        omega
      constructor
      · simp only [runTrace, callsOf, List.filter_append, htext0, ihc0]
        simp
      · intro k r hk hfalse
        cases k with
        | zero =>
          simp only [runTrace, List.take_succ_cons, List.take_zero, callsOf, List.append_nil,
            htext0]
          simp [StateType.rank]
        | succ k =>
          simp only [runTrace, List.getElem?_cons_succ] at hk
          simp only [runTrace, List.take_succ_cons, callsOf, List.filter_append, htext0,
            List.nil_append]
          rw [ihf k r hk hfalse]
          simp [StateType.rank]

/-- C16. Tsunami notification state machine. `Update` moves RumblingFadeIn to
Rumbling1, Rumbling1 to Rumbling2 and Rumbling2 to RumblingFadeOut, one phase per
call at most, exactly when the wall time elapsed since the phase started, over 1 s,
4.5 s and 0.5 s respectively, is >= 1, and it never leaves RumblingFadeOut. It adds
the text line "TSUNAMI WARNING!" exactly on the Rumbling1 to Rumbling2 transition.
It returns false exactly in RumblingFadeOut with elapsed time over 2 s >= 1. Over
any run from construction the text line is added at most once, and exactly once up
to any call that returns false. -/
theorem tsunami_notification (m : MathFunctions) (start : ℚ) (nows : List ℚ) :
    (∀ (now : ℚ) (sm : TsunamiNotificationStateMachine),
        (sm.mCurrentState = .RumblingFadeIn →
          (Update m now sm).machine
            = if (now - sm.mCurrentStateStartTime) / 1 ≥ 1 then ⟨.Rumbling1, now⟩ else sm)
        ∧ (sm.mCurrentState = .Rumbling1 →
          (Update m now sm).machine
            = if (now - sm.mCurrentStateStartTime) / (45 / 10) ≥ 1 then ⟨.Rumbling2, now⟩
              else sm)
        ∧ (sm.mCurrentState = .Rumbling2 →
          (Update m now sm).machine
            = if (now - sm.mCurrentStateStartTime) / (5 / 10) ≥ 1 then
                ⟨.RumblingFadeOut, now⟩
              else sm)
        ∧ (sm.mCurrentState = .RumblingFadeOut → (Update m now sm).machine = sm)
        ∧ (Update m now sm).calls.filter StateMachineCall.isAddEphemeralTextLine
            = (if sm.mCurrentState = .Rumbling1
                  ∧ (now - sm.mCurrentStateStartTime) / (45 / 10) ≥ 1 then
                [StateMachineCall.AddEphemeralTextLine "TSUNAMI WARNING!" 5] else [])
        ∧ ((Update m now sm).result = false ↔
            sm.mCurrentState = .RumblingFadeOut
              ∧ (now - sm.mCurrentStateStartTime) / 2 ≥ 1)
        ∧ sm.mCurrentState.rank ≤ (Update m now sm).machine.mCurrentState.rank
        ∧ (Update m now sm).machine.mCurrentState.rank ≤ sm.mCurrentState.rank + 1)
    ∧ ((callsOf (runTrace m (new start) nows)).filter
          StateMachineCall.isAddEphemeralTextLine).length ≤ 1
    ∧ (∀ (k : Nat) (r : UpdateResult),
        (runTrace m (new start) nows)[k]? = some r → r.result = false →
          (callsOf ((runTrace m (new start) nows).take (k + 1))).filter
              StateMachineCall.isAddEphemeralTextLine
            = [StateMachineCall.AddEphemeralTextLine "TSUNAMI WARNING!" 5]) := by
  refine ⟨?_, ?_, ?_⟩
  · intro now sm
    obtain ⟨h1, h2, h3, h4, h5, h6⟩ := Update_spec m now sm
    exact ⟨h1, h2, h3, h4, h5, h6, (phase_rank_Update m now sm).1, (phase_rank_Update m now sm).2⟩
  · have := (run_text_lines m nows (new start)).1
    simpa [new, StateType.rank] using this
  · intro k r hk hfalse
    have := (run_text_lines m nows (new start)).2 k r hk hfalse
    simpa [new, StateType.rank] using this

end TsunamiNotificationStateMachine

end GameController

/-! ## Theorems: Buffer2D -/

/-! ### Loops and linear indices -/

/-- Invariant rule for `forLoopNat`: an invariant that holds before the loop and is
carried by every iteration (which then does not fail) holds after the loop. -/
theorem forLoopNat_invariant {σ : Type} (P : Nat → σ → Prop) (n : Nat)
    (body : Nat → σ → Option σ) (s : σ) (h0 : P 0 s)
    (hstep : ∀ i, i < n → ∀ s1, P i s1 → ∃ s2, body i s1 = some s2 ∧ P (i + 1) s2) :
    ∃ s', forLoopNat n body s = some s' ∧ P n s' := by
  induction n with
  | zero => exact ⟨s, rfl, h0⟩
  | succ n ih =>
    obtain ⟨s1, hs1, hP1⟩ := ih (fun i hi => hstep i (Nat.lt_succ_of_lt hi))
    obtain ⟨s2, hs2, hP2⟩ := hstep n (Nat.lt_succ_self n) s1 hP1
    exact ⟨s2, by simp [forLoopNat, hs1, hs2], hP2⟩

/-- Invariant rule for `forLoop`. -/
theorem forLoop_invariant {σ : Type} (P : Int → σ → Prop) (n : Int) (hn : 0 ≤ n)
    (body : Int → σ → Option σ) (s : σ) (h0 : P 0 s)
    (hstep : ∀ i, 0 ≤ i → i < n → ∀ s1, P i s1 → ∃ s2, body i s1 = some s2 ∧ P (i + 1) s2) :
    ∃ s', forLoop n body s = some s' ∧ P n s' := by
  have h := forLoopNat_invariant (fun i s => P (i : Int) s) n.toNat
    (fun i => body (i : Int)) s (by simpa using h0)
    (by
      intro i hi s1 hP
      have hlt : (i : Int) < n := by omega
      obtain ⟨s2, hs2, hP2⟩ := hstep (i : Int) (by omega) hlt s1 hP
      exact ⟨s2, hs2, by simpa using hP2⟩)
  obtain ⟨s', hs', hP'⟩ := h
  refine ⟨s', hs', ?_⟩
  have : ((n.toNat : Nat) : Int) = n := Int.toNat_of_nonneg hn
  simpa [this] using hP'

/-- The row-major index of in-size coordinates is within the array. -/
theorem linear_index_bounds (x y width height : Int) (hx0 : 0 ≤ x) (hx : x < width)
    (hy0 : 0 ≤ y) (hy : y < height) :
    0 ≤ y * width + x ∧ y * width + x < width * height := by
  constructor
  · have : 0 ≤ y * width := mul_nonneg hy0 (by omega)
    omega
  · have h1 : (y + 1) * width ≤ height * width :=
      mul_le_mul_of_nonneg_right (by omega) (by omega)
    nlinarith

/-- A linear index lies in the row segment that starts at column `a` of row `r` and
has `w` cells, exactly when its coordinates do. -/
theorem linear_index_in_row (x y r a w width : Int) (hx0 : 0 ≤ x) (hx : x < width)
    (ha : 0 ≤ a) (haw : a + w ≤ width) :
    (r * width + a ≤ y * width + x ∧ y * width + x < r * width + a + w)
      ↔ (y = r ∧ a ≤ x ∧ x < a + w) := by
  constructor
  · rintro ⟨h1, h2⟩
    have hw : 0 < width := by omega
    have hyr : y ≤ r := by
      by_contra hc
      have : r + 1 ≤ y := by omega
      have : (r + 1) * width ≤ y * width := mul_le_mul_of_nonneg_right this (by omega)
      nlinarith
    have hry : r ≤ y := by
      by_contra hc
      have : y + 1 ≤ r := by omega
      have : (y + 1) * width ≤ r * width := mul_le_mul_of_nonneg_right this (by omega)
      nlinarith
    have hy : y = r := by omega
    subst hy
    exact ⟨rfl, by omega, by omega⟩
  · rintro ⟨hy, h1, h2⟩
    subst hy
    exact ⟨by omega, by omega⟩

namespace Buffer2D

variable {α : Type}

/-- Reading in-size coordinates of a well-formed buffer gives the cell at the
row-major index. -/
theorem get_of_IsInSize (b : Buffer2D α) (hwf : b.WellFormed) (c : IntegralCoordinates)
    (hc : c.IsInSize b.Size) : b.get c = some (b.Data (c.y * b.Size.width + c.x)) := by
  obtain ⟨hx0, hx, hy0, hy⟩ := hc
  have hb := (linear_index_bounds c.x c.y b.Size.width b.Size.height hx0 hx hy0 hy).2
  have hlt : c.y * b.Size.width + c.x < b.mLinearSize := by rw [hwf.2.2]; exact hb
  simp [get, IntegralCoordinates.IsInSize, hx0, hx, hy0, hy, hlt]

end Buffer2D

/-! ### MakeReframed -/

namespace Buffer2D

variable {α : Type}

/-- One cell of `MakeReframed`: within the new size, the write succeeds and stores
the source cell when the shifted coordinates are in the source, the filler
otherwise. -/
theorem reframeCell_spec (b : Buffer2D α) (hwf : b.WellFormed) (newSize : IntegralRectSize)
    (originOffset : IntegralCoordinates) (fillerValue : α) (ny nx : Int)
    (hny0 : 0 ≤ ny) (hny : ny < newSize.height) (hnx0 : 0 ≤ nx) (hnx : nx < newSize.width)
    (data : Int → α) :
    reframeCell b newSize originOffset fillerValue ny nx data
      = some (fun j =>
          if j = ny * newSize.width + nx then
            (if (IntegralCoordinates.mk (nx - originOffset.x) (ny - originOffset.y)).IsInSize
                b.Size then
              b.Data ((ny - originOffset.y) * b.Size.width + (nx - originOffset.x))
            else fillerValue)
          else data j) := by
  have hidx := linear_index_bounds nx ny newSize.width newSize.height hnx0 hnx hny0 hny
  have hcond : (nx < originOffset.x ∨ nx ≥ min (originOffset.x + b.Size.width) newSize.width
        ∨ ny < originOffset.y ∨ ny ≥ min (originOffset.y + b.Size.height) newSize.height)
      ↔ ¬ (IntegralCoordinates.mk (nx - originOffset.x) (ny - originOffset.y)).IsInSize
          b.Size := by
    simp only [IntegralCoordinates.IsInSize, ge_iff_le, min_le_iff]
    omega
  by_cases hin : (IntegralCoordinates.mk (nx - originOffset.x) (ny - originOffset.y)).IsInSize
      b.Size
  · have hno : ¬ (nx < originOffset.x
        ∨ nx ≥ min (originOffset.x + b.Size.width) newSize.width
        ∨ ny < originOffset.y
        ∨ ny ≥ min (originOffset.y + b.Size.height) newSize.height) := by
      rw [hcond]; exact not_not.mpr hin
    obtain ⟨hx0, hx, hy0, hy⟩ := hin
    have hsrc := linear_index_bounds (nx - originOffset.x) (ny - originOffset.y)
      b.Size.width b.Size.height hx0 hx hy0 hy
    have hsame : (ny - originOffset.y) * b.Size.width + nx - originOffset.x
        = (ny - originOffset.y) * b.Size.width + (nx - originOffset.x) := by ring
    have hread : readCell b.Data b.mLinearSize
        ((ny - originOffset.y) * b.Size.width + nx - originOffset.x)
        = some (b.Data ((ny - originOffset.y) * b.Size.width + (nx - originOffset.x))) := by
      rw [hsame, readCell, hwf.2.2, if_pos hsrc]
    simp only [reframeCell, if_neg hno, hread, Option.some_bind, writeCell, if_pos hidx,
      if_pos (show (IntegralCoordinates.mk (nx - originOffset.x)
        (ny - originOffset.y)).IsInSize b.Size from ⟨hx0, hx, hy0, hy⟩)]
  · have hyes : nx < originOffset.x
        ∨ nx ≥ min (originOffset.x + b.Size.width) newSize.width
        ∨ ny < originOffset.y
        ∨ ny ≥ min (originOffset.y + b.Size.height) newSize.height := hcond.mpr hin
    simp only [reframeCell, if_pos hyes, writeCell, if_pos hidx, if_neg hin]

/-- One row of `MakeReframed`: the cells of row `ny` of the new array are written,
the others are left as they were. -/
theorem reframeRow_spec (b : Buffer2D α) (hwf : b.WellFormed) (newSize : IntegralRectSize)
    (hw : 0 ≤ newSize.width) (originOffset : IntegralCoordinates) (fillerValue : α) (ny : Int)
    (hny0 : 0 ≤ ny) (hny : ny < newSize.height) (data : Int → α) :
    reframeRow b newSize originOffset fillerValue ny data
      = some (fun j =>
          if ny * newSize.width ≤ j ∧ j < ny * newSize.width + newSize.width then
            (if (IntegralCoordinates.mk (j - ny * newSize.width - originOffset.x)
                (ny - originOffset.y)).IsInSize b.Size then
              b.Data ((ny - originOffset.y) * b.Size.width
                + (j - ny * newSize.width - originOffset.x))
            else fillerValue)
          else data j) := by
  obtain ⟨d, hd, hP⟩ := forLoop_invariant
    (fun i (d : Int → α) => d = fun j =>
      if ny * newSize.width ≤ j ∧ j < ny * newSize.width + i then
        (if (IntegralCoordinates.mk (j - ny * newSize.width - originOffset.x)
            (ny - originOffset.y)).IsInSize b.Size then
          b.Data ((ny - originOffset.y) * b.Size.width
            + (j - ny * newSize.width - originOffset.x))
        else fillerValue)
      else data j)
    newSize.width hw (reframeCell b newSize originOffset fillerValue ny) data
    (by
      funext j
      have : ¬ (ny * newSize.width ≤ j ∧ j < ny * newSize.width + 0) := by omega
      rw [if_neg this])
    (by
      intro i hi0 hi d hd
      refine ⟨_, reframeCell_spec b hwf newSize originOffset fillerValue ny i hny0 hny hi0 hi d,
        ?_⟩
      funext j
      rw [hd]
      beta_reduce
      by_cases hj : j = ny * newSize.width + i
      · have h1 : ny * newSize.width ≤ j ∧ j < ny * newSize.width + (i + 1) := by omega
        have h2 : j - ny * newSize.width = i := by omega
        rw [if_pos hj, if_pos h1, h2]
      · rw [if_neg hj]
        by_cases h1 : ny * newSize.width ≤ j ∧ j < ny * newSize.width + i
        · have h2 : ny * newSize.width ≤ j ∧ j < ny * newSize.width + (i + 1) := by omega
          rw [if_pos h1, if_pos h2]
        · have h2 : ¬ (ny * newSize.width ≤ j ∧ j < ny * newSize.width + (i + 1)) := by omega
          rw [if_neg h1, if_neg h2])
  rw [reframeRow, hd, hP]

/-- C18. `MakeReframed(newSize, originOffset, filler)` on a well-formed buffer, for
a new size with non-negative dimensions and an offset of either sign, returns a
buffer of size `newSize` in which every coordinate (nx, ny) within `newSize` holds
the source element at (nx - originOffset.x, ny - originOffset.y) when these
coordinates are within the source's `Size`, and the filler otherwise. So reframing
to the same size with offset (0,0) reproduces the source, and with an offset at or
beyond -width horizontally, or at or beyond -height vertically, the result holds
only the filler. -/
theorem MakeReframed_spec [Inhabited α] (b : Buffer2D α) (hwf : b.WellFormed)
    (newSize : IntegralRectSize) (hw : 0 ≤ newSize.width) (hh : 0 ≤ newSize.height)
    (originOffset : IntegralCoordinates) (fillerValue : α) :
    ∃ r : Buffer2D α,
      b.MakeReframed newSize originOffset fillerValue = some r
      ∧ r.Size = newSize
      ∧ r.WellFormed
      ∧ (∀ c : IntegralCoordinates, c.IsInSize newSize →
          r.get c
            = if (IntegralCoordinates.mk (c.x - originOffset.x)
                  (c.y - originOffset.y)).IsInSize b.Size then
                b.get ⟨c.x - originOffset.x, c.y - originOffset.y⟩
              else some fillerValue)
      ∧ (newSize = b.Size → originOffset = ⟨0, 0⟩ →
          ∀ c : IntegralCoordinates, c.IsInSize b.Size → r.get c = b.get c)
      ∧ (originOffset.x ≤ -b.Size.width ∨ originOffset.y ≤ -b.Size.height →
          ∀ c : IntegralCoordinates, c.IsInSize newSize → r.get c = some fillerValue) := by
  obtain ⟨d, hd, hQ⟩ := forLoop_invariant
    (fun k (d : Int → α) => ∀ x y : Int, 0 ≤ x → x < newSize.width → 0 ≤ y → y < k →
      d (y * newSize.width + x)
        = if (IntegralCoordinates.mk (x - originOffset.x) (y - originOffset.y)).IsInSize
              b.Size then
            b.Data ((y - originOffset.y) * b.Size.width + (x - originOffset.x))
          else fillerValue)
    newSize.height hh (reframeRow b newSize originOffset fillerValue) (fun _ => default)
    (by intro x y _ _ hy0 hy; omega)
    (by
      intro ny hny0 hny d hd
      refine ⟨_, reframeRow_spec b hwf newSize hw originOffset fillerValue ny hny0 hny d, ?_⟩
      intro x y hx0 hx hy0 hy
      have hrow := linear_index_in_row x y ny 0 newSize.width newSize.width hx0 hx
        (le_refl 0) (by omega)
      simp only [add_zero] at hrow
      by_cases hyn : y = ny
      · subst hyn
        have h1 : y * newSize.width ≤ y * newSize.width + x
            ∧ y * newSize.width + x < y * newSize.width + newSize.width := by omega
        have h2 : y * newSize.width + x - y * newSize.width - originOffset.x
            = x - originOffset.x := by ring
        simp only [if_pos h1, h2]
      · have h1 : ¬ (ny * newSize.width ≤ y * newSize.width + x
            ∧ y * newSize.width + x < ny * newSize.width + newSize.width) := by
          rw [hrow]
          intro h
          exact hyn h.1
        simp only [if_neg h1]
        exact hd x y hx0 hx hy0 (by omega))
  have hsize : ¬ newSize.width * newSize.height < 0 := by
    have := mul_nonneg hw hh
    omega
  have hrwf : (ofData newSize d).WellFormed := ⟨hw, hh, rfl⟩
  have hget : ∀ c : IntegralCoordinates, c.IsInSize newSize →
      (ofData newSize d).get c
        = if (IntegralCoordinates.mk (c.x - originOffset.x)
              (c.y - originOffset.y)).IsInSize b.Size then
            b.get ⟨c.x - originOffset.x, c.y - originOffset.y⟩
          else some fillerValue := by
    intro c hc
    rw [get_of_IsInSize (ofData newSize d) hrwf c hc]
    have hval := hQ c.x c.y hc.1 hc.2.1 hc.2.2.1 hc.2.2.2
    show some (d (c.y * newSize.width + c.x)) = _
    rw [hval]
    by_cases hin : (IntegralCoordinates.mk (c.x - originOffset.x)
        (c.y - originOffset.y)).IsInSize b.Size
    · rw [if_pos hin, if_pos hin, get_of_IsInSize b hwf _ hin]
    · rw [if_neg hin, if_neg hin]
  refine ⟨ofData newSize d, ?_, rfl, hrwf, hget, ?_, ?_⟩
  · simp only [MakeReframed, if_neg hsize, hd, Option.map_some']
  · intro hs ho c hc
    have hc' : c.IsInSize newSize := by rw [hs]; exact hc
    rw [hget c hc', ho]
    simp only [sub_zero]
    rw [if_pos hc]
  · intro hoff c hc
    rw [hget c hc]
    have hout : ¬ (IntegralCoordinates.mk (c.x - originOffset.x)
        (c.y - originOffset.y)).IsInSize b.Size := by
      simp only [IntegralCoordinates.IsInSize]
      have := hc.1
      have := hc.2.2.1
      omega
    rw [if_neg hout]

/-- Witness of C18: a 3 x 2 buffer holding 1 .. 6 reframed to 4 x 3 with the old
origin at (-1, 1) and filler 99; the new (1, 1) holds the old (2, 0), the new (0, 0)
holds the filler. -/
theorem MakeReframed_spec_witness :
    ∃ r : Buffer2D Int,
      (ofRows 3 2 [1, 2, 3, 4, 5, 6] 0).MakeReframed ⟨4, 3⟩ ⟨-1, 1⟩ 99 = some r
      ∧ r.Size = ⟨4, 3⟩
      ∧ r.get ⟨1, 1⟩ = some 3
      ∧ r.get ⟨0, 0⟩ = some 99 := by
  obtain ⟨r, h1, h2, _, h4, _, _⟩ :=
    MakeReframed_spec (ofRows 3 2 [1, 2, 3, 4, 5, 6] (0 : Int))
      ⟨by decide, by decide, rfl⟩ ⟨4, 3⟩ (by decide) (by decide) ⟨-1, 1⟩ 99
  refine ⟨r, h1, h2, ?_, ?_⟩
  · rw [h4 ⟨1, 1⟩ (by decide)]
    decide
  · rw [h4 ⟨0, 0⟩ (by decide)]
    decide

end Buffer2D

/-! ### BlitFromRegion -/

namespace Buffer2D

variable {α : Type}

/-- One row of `BlitFromRegion`: both ranges are within their arrays, and the cells of
the target segment receive the cells of the source segment. -/
theorem blitRow_spec (b source : Buffer2D α) (hwf : b.WellFormed) (hswf : source.WellFormed)
    (sourceRegion : IntegralRect) (targetOrigin : IntegralCoordinates)
    (hsw : 0 ≤ sourceRegion.size.width)
    (hsrc : sourceRegion.IsContainedInRect ⟨⟨0, 0⟩, source.Size⟩)
    (htgt : (IntegralRect.mk targetOrigin sourceRegion.size).IsContainedInRect
      ⟨⟨0, 0⟩, b.Size⟩)
    (k : Int) (hk0 : 0 ≤ k) (hk : k < sourceRegion.size.height) (data : Int → α) :
    blitRow b source sourceRegion targetOrigin k data
      = some (fun j =>
          if (targetOrigin.y + k) * b.Size.width + targetOrigin.x ≤ j
              ∧ j < (targetOrigin.y + k) * b.Size.width + targetOrigin.x
                + sourceRegion.size.width then
            source.Data ((sourceRegion.origin.y + k) * source.Size.width
              + sourceRegion.origin.x
              + (j - ((targetOrigin.y + k) * b.Size.width + targetOrigin.x)))
          else data j) := by
  obtain ⟨hs1, hs2, hs3, hs4⟩ := hsrc
  obtain ⟨ht1, ht2, ht3, ht4⟩ := htgt
  simp only [zero_add, ge_iff_le] at hs1 hs2 hs3 hs4 ht1 ht2 ht3 ht4
  have hW := hwf.1
  have hsW := hswf.1
  have ht0 : 0 ≤ (targetOrigin.y + k) * b.Size.width := mul_nonneg (by omega) hW
  have htop : (targetOrigin.y + k + 1) * b.Size.width ≤ b.Size.height * b.Size.width :=
    mul_le_mul_of_nonneg_right (by omega) hW
  have hs0 : 0 ≤ (sourceRegion.origin.y + k) * source.Size.width := mul_nonneg (by omega) hsW
  have hstop : (sourceRegion.origin.y + k + 1) * source.Size.width
      ≤ source.Size.height * source.Size.width :=
    mul_le_mul_of_nonneg_right (by omega) hsW
  have hcheck : 0 ≤ sourceRegion.size.width
      ∧ 0 ≤ (targetOrigin.y + k) * b.Size.width + targetOrigin.x
      ∧ (targetOrigin.y + k) * b.Size.width + targetOrigin.x + sourceRegion.size.width
        ≤ b.mLinearSize
      ∧ 0 ≤ (sourceRegion.origin.y + k) * source.Size.width + sourceRegion.origin.x
      ∧ (sourceRegion.origin.y + k) * source.Size.width + sourceRegion.origin.x
          + sourceRegion.size.width ≤ source.mLinearSize := by
    rw [hwf.2.2, hswf.2.2]
    refine ⟨hsw, by omega, ?_, by omega, ?_⟩
    · nlinarith
    · nlinarith
  simp only [blitRow, memcpy, if_pos hcheck]

/-- C19. `BlitFromRegion(source, sourceRegion, targetOrigin)` on well-formed buffers,
for a source region (of non-negative dimensions) contained in the source and a
target rectangle (targetOrigin, sourceRegion.size) contained in the target: the
call succeeds, `Size` is unchanged, every target coordinate c inside that rectangle
holds source[sourceRegion.origin + (c - targetOrigin)], and every target coordinate
outside it holds its previous value. -/
theorem BlitFromRegion_spec (b source : Buffer2D α) (hwf : b.WellFormed)
    (hswf : source.WellFormed) (sourceRegion : IntegralRect)
    (targetOrigin : IntegralCoordinates) (hsw : 0 ≤ sourceRegion.size.width)
    (hsh : 0 ≤ sourceRegion.size.height)
    (hsrc : sourceRegion.IsContainedInRect ⟨⟨0, 0⟩, source.Size⟩)
    (htgt : (IntegralRect.mk targetOrigin sourceRegion.size).IsContainedInRect
      ⟨⟨0, 0⟩, b.Size⟩) :
    ∃ r : Buffer2D α,
      b.BlitFromRegion source sourceRegion targetOrigin = some r
      ∧ r.Size = b.Size
      ∧ r.WellFormed
      ∧ ∀ c : IntegralCoordinates, c.IsInSize b.Size →
          r.get c
            = if targetOrigin.x ≤ c.x ∧ c.x < targetOrigin.x + sourceRegion.size.width
                  ∧ targetOrigin.y ≤ c.y
                  ∧ c.y < targetOrigin.y + sourceRegion.size.height then
                source.get ⟨sourceRegion.origin.x + (c.x - targetOrigin.x),
                  sourceRegion.origin.y + (c.y - targetOrigin.y)⟩
              else b.get c := by
  obtain ⟨d, hd, hQ⟩ := forLoop_invariant
    (fun k (d : Int → α) => ∀ x y : Int, 0 ≤ x → x < b.Size.width → 0 ≤ y →
      y < b.Size.height →
      d (y * b.Size.width + x)
        = if targetOrigin.x ≤ x ∧ x < targetOrigin.x + sourceRegion.size.width
              ∧ targetOrigin.y ≤ y ∧ y < targetOrigin.y + k then
            source.Data ((sourceRegion.origin.y + (y - targetOrigin.y)) * source.Size.width
              + (sourceRegion.origin.x + (x - targetOrigin.x)))
          else b.Data (y * b.Size.width + x))
    sourceRegion.size.height hsh (blitRow b source sourceRegion targetOrigin) b.Data
    (by
      intro x y _ _ _ _
      have : ¬ (targetOrigin.x ≤ x ∧ x < targetOrigin.x + sourceRegion.size.width
          ∧ targetOrigin.y ≤ y ∧ y < targetOrigin.y + 0) := by omega
      rw [if_neg this])
    (by
      intro k hk0 hk d hd
      refine ⟨_, blitRow_spec b source hwf hswf sourceRegion targetOrigin hsw hsrc htgt k hk0
        hk d, ?_⟩
      intro x y hx0 hx hy0 hy
      have ht1 : 0 ≤ targetOrigin.x := by
        have := htgt.1
        simpa using this
      have ht3 : targetOrigin.x + sourceRegion.size.width ≤ b.Size.width := by
        have := htgt.2.2.1
        simpa using this
      have hrow := linear_index_in_row x y (targetOrigin.y + k) targetOrigin.x
        sourceRegion.size.width b.Size.width hx0 hx ht1 ht3
      beta_reduce
      by_cases hin : y = targetOrigin.y + k ∧ targetOrigin.x ≤ x
          ∧ x < targetOrigin.x + sourceRegion.size.width
      · have h1 := hrow.mpr hin
        have h2 : targetOrigin.x ≤ x ∧ x < targetOrigin.x + sourceRegion.size.width
            ∧ targetOrigin.y ≤ y ∧ y < targetOrigin.y + (k + 1) := by omega
        rw [if_pos h1, if_pos h2]
        obtain ⟨hy, _, _⟩ := hin
        subst hy
        congr 1
        ring
      · have h1 : ¬ ((targetOrigin.y + k) * b.Size.width + targetOrigin.x
              ≤ y * b.Size.width + x
            ∧ y * b.Size.width + x < (targetOrigin.y + k) * b.Size.width + targetOrigin.x
              + sourceRegion.size.width) := fun h => hin (hrow.mp h)
        rw [if_neg h1, hd x y hx0 hx hy0 hy]
        by_cases h3 : targetOrigin.x ≤ x ∧ x < targetOrigin.x + sourceRegion.size.width
            ∧ targetOrigin.y ≤ y ∧ y < targetOrigin.y + k
        · have h4 : targetOrigin.x ≤ x ∧ x < targetOrigin.x + sourceRegion.size.width
              ∧ targetOrigin.y ≤ y ∧ y < targetOrigin.y + (k + 1) := by omega
          rw [if_pos h3, if_pos h4]
        · have h4 : ¬ (targetOrigin.x ≤ x ∧ x < targetOrigin.x + sourceRegion.size.width
              ∧ targetOrigin.y ≤ y ∧ y < targetOrigin.y + (k + 1)) := by omega
          rw [if_neg h3, if_neg h4])
  have hrwf : ({ b with Data := d } : Buffer2D α).WellFormed := hwf
  refine ⟨{ b with Data := d }, ?_, rfl, hrwf, ?_⟩
  · simp only [BlitFromRegion, hd, Option.map_some']
    rw [if_neg (not_not.mpr hsrc), if_neg (not_not.mpr htgt)]
  · intro c hc
    rw [get_of_IsInSize _ hrwf c hc]
    show some (d (c.y * b.Size.width + c.x)) = _
    rw [hQ c.x c.y hc.1 hc.2.1 hc.2.2.1 hc.2.2.2]
    by_cases hin : targetOrigin.x ≤ c.x ∧ c.x < targetOrigin.x + sourceRegion.size.width
        ∧ targetOrigin.y ≤ c.y ∧ c.y < targetOrigin.y + sourceRegion.size.height
    · rw [if_pos hin, if_pos hin]
      have hs := hsrc
      simp only [IntegralRect.IsContainedInRect, zero_add, ge_iff_le] at hs
      have hsin : (IntegralCoordinates.mk (sourceRegion.origin.x + (c.x - targetOrigin.x))
          (sourceRegion.origin.y + (c.y - targetOrigin.y))).IsInSize source.Size := by
        simp only [IntegralCoordinates.IsInSize]
        omega
      rw [get_of_IsInSize source hswf _ hsin]
    · rw [if_neg hin, if_neg hin, get_of_IsInSize b hwf c hc]

/-- Witness of C19: the region (1,0)-(2 x 2) of a 3 x 2 buffer holding 1 .. 6,
copied to (2, 1) of a 5 x 4 buffer of zeros; (3, 2) receives the source's (2, 1),
and (0, 0) keeps its zero. -/
theorem BlitFromRegion_spec_witness :
    ∃ r : Buffer2D Int,
      (fill 5 4 (0 : Int)).BlitFromRegion (ofRows 3 2 [1, 2, 3, 4, 5, 6] 0) ⟨⟨1, 0⟩, ⟨2, 2⟩⟩
          ⟨2, 1⟩ = some r
      ∧ r.Size = ⟨5, 4⟩
      ∧ r.get ⟨3, 2⟩ = some 6
      ∧ r.get ⟨0, 0⟩ = some 0 := by
  obtain ⟨r, h1, h2, _, h4⟩ :=
    BlitFromRegion_spec (fill 5 4 (0 : Int)) (ofRows 3 2 [1, 2, 3, 4, 5, (6 : Int)] 0)
      ⟨by decide, by decide, rfl⟩ ⟨by decide, by decide, rfl⟩ ⟨⟨1, 0⟩, ⟨2, 2⟩⟩ ⟨2, 1⟩
      (by decide) (by decide) (by decide) (by decide)
  refine ⟨r, h1, h2, ?_, ?_⟩
  · rw [h4 ⟨3, 2⟩ (by decide)]
    decide
  · rw [h4 ⟨0, 0⟩ (by decide)]
    decide

/-! ### Flip -/

/-- C20, the code at the failing input. `Flip(Horizontal | Vertical)` on the 2 x 1
buffer holding 10, 20 succeeds and leaves 10 at (0, 0) and 20 at (1, 0): with an
odd height the middle row is not mirrored. On the 3 x 3 buffer holding 1 .. 9 the
top and bottom rows are exchanged and mirrored, and the middle row 4, 5, 6 stays as
it was. -/
theorem Flip_both_skips_middle_row :
    (((ofRows 2 1 [10, 20] (0 : Int)).Flip
        (DirectionType.or DirectionType.Horizontal DirectionType.Vertical)).bind
        (fun r => r.get ⟨0, 0⟩)) = some 10
    ∧ (((ofRows 2 1 [10, 20] (0 : Int)).Flip
        (DirectionType.or DirectionType.Horizontal DirectionType.Vertical)).bind
        (fun r => r.get ⟨1, 0⟩)) = some 20
    ∧ (((ofRows 3 3 [1, 2, 3, 4, 5, 6, 7, 8, 9] (0 : Int)).Flip
        (DirectionType.or DirectionType.Horizontal DirectionType.Vertical)).bind
        (fun r => r.get ⟨0, 0⟩)) = some 9
    ∧ (((ofRows 3 3 [1, 2, 3, 4, 5, 6, 7, 8, 9] (0 : Int)).Flip
        (DirectionType.or DirectionType.Horizontal DirectionType.Vertical)).bind
        (fun r => r.get ⟨0, 1⟩)) = some 4
    ∧ (((ofRows 3 3 [1, 2, 3, 4, 5, 6, 7, 8, 9] (0 : Int)).Flip
        (DirectionType.or DirectionType.Horizontal DirectionType.Vertical)).bind
        (fun r => r.get ⟨2, 1⟩)) = some 6 := by
  refine ⟨?_, ?_, ?_, ?_, ?_⟩ <;> decide

end Buffer2D

/-! ### Indexing -/

namespace Buffer2D

variable {α : Type}

/-- The row-major index is injective on in-size coordinates. -/
theorem linear_index_injective (size : IntegralRectSize) (c d : IntegralCoordinates)
    (hc : c.IsInSize size) (hd : d.IsInSize size)
    (h : c.y * size.width + c.x = d.y * size.width + d.x) : c = d := by
  obtain ⟨hcx0, hcx, _, _⟩ := hc
  obtain ⟨hdx0, hdx, _, _⟩ := hd
  have hrow := (linear_index_in_row c.x c.y d.y d.x 1 size.width hcx0 hcx hdx0 (by omega)).mp
    ⟨by omega, by omega⟩
  cases c
  cases d
  simp only [IntegralCoordinates.mk.injEq]
  simp only at hrow
  omega

/-- An assignment at in-size coordinates of a well-formed buffer succeeds and
replaces the cell at the row-major index. -/
theorem set_of_IsInSize (b : Buffer2D α) (hwf : b.WellFormed) (c : IntegralCoordinates)
    (hc : c.IsInSize b.Size) (value : α) :
    b.set c value
      = some { b with
          Data := fun j => if j = c.y * b.Size.width + c.x then value else b.Data j } := by
  obtain ⟨hx0, hx, hy0, hy⟩ := hc
  have hb := (linear_index_bounds c.x c.y b.Size.width b.Size.height hx0 hx hy0 hy).2
  have hlt : c.y * b.Size.width + c.x < b.mLinearSize := by rw [hwf.2.2]; exact hb
  simp [set, IntegralCoordinates.IsInSize, hx0, hx, hy0, hy, hlt]

/-- C23. Coordinate indexing. A buffer built by the fill constructor
`(width, height, v)` reads `v` at every in-size coordinate. For every well-formed
buffer and coordinates `c`, `d` within `Size`: writing `u` at `c` succeeds and keeps
`Size`, then reading `c` gives `u` and reading `d`, when `d != c`, gives its previous
value; the row-major index `y * width + x` of `c` is at least 0 and below
`width * height`, and it is the index of `d` only when `d = c`. -/
theorem indexing_spec (b : Buffer2D α) (hwf : b.WellFormed) (c d : IntegralCoordinates)
    (hc : c.IsInSize b.Size) (hd : d.IsInSize b.Size) (u v : α) :
    (fill b.Size.width b.Size.height v).get c = some v
    ∧ (∃ b1 : Buffer2D α, b.set c u = some b1
        ∧ b1.Size = b.Size
        ∧ b1.get c = some u
        ∧ (d ≠ c → b1.get d = b.get d))
    ∧ 0 ≤ c.y * b.Size.width + c.x
    ∧ c.y * b.Size.width + c.x < b.Size.width * b.Size.height
    ∧ (c.y * b.Size.width + c.x = d.y * b.Size.width + d.x → c = d) := by
  have hfwf : (fill b.Size.width b.Size.height v).WellFormed := ⟨hwf.1, hwf.2.1, rfl⟩
  have hbounds := linear_index_bounds c.x c.y b.Size.width b.Size.height hc.1 hc.2.1 hc.2.2.1
    hc.2.2.2
  refine ⟨?_, ?_, hbounds.1, hbounds.2, linear_index_injective b.Size c d hc hd⟩
  · rw [get_of_IsInSize _ hfwf c hc]
    rfl
  · have hb1wf : ({ b with
        Data := fun j => if j = c.y * b.Size.width + c.x then u else b.Data j }
          : Buffer2D α).WellFormed := hwf
    refine ⟨_, set_of_IsInSize b hwf c hc u, rfl, ?_, ?_⟩
    · rw [get_of_IsInSize _ hb1wf c hc]
      show some (if c.y * b.Size.width + c.x = c.y * b.Size.width + c.x then u else _) = _
      rw [if_pos rfl]
    · intro hne
      rw [get_of_IsInSize _ hb1wf d hd, get_of_IsInSize b hwf d hd]
      show some (if d.y * b.Size.width + d.x = c.y * b.Size.width + c.x then u else _) = _
      rw [if_neg (fun h => hne (linear_index_injective b.Size d c hd hc h))]

/-- Witness of C23: the 4 x 4 buffer of zeros, written with 7 at (1, 2) and read at
(1, 2) and at (2, 1). -/
theorem indexing_spec_witness :
    (fill 4 4 (0 : Int)).get ⟨1, 2⟩ = some 0
    ∧ (∃ b1 : Buffer2D Int, (fill 4 4 (0 : Int)).set ⟨1, 2⟩ 7 = some b1
        ∧ b1.Size = ⟨4, 4⟩
        ∧ b1.get ⟨1, 2⟩ = some 7
        ∧ ((⟨2, 1⟩ : IntegralCoordinates) ≠ ⟨1, 2⟩ → b1.get ⟨2, 1⟩
            = (fill 4 4 (0 : Int)).get ⟨2, 1⟩)) := by
  have h := indexing_spec (fill 4 4 (0 : Int)) ⟨by decide, by decide, rfl⟩ ⟨1, 2⟩ ⟨2, 1⟩
    (by decide) (by decide) 7 0
  exact ⟨h.1, h.2.1⟩

end Buffer2D

/-! ### CloneRegion -/

namespace Buffer2D

variable {α : Type}

/-- One row of `CloneRegion`: both ranges are within their arrays, and the cells of
row `k` of the new array receive the cells of the source segment. -/
theorem cloneRow_spec (b : Buffer2D α) (hwf : b.WellFormed) (regionRect : IntegralRect)
    (hw : 0 ≤ regionRect.size.width)
    (h1 : regionRect.origin.IsInSize b.Size)
    (h2 : (regionRect.origin.addSize regionRect.size).IsInSize b.Size)
    (k : Int) (hk0 : 0 ≤ k) (hk : k < regionRect.size.height) (data : Int → α) :
    cloneRow b regionRect k data
      = some (fun j =>
          if k * regionRect.size.width ≤ j
              ∧ j < k * regionRect.size.width + regionRect.size.width then
            b.Data ((k + regionRect.origin.y) * b.Size.width + regionRect.origin.x
              + (j - k * regionRect.size.width))
          else data j) := by
  obtain ⟨hox0, _, hoy0, _⟩ := h1
  obtain ⟨_, hxw, _, hyh⟩ := h2
  simp only [IntegralCoordinates.addSize] at hxw hyh
  have hW := hwf.1
  have ht0 : 0 ≤ k * regionRect.size.width := mul_nonneg hk0 hw
  have htop : (k + 1) * regionRect.size.width
      ≤ regionRect.size.height * regionRect.size.width :=
    mul_le_mul_of_nonneg_right (by omega) hw
  have hs0 : 0 ≤ (k + regionRect.origin.y) * b.Size.width := mul_nonneg (by omega) hW
  have hstop : (k + regionRect.origin.y + 1) * b.Size.width
      ≤ b.Size.height * b.Size.width :=
    mul_le_mul_of_nonneg_right (by omega) hW
  have hcheck : 0 ≤ regionRect.size.width
      ∧ 0 ≤ k * regionRect.size.width
      ∧ k * regionRect.size.width + regionRect.size.width
        ≤ regionRect.size.width * regionRect.size.height
      ∧ 0 ≤ (k + regionRect.origin.y) * b.Size.width + regionRect.origin.x
      ∧ (k + regionRect.origin.y) * b.Size.width + regionRect.origin.x
          + regionRect.size.width ≤ b.mLinearSize := by
    rw [hwf.2.2]
    refine ⟨hw, ht0, ?_, by omega, ?_⟩
    · nlinarith
    · nlinarith
  simp only [cloneRow, memcpy, if_pos hcheck]

/-- The result of `CloneRegion` for a rect of non-negative dimensions that both
assertions accept. -/
theorem CloneRegion_get [Inhabited α] (b : Buffer2D α) (hwf : b.WellFormed)
    (regionRect : IntegralRect) (hw : 0 ≤ regionRect.size.width)
    (hh : 0 ≤ regionRect.size.height) (h1 : regionRect.origin.IsInSize b.Size)
    (h2 : (regionRect.origin.addSize regionRect.size).IsInSize b.Size) :
    ∃ r : Buffer2D α,
      b.CloneRegion regionRect = some r
      ∧ r.Size = regionRect.size
      ∧ r.WellFormed
      ∧ ∀ c : IntegralCoordinates, c.IsInSize regionRect.size →
          r.get c = b.get ⟨regionRect.origin.x + c.x, regionRect.origin.y + c.y⟩ := by
  obtain ⟨d, hd, hQ⟩ := forLoop_invariant
    (fun k (d : Int → α) => ∀ x y : Int, 0 ≤ x → x < regionRect.size.width → 0 ≤ y → y < k →
      d (y * regionRect.size.width + x)
        = b.Data ((y + regionRect.origin.y) * b.Size.width + regionRect.origin.x + x))
    regionRect.size.height hh (cloneRow b regionRect) (fun _ => default)
    (by
      intro x y _ _ hy0 hy
      omega)
    (by
      intro k hk0 hk d hd
      refine ⟨_, cloneRow_spec b hwf regionRect hw h1 h2 k hk0 hk d, ?_⟩
      intro x y hx0 hx hy0 hy
      have hrow := linear_index_in_row x y k 0 regionRect.size.width regionRect.size.width
        hx0 hx (le_refl 0) (by omega)
      simp only [add_zero, zero_add] at hrow
      beta_reduce
      by_cases hyk : y = k
      · have hin := hrow.mpr ⟨hyk, hx0, hx⟩
        rw [if_pos hin]
        subst hyk
        congr 1
        ring
      · have hnin : ¬ (k * regionRect.size.width ≤ y * regionRect.size.width + x
            ∧ y * regionRect.size.width + x
              < k * regionRect.size.width + regionRect.size.width) :=
          fun h => hyk (hrow.mp h).1
        rw [if_neg hnin]
        exact hd x y hx0 hx hy0 (by omega))
  have hrwf : (ofData regionRect.size d).WellFormed := ⟨hw, hh, rfl⟩
  have hprod : ¬ regionRect.size.width * regionRect.size.height < 0 :=
    not_lt.mpr (mul_nonneg hw hh)
  refine ⟨ofData regionRect.size d, ?_, rfl, hrwf, ?_⟩
  · simp only [CloneRegion, hd, Option.map_some']
    rw [if_neg (not_not.mpr h1), if_neg (not_not.mpr h2), if_neg hprod]
  · intro c hc
    rw [get_of_IsInSize _ hrwf c hc]
    show some (d (c.y * regionRect.size.width + c.x)) = _
    rw [hQ c.x c.y hc.1 hc.2.1 hc.2.2.1 hc.2.2.2]
    have hsin : (IntegralCoordinates.mk (regionRect.origin.x + c.x)
        (regionRect.origin.y + c.y)).IsInSize b.Size := by
      have ha := h1
      have hb := h2
      have hcc := hc
      simp only [IntegralCoordinates.IsInSize, IntegralCoordinates.addSize] at ha hb hcc ⊢
      omega
    rw [get_of_IsInSize b hwf _ hsin]
    congr 2
    ring

/-- C22. `CloneRegion(rect)` on a well-formed buffer, for a rect of non-negative
dimensions that both assertions accept: the call returns a buffer whose `Size` is
`rect.size` and whose element at every (x, y) within `rect.size` is the source
element at (rect.origin.x + x, rect.origin.y + y). The source buffer is an argument
that the call only reads. -/
theorem CloneRegion_spec [Inhabited α] (b : Buffer2D α) (hwf : b.WellFormed)
    (regionRect : IntegralRect) (hw : 0 ≤ regionRect.size.width)
    (hh : 0 ≤ regionRect.size.height) (h1 : regionRect.origin.IsInSize b.Size)
    (h2 : (regionRect.origin.addSize regionRect.size).IsInSize b.Size) :
    ∃ r : Buffer2D α,
      b.CloneRegion regionRect = some r
      ∧ r.Size = regionRect.size
      ∧ ∀ c : IntegralCoordinates, c.IsInSize regionRect.size →
          r.get c = b.get ⟨regionRect.origin.x + c.x, regionRect.origin.y + c.y⟩ := by
  obtain ⟨r, hr, hsize, _, hget⟩ := CloneRegion_get b hwf regionRect hw hh h1 h2
  exact ⟨r, hr, hsize, hget⟩

/-- Witness of C22: the region (1,1)-(2 x 2) of the 4 x 4 buffer holding 100 .. 115;
the clone's (1, 0) is the source's (2, 1), which holds 106. -/
theorem CloneRegion_spec_witness :
    ∃ r : Buffer2D Int,
      (ofRows 4 4 [100, 101, 102, 103, 104, 105, 106, 107, 108, 109, 110, 111, 112, 113,
          114, 115] 0).CloneRegion ⟨⟨1, 1⟩, ⟨2, 2⟩⟩ = some r
      ∧ r.Size = ⟨2, 2⟩
      ∧ r.get ⟨1, 0⟩ = some 106 := by
  obtain ⟨r, h1, h2, h3⟩ :=
    CloneRegion_spec (ofRows 4 4 [100, 101, 102, 103, 104, 105, 106, 107, 108, 109, 110,
        111, 112, 113, 114, (115 : Int)] 0)
      ⟨by decide, by decide, rfl⟩ ⟨⟨1, 1⟩, ⟨2, 2⟩⟩ (by decide) (by decide) (by decide)
      (by decide)
  refine ⟨r, h1, h2, ?_⟩
  rw [h3 ⟨1, 0⟩ (by decide)]
  decide

/-- C26, the code at the failing inputs. On a 4 x 4 buffer the second assertion of
`CloneRegion` is false for the rect covering the whole buffer, for the rect
(2,1)-(2 x 2) that touches the right edge and for the rect (1,2)-(2 x 2) that
touches the bottom edge, although each lies within the buffer; the call has no
result there. `Trim`, with its `<=` assertions, accepts the same rects. -/
theorem CloneRegion_rejects_edge_rects :
    ¬ ((⟨0, 0⟩ : IntegralCoordinates).addSize ⟨4, 4⟩).IsInSize ⟨4, 4⟩
    ∧ (fill 4 4 (0 : Int)).CloneRegion ⟨⟨0, 0⟩, ⟨4, 4⟩⟩ = none
    ∧ ¬ ((⟨2, 1⟩ : IntegralCoordinates).addSize ⟨2, 2⟩).IsInSize ⟨4, 4⟩
    ∧ (fill 4 4 (0 : Int)).CloneRegion ⟨⟨2, 1⟩, ⟨2, 2⟩⟩ = none
    ∧ ¬ ((⟨1, 2⟩ : IntegralCoordinates).addSize ⟨2, 2⟩).IsInSize ⟨4, 4⟩
    ∧ (fill 4 4 (0 : Int)).CloneRegion ⟨⟨1, 2⟩, ⟨2, 2⟩⟩ = none
    ∧ ((fill 4 4 (0 : Int)).Trim ⟨⟨0, 0⟩, ⟨4, 4⟩⟩).isSome = true
    ∧ ((fill 4 4 (0 : Int)).Trim ⟨⟨2, 1⟩, ⟨2, 2⟩⟩).isSome = true
    ∧ ((fill 4 4 (0 : Int)).Trim ⟨⟨1, 2⟩, ⟨2, 2⟩⟩).isSome = true := by
  refine ⟨by decide, rfl, by decide, rfl, by decide, rfl, by decide, by decide, by decide⟩

end Buffer2D

/-! ### Trim -/

namespace Buffer2D

variable {α : Type}

/-- One row of `Trim`: both ranges are within the array, and the cells of row `k` of
the trimmed layout receive what the source segment held before the move. -/
theorem trimRow_spec (b : Buffer2D α) (hwf : b.WellFormed) (rect : IntegralRect)
    (hw : 0 ≤ rect.size.width) (hox : 0 ≤ rect.origin.x) (hoy : 0 ≤ rect.origin.y)
    (hx : rect.origin.x + rect.size.width ≤ b.Size.width)
    (hy : rect.origin.y + rect.size.height ≤ b.Size.height)
    (k : Int) (hk0 : 0 ≤ k) (hk : k < rect.size.height) (data : Int → α) :
    trimRow b rect k data
      = some (fun j =>
          if k * rect.size.width ≤ j ∧ j < k * rect.size.width + rect.size.width then
            data ((k + rect.origin.y) * b.Size.width + rect.origin.x
              + (j - k * rect.size.width))
          else data j) := by
  have hW := hwf.1
  have ht0 : 0 ≤ k * rect.size.width := mul_nonneg hk0 hw
  have htop : (k + 1) * rect.size.width ≤ b.Size.height * b.Size.width :=
    mul_le_mul (by omega) (by omega) hw hwf.2.1
  have hs0 : 0 ≤ (k + rect.origin.y) * b.Size.width := mul_nonneg (by omega) hW
  have hstop : (k + rect.origin.y + 1) * b.Size.width ≤ b.Size.height * b.Size.width :=
    mul_le_mul_of_nonneg_right (by omega) hW
  have hcheck : 0 ≤ rect.size.width
      ∧ 0 ≤ k * rect.size.width
      ∧ k * rect.size.width + rect.size.width ≤ b.mLinearSize
      ∧ 0 ≤ (k + rect.origin.y) * b.Size.width + rect.origin.x
      ∧ (k + rect.origin.y) * b.Size.width + rect.origin.x + rect.size.width
          ≤ b.mLinearSize := by
    rw [hwf.2.2]
    refine ⟨hw, ht0, ?_, by omega, ?_⟩
    · nlinarith
    · nlinarith
  simp only [trimRow, memmove, if_pos hcheck]

/-- The rows of `Trim`: after the loop every cell (x, y) of the trimmed layout holds
what the cell (origin.x + x, origin.y + y) of the buffer held before the call. Each
move reads cells at or beyond the start of the row it writes, which no earlier move
has written. -/
theorem trimRows_spec (b : Buffer2D α) (hwf : b.WellFormed) (rect : IntegralRect)
    (hw : 0 ≤ rect.size.width) (hh : 0 ≤ rect.size.height) (hox : 0 ≤ rect.origin.x)
    (hoy : 0 ≤ rect.origin.y) (hx : rect.origin.x + rect.size.width ≤ b.Size.width)
    (hy : rect.origin.y + rect.size.height ≤ b.Size.height) :
    ∃ d : Int → α,
      forLoop rect.size.height (trimRow b rect) b.Data = some d
      ∧ ∀ x y : Int, 0 ≤ x → x < rect.size.width → 0 ≤ y → y < rect.size.height →
          d (y * rect.size.width + x)
            = b.Data ((y + rect.origin.y) * b.Size.width + rect.origin.x + x) := by
  obtain ⟨d, hd, hQ⟩ := forLoop_invariant
    (fun k (d : Int → α) =>
      (∀ x y : Int, 0 ≤ x → x < rect.size.width → 0 ≤ y → y < k →
        d (y * rect.size.width + x)
          = b.Data ((y + rect.origin.y) * b.Size.width + rect.origin.x + x))
      ∧ ∀ j : Int, k * rect.size.width ≤ j → d j = b.Data j)
    rect.size.height hh (trimRow b rect) b.Data
    ⟨by
      intro x y _ _ hy0 hy
      omega, fun _ _ => rfl⟩
    (by
      intro k hk0 hk d hd
      obtain ⟨hA, hB⟩ := hd
      refine ⟨_, trimRow_spec b hwf rect hw hox hoy hx hy k hk0 hk d, ?_, ?_⟩
      · intro x y hx0 hxw hy0 hyk
        have hrow := linear_index_in_row x y k 0 rect.size.width rect.size.width
          hx0 hxw (le_refl 0) (by omega)
        simp only [add_zero, zero_add] at hrow
        beta_reduce
        by_cases hyk1 : y = k
        · have hin := hrow.mpr ⟨hyk1, hx0, hxw⟩
          rw [if_pos hin]
          subst hyk1
          have hsrc : y * rect.size.width
              ≤ (y + rect.origin.y) * b.Size.width + rect.origin.x
                + (y * rect.size.width + x - y * rect.size.width) := by
            have h1 : y * rect.size.width ≤ y * b.Size.width :=
              mul_le_mul_of_nonneg_left (by omega) hy0
            have h2 : 0 ≤ rect.origin.y * b.Size.width := mul_nonneg hoy hwf.1
            nlinarith
          rw [hB _ hsrc]
          congr 1
          ring
        · have hnin : ¬ (k * rect.size.width ≤ y * rect.size.width + x
              ∧ y * rect.size.width + x < k * rect.size.width + rect.size.width) :=
            fun h => hyk1 (hrow.mp h).1
          rw [if_neg hnin]
          exact hA x y hx0 hxw hy0 (by omega)
      · intro j hj
        beta_reduce
        have hnin : ¬ (k * rect.size.width ≤ j
            ∧ j < k * rect.size.width + rect.size.width) := by
          intro h
          have : (k + 1) * rect.size.width = k * rect.size.width + rect.size.width := by
            ring
          omega
        rw [if_neg hnin]
        apply hB
        have : (k + 1) * rect.size.width = k * rect.size.width + rect.size.width := by ring
        omega)
  exact ⟨d, hd, fun x y hx0 hxw hy0 hyh => hQ.1 x y hx0 hxw hy0 hyh⟩

/-- C27. In-place `Trim` agrees with copying. For every well-formed buffer and every
rect of non-negative dimensions with non-negative origin and origin + size <= Size,
`Trim(rect)` succeeds, the buffer then has `Size` `rect.size`, and its element at
every (x, y) within `rect.size` is the element that was at
(rect.origin.x + x, rect.origin.y + y) before the call; whenever `CloneRegion(rect)`
returns a buffer, that buffer has the same `Size` and the same elements. -/
theorem Trim_spec [Inhabited α] (b : Buffer2D α) (hwf : b.WellFormed) (rect : IntegralRect)
    (hw : 0 ≤ rect.size.width) (hh : 0 ≤ rect.size.height) (hox : 0 ≤ rect.origin.x)
    (hoy : 0 ≤ rect.origin.y) (hx : rect.origin.x + rect.size.width ≤ b.Size.width)
    (hy : rect.origin.y + rect.size.height ≤ b.Size.height) :
    ∃ r : Buffer2D α,
      b.Trim rect = some r
      ∧ r.Size = rect.size
      ∧ (∀ c : IntegralCoordinates, c.IsInSize rect.size →
          r.get c = b.get ⟨rect.origin.x + c.x, rect.origin.y + c.y⟩)
      ∧ ∀ clone : Buffer2D α, b.CloneRegion rect = some clone →
          clone.Size = r.Size
          ∧ ∀ c : IntegralCoordinates, c.IsInSize rect.size → r.get c = clone.get c := by
  have hmain : ∃ r : Buffer2D α,
      b.Trim rect = some r
      ∧ r.Size = rect.size
      ∧ (∀ c : IntegralCoordinates, c.IsInSize rect.size →
          r.get c = b.get ⟨rect.origin.x + c.x, rect.origin.y + c.y⟩) := by
    by_cases hsize : rect.size = b.Size
    · refine ⟨b, ?_, hsize.symm, ?_⟩
      · simp only [Trim]
        rw [if_neg (not_not.mpr hx), if_neg (not_not.mpr hy), if_neg (not_not.mpr hsize)]
      · intro c _
        have h0x : rect.origin.x = 0 := by rw [hsize] at hx; omega
        have h0y : rect.origin.y = 0 := by rw [hsize] at hy; omega
        rw [h0x, h0y, zero_add, zero_add]
    · obtain ⟨d, hd, hQ⟩ := trimRows_spec b hwf rect hw hh hox hoy hx hy
      have hrwf : ({ Size := rect.size, Data := d
                     mLinearSize := rect.size.width * rect.size.height }
                      : Buffer2D α).WellFormed := ⟨hw, hh, rfl⟩
      refine ⟨{ Size := rect.size, Data := d
                mLinearSize := rect.size.width * rect.size.height }, ?_, rfl, ?_⟩
      · simp only [Trim, hd, Option.map_some']
        rw [if_neg (not_not.mpr hx), if_neg (not_not.mpr hy), if_pos hsize]
      · intro c hc
        rw [get_of_IsInSize _ hrwf c hc]
        show some (d (c.y * rect.size.width + c.x)) = _
        rw [hQ c.x c.y hc.1 hc.2.1 hc.2.2.1 hc.2.2.2]
        have hsin : (IntegralCoordinates.mk (rect.origin.x + c.x)
            (rect.origin.y + c.y)).IsInSize b.Size := by
          have hcc := hc
          simp only [IntegralCoordinates.IsInSize] at hcc ⊢
          omega
        rw [get_of_IsInSize b hwf _ hsin]
        congr 2
        ring
  obtain ⟨r, hr, hrsize, hrget⟩ := hmain
  refine ⟨r, hr, hrsize, hrget, ?_⟩
  intro clone hclone
  have h1 : rect.origin.IsInSize b.Size := by
    by_contra hc
    simp [CloneRegion, hc] at hclone
  have h2 : (rect.origin.addSize rect.size).IsInSize b.Size := by
    by_contra hc
    simp [CloneRegion, hc] at hclone
  obtain ⟨r0, hr0, hr0size, _, hr0get⟩ := CloneRegion_get b hwf rect hw hh h1 h2
  have heq : clone = r0 := by
    rw [hclone] at hr0
    exact Option.some.inj hr0
  subst heq
  refine ⟨by rw [hr0size, hrsize], fun c hc => ?_⟩
  rw [hrget c hc, hr0get c hc]

/-- Witness of C27: the 4 x 4 buffer holding 100 .. 115 trimmed to (1,1)-(2 x 2); its
(1, 0) then holds 106, which was at (2, 1). -/
theorem Trim_spec_witness :
    ∃ r : Buffer2D Int,
      (ofRows 4 4 [100, 101, 102, 103, 104, 105, 106, 107, 108, 109, 110, 111, 112, 113,
          114, 115] 0).Trim ⟨⟨1, 1⟩, ⟨2, 2⟩⟩ = some r
      ∧ r.Size = ⟨2, 2⟩
      ∧ r.get ⟨1, 0⟩ = some 106 := by
  obtain ⟨r, h1, h2, h3, _⟩ :=
    Trim_spec (ofRows 4 4 [100, 101, 102, 103, 104, 105, 106, 107, 108, 109, 110,
        111, 112, 113, 114, (115 : Int)] 0)
      ⟨by decide, by decide, rfl⟩ ⟨⟨1, 1⟩, ⟨2, 2⟩⟩ (by decide) (by decide) (by decide)
      (by decide) (by decide) (by decide)
  refine ⟨r, h1, h2, ?_⟩
  rw [h3 ⟨1, 0⟩ (by decide)]
  decide

end Buffer2D

/-! ### Flip along one axis, and twice -/

namespace Buffer2D

variable {α : Type}

/-- Two buffers with the same fields are equal. -/
theorem eq_of_fields (a b : Buffer2D α) (h1 : a.Size = b.Size) (h2 : a.Data = b.Data)
    (h3 : a.mLinearSize = b.mLinearSize) : a = b := by
  cases a
  cases b
  simp only at h1 h2 h3
  subst h1
  subst h2
  subst h3
  rfl

/-- The swap of two in-size cells of a well-formed buffer succeeds and exchanges the
two cells. -/
theorem swap_of_IsInSize (b : Buffer2D α) (hwf : b.WellFormed) (c d : IntegralCoordinates)
    (hc : c.IsInSize b.Size) (hd : d.IsInSize b.Size) :
    b.swap c d
      = some { b with
          Data := fun j =>
            if j = d.y * b.Size.width + d.x then b.Data (c.y * b.Size.width + c.x)
            else if j = c.y * b.Size.width + c.x then b.Data (d.y * b.Size.width + d.x)
            else b.Data j } := by
  have hb1wf : ({ b with
      Data := fun j => if j = c.y * b.Size.width + c.x
        then b.Data (d.y * b.Size.width + d.x) else b.Data j } : Buffer2D α).WellFormed := hwf
  simp only [swap, get_of_IsInSize b hwf c hc, get_of_IsInSize b hwf d hd,
    set_of_IsInSize b hwf c hc, Option.some_bind]
  rw [set_of_IsInSize _ hb1wf d hd]

/-- No cell is exchanged yet. -/
theorem SwappedOn.init (mirror : IntegralCoordinates → IntegralCoordinates)
    (b : Buffer2D α) : SwappedOn mirror (fun _ => False) b b := by
  refine ⟨rfl, rfl, fun c _ => ⟨fun h => ?_, fun _ => rfl⟩, fun _ _ => rfl⟩
  rcases h with h | h <;> exact h.elim

/-- The exchanged set may be described by any predicate that agrees on the in-size
coordinates. -/
theorem SwappedOn.congr (mirror : IntegralCoordinates → IntegralCoordinates)
    (P Q : IntegralCoordinates → Prop) (b r : Buffer2D α)
    (hin : ∀ c : IntegralCoordinates, c.IsInSize b.Size → (mirror c).IsInSize b.Size)
    (hPQ : ∀ c : IntegralCoordinates, c.IsInSize b.Size → (P c ↔ Q c))
    (h : SwappedOn mirror P b r) : SwappedOn mirror Q b r := by
  obtain ⟨hs, hl, hdata, hout⟩ := h
  refine ⟨hs, hl, fun c hc => ?_, hout⟩
  have hiff : (P c ∨ P (mirror c)) ↔ (Q c ∨ Q (mirror c)) := by
    rw [hPQ c hc, hPQ (mirror c) (hin c hc)]
  rw [← hiff]
  exact hdata c hc

/-- One more swap: when neither `c0` nor its image is exchanged yet and the two
differ, the swap of the two cells succeeds and adds `c0` to the exchanged set. -/
theorem SwappedOn.step (mirror : IntegralCoordinates → IntegralCoordinates)
    (P : IntegralCoordinates → Prop) (b r : Buffer2D α) (hwf : b.WellFormed)
    (hin : ∀ c : IntegralCoordinates, c.IsInSize b.Size → (mirror c).IsInSize b.Size)
    (hinv : ∀ c : IntegralCoordinates, mirror (mirror c) = c)
    (h : SwappedOn mirror P b r) (c0 : IntegralCoordinates) (hc0 : c0.IsInSize b.Size)
    (hP0 : ¬ P c0) (hP1 : ¬ P (mirror c0)) (hne : mirror c0 ≠ c0) :
    ∃ r1 : Buffer2D α, r.swap c0 (mirror c0) = some r1
      ∧ SwappedOn mirror (fun c => P c ∨ c = c0) b r1 := by
  obtain ⟨hs, hl, hdata, hout⟩ := h
  have hrwf : r.WellFormed := by
    unfold WellFormed
    rw [hs, hl]
    exact hwf
  have hd0 := hin c0 hc0
  have hswap := swap_of_IsInSize r hrwf c0 (mirror c0) (by rw [hs]; exact hc0)
    (by rw [hs]; exact hd0)
  rw [hs] at hswap
  refine ⟨_, hswap, rfl, hl, ?_, ?_⟩
  · intro c hc
    have hunC : r.Data (c0.y * b.Size.width + c0.x) = b.Data (c0.y * b.Size.width + c0.x) :=
      (hdata c0 hc0).2 (by rintro (h | h); exact hP0 h; exact hP1 h)
    have hunD : r.Data ((mirror c0).y * b.Size.width + (mirror c0).x)
        = b.Data ((mirror c0).y * b.Size.width + (mirror c0).x) :=
      (hdata (mirror c0) hd0).2 (by
        rw [hinv c0]
        rintro (h | h)
        · exact hP1 h
        · exact hP0 h)
    show ((P c ∨ c = c0) ∨ (P (mirror c) ∨ mirror c = c0) →
        (if c.y * b.Size.width + c.x = (mirror c0).y * b.Size.width + (mirror c0).x then
            r.Data (c0.y * b.Size.width + c0.x)
          else if c.y * b.Size.width + c.x = c0.y * b.Size.width + c0.x then
            r.Data ((mirror c0).y * b.Size.width + (mirror c0).x)
          else r.Data (c.y * b.Size.width + c.x))
          = b.Data ((mirror c).y * b.Size.width + (mirror c).x))
      ∧ (¬ ((P c ∨ c = c0) ∨ (P (mirror c) ∨ mirror c = c0)) →
        (if c.y * b.Size.width + c.x = (mirror c0).y * b.Size.width + (mirror c0).x then
            r.Data (c0.y * b.Size.width + c0.x)
          else if c.y * b.Size.width + c.x = c0.y * b.Size.width + c0.x then
            r.Data ((mirror c0).y * b.Size.width + (mirror c0).x)
          else r.Data (c.y * b.Size.width + c.x))
          = b.Data (c.y * b.Size.width + c.x))
    by_cases hcd : c = mirror c0
    · -- the image of c0 receives the cell of c0
      subst hcd
      rw [if_pos rfl, hinv c0]
      exact ⟨fun _ => hunC, fun hn => (hn (Or.inr (Or.inr rfl))).elim⟩
    · have hi1 : ¬ (c.y * b.Size.width + c.x
          = (mirror c0).y * b.Size.width + (mirror c0).x) :=
        fun h => hcd (linear_index_injective b.Size c (mirror c0) hc hd0 h)
      rw [if_neg hi1]
      by_cases hcc : c = c0
      · -- c0 receives the cell of its image
        subst hcc
        rw [if_pos rfl]
        exact ⟨fun _ => hunD, fun hn => (hn (Or.inl (Or.inr rfl))).elim⟩
      · have hi2 : ¬ (c.y * b.Size.width + c.x = c0.y * b.Size.width + c0.x) :=
          fun h => hcc (linear_index_injective b.Size c c0 hc hc0 h)
        rw [if_neg hi2]
        have hmc : mirror c ≠ c0 := by
          intro h
          apply hcd
          rw [← h, hinv c]
        have hiff : ((P c ∨ c = c0) ∨ (P (mirror c) ∨ mirror c = c0))
            ↔ (P c ∨ P (mirror c)) := by
          constructor
          · rintro ((h | h) | (h | h))
            · exact Or.inl h
            · exact (hcc h).elim
            · exact Or.inr h
            · exact (hmc h).elim
          · rintro (h | h)
            · exact Or.inl (Or.inl h)
            · exact Or.inr (Or.inl h)
        rw [hiff]
        exact hdata c hc
  · intro j hj
    have hbc := linear_index_bounds c0.x c0.y b.Size.width b.Size.height hc0.1 hc0.2.1
      hc0.2.2.1 hc0.2.2.2
    have hbd := linear_index_bounds (mirror c0).x (mirror c0).y b.Size.width b.Size.height
      hd0.1 hd0.2.1 hd0.2.2.1 hd0.2.2.2
    show (if j = (mirror c0).y * b.Size.width + (mirror c0).x then _
      else if j = c0.y * b.Size.width + c0.x then _ else r.Data j) = b.Data j
    rw [if_neg (by omega), if_neg (by omega)]
    exact hout j hj

/-- The two nested loops of swaps: when `mirror` maps the coordinates the loops reach
to in-size coordinates they do not reach, every swap succeeds and the loops exchange
exactly the cells they reach with their images. -/
theorem swapLoops_spec (b : Buffer2D α) (hwf : b.WellFormed)
    (mirror : IntegralCoordinates → IntegralCoordinates) (xMax yMax : Int)
    (body : Int → Int → Buffer2D α → Option (Buffer2D α))
    (hbody : ∀ (y x : Int) (r : Buffer2D α), r.Size = b.Size →
      body y x r = r.swap ⟨x, y⟩ (mirror ⟨x, y⟩))
    (hx0 : 0 ≤ xMax) (hxW : xMax ≤ b.Size.width) (hy0 : 0 ≤ yMax)
    (hyH : yMax ≤ b.Size.height)
    (hin : ∀ c : IntegralCoordinates, c.IsInSize b.Size → (mirror c).IsInSize b.Size)
    (hinv : ∀ c : IntegralCoordinates, mirror (mirror c) = c)
    (hdisj : ∀ c : IntegralCoordinates, c.IsInSize b.Size → c.x < xMax → c.y < yMax →
      ¬ ((mirror c).x < xMax ∧ (mirror c).y < yMax)) :
    ∃ r : Buffer2D α,
      forLoop yMax (fun y b1 => forLoop xMax (body y) b1) b = some r
      ∧ SwappedOn mirror (fun c => c.x < xMax ∧ c.y < yMax) b r := by
  obtain ⟨r, hr, hQ⟩ := forLoop_invariant
    (fun y (r : Buffer2D α) => SwappedOn mirror (fun c => c.y < y ∧ c.x < xMax) b r)
    yMax hy0 (fun y b1 => forLoop xMax (body y) b1) b
    (SwappedOn.congr mirror _ _ b b hin
      (fun c hc => ⟨fun h => h.elim, fun h => by
        have := hc.2.2.1
        omega⟩)
      (SwappedOn.init mirror b))
    (by
      intro y hy0' hy r1 hr1
      obtain ⟨r2, hr2, hQ2⟩ := forLoop_invariant
        (fun x (r : Buffer2D α) =>
          SwappedOn mirror (fun c => (c.y < y ∧ c.x < xMax) ∨ (c.y = y ∧ c.x < x)) b r)
        xMax hx0 (body y) r1
        (SwappedOn.congr mirror _ _ b r1 hin
          (fun c hc => ⟨fun h => Or.inl h, fun h => by
            rcases h with h | h
            · exact h
            · have := hc.1
              omega⟩)
          hr1)
        (by
          intro x hx0' hx r3 hr3
          have hc0 : (IntegralCoordinates.mk x y).IsInSize b.Size :=
            ⟨hx0', by show x < b.Size.width; omega, hy0', by show y < b.Size.height; omega⟩
          have hnot := hdisj ⟨x, y⟩ hc0 hx hy
          have hP0 : ¬ (((IntegralCoordinates.mk x y).y < y
                ∧ (IntegralCoordinates.mk x y).x < xMax)
              ∨ ((IntegralCoordinates.mk x y).y = y ∧ (IntegralCoordinates.mk x y).x < x)) := by
            simp only
            omega
          have hP1 : ¬ (((mirror ⟨x, y⟩).y < y ∧ (mirror ⟨x, y⟩).x < xMax)
              ∨ ((mirror ⟨x, y⟩).y = y ∧ (mirror ⟨x, y⟩).x < x)) := by
            intro h
            apply hnot
            rcases h with h | h
            · exact ⟨h.2, by omega⟩
            · exact ⟨by omega, by omega⟩
          have hne : mirror ⟨x, y⟩ ≠ ⟨x, y⟩ := by
            intro h
            apply hnot
            rw [h]
            exact ⟨hx, hy⟩
          obtain ⟨r4, hr4, hQ4⟩ := SwappedOn.step mirror _ b r3 hwf hin hinv hr3 ⟨x, y⟩ hc0
            hP0 hP1 hne
          refine ⟨r4, by rw [hbody y x r3 hr3.1]; exact hr4, ?_⟩
          refine SwappedOn.congr mirror _ _ b r4 hin (fun c _ => ?_) hQ4
          constructor
          · rintro ((h | h) | h)
            · exact Or.inl h
            · exact Or.inr ⟨h.1, by omega⟩
            · subst h
              exact Or.inr ⟨rfl, by show x < x + 1; omega⟩
          · rintro (h | h)
            · exact Or.inl (Or.inl h)
            · by_cases hxe : c.x = x
              · right
                cases c
                simp only at hxe h
                rw [hxe, h.1]
              · exact Or.inl (Or.inr ⟨h.1, by omega⟩))
      refine ⟨r2, hr2, ?_⟩
      refine SwappedOn.congr mirror _ _ b r2 hin (fun c _ => ?_) hQ2
      constructor
      · rintro (h | h)
        · exact ⟨by omega, h.2⟩
        · exact ⟨by omega, h.2⟩
      · rintro ⟨h1, h2⟩
        by_cases hye : c.y = y
        · exact Or.inr ⟨hye, h2⟩
        · exact Or.inl ⟨by omega, h2⟩)
  exact ⟨r, hr, SwappedOn.congr mirror _ _ b r hin
    (fun c _ => ⟨fun h => ⟨h.2, h.1⟩, fun h => ⟨h.2, h.1⟩⟩) hQ⟩

/-- The private `Flip<H, V>` with at least one of the two flags set, on a well-formed
buffer: every swap succeeds, and the cells the loops reach are exchanged with their
mirror images. -/
theorem FlipHV_spec (H V : Bool) (hHV : H = true ∨ V = true) (b : Buffer2D α)
    (hwf : b.WellFormed) :
    ∃ r : Buffer2D α,
      FlipHV H V b = some r
      ∧ SwappedOn (flipDst H V b.Size) (flipVisits H V b.Size) b r := by
  have hW := hwf.1
  have hH := hwf.2.1
  have h := swapLoops_spec b hwf (flipDst H V b.Size) (flipXMax H V b.Size)
    (flipYMax V b.Size) (fun y x r => flipCell H V y x r)
    (by
      intro y x r hr
      show r.swap ⟨x, y⟩ (flipDst H V r.Size ⟨x, y⟩) = _
      rw [hr])
    (by
      unfold flipXMax
      split_ifs <;> omega)
    (by
      unfold flipXMax
      split_ifs <;> omega)
    (by
      unfold flipYMax
      split_ifs <;> omega)
    (by
      unfold flipYMax
      split_ifs <;> omega)
    (by
      intro c hc
      obtain ⟨h1, h2, h3, h4⟩ := hc
      cases H <;> cases V <;>
        simp only [flipDst, IntegralCoordinates.FlipX, IntegralCoordinates.FlipY,
          IntegralCoordinates.IsInSize, if_true, if_false, Bool.false_eq_true] <;>
        omega)
    (by
      intro c
      cases c
      cases H <;> cases V <;>
        simp [flipDst, IntegralCoordinates.FlipX, IntegralCoordinates.FlipY])
    (by
      intro c hc hx hy
      obtain ⟨h1, h2, h3, h4⟩ := hc
      rcases hHV with hh | hv
      · subst hh
        cases V <;>
          simp only [flipDst, flipXMax, flipYMax, IntegralCoordinates.FlipX,
            IntegralCoordinates.FlipY, if_true, if_false, Bool.false_eq_true, Bool.not_true,
            Bool.not_false, Bool.and_true, Bool.and_false] at hx hy ⊢ <;>
          omega
      · subst hv
        cases H <;>
          simp only [flipDst, flipXMax, flipYMax, IntegralCoordinates.FlipX,
            IntegralCoordinates.FlipY, if_true, if_false, Bool.false_eq_true, Bool.not_true,
            Bool.not_false, Bool.and_true, Bool.and_false] at hx hy ⊢ <;>
          omega)
  obtain ⟨r, hr, hQ⟩ := h
  exact ⟨r, hr, hQ⟩

/-- The cells exchanged twice are back where they were. -/
theorem SwappedOn.twice (mirror : IntegralCoordinates → IntegralCoordinates)
    (P : IntegralCoordinates → Prop) (b r r2 : Buffer2D α) (hwf : b.WellFormed)
    (hin : ∀ c : IntegralCoordinates, c.IsInSize b.Size → (mirror c).IsInSize b.Size)
    (hinv : ∀ c : IntegralCoordinates, mirror (mirror c) = c)
    (h1 : SwappedOn mirror P b r) (h2 : SwappedOn mirror P r r2) : r2 = b := by
  obtain ⟨hs1, hl1, hdata1, hout1⟩ := h1
  obtain ⟨hs2, hl2, hdata2, hout2⟩ := h2
  rw [hs1] at hdata2 hout2
  refine eq_of_fields r2 b (hs2.trans hs1) ?_ (hl2.trans hl1)
  funext j
  by_cases hj : j < 0 ∨ b.Size.width * b.Size.height ≤ j
  · rw [hout2 j hj, hout1 j hj]
  · have hj0 : 0 ≤ j := by omega
    have hjlt : j < b.Size.width * b.Size.height := by omega
    have hWpos : 0 < b.Size.width := by
      rcases lt_or_eq_of_le hwf.1 with h | h
      · exact h
      · rw [← h, zero_mul] at hjlt
        omega
    have hc : (IntegralCoordinates.mk (j % b.Size.width) (j / b.Size.width)).IsInSize
        b.Size :=
      ⟨Int.emod_nonneg j (by omega), Int.emod_lt_of_pos j hWpos,
        Int.ediv_nonneg hj0 hwf.1,
        Int.ediv_lt_of_lt_mul hWpos (by rw [mul_comm] at hjlt; exact hjlt)⟩
    have hidx : (IntegralCoordinates.mk (j % b.Size.width) (j / b.Size.width)).y
        * b.Size.width + (IntegralCoordinates.mk (j % b.Size.width) (j / b.Size.width)).x
        = j := by
      show j / b.Size.width * b.Size.width + j % b.Size.width = j
      rw [mul_comm]
      exact Int.ediv_add_emod j b.Size.width
    have hA := hdata2 _ hc
    have hB := hdata1 _ hc
    have hC := hdata1 _ (hin _ hc)
    rw [hinv] at hC
    rw [hidx] at hA hB hC
    by_cases hP : P ⟨j % b.Size.width, j / b.Size.width⟩
        ∨ P (mirror ⟨j % b.Size.width, j / b.Size.width⟩)
    · rw [hA.1 hP, hC.1 (Or.symm hP)]
    · rw [hA.2 hP, hB.2 hP]

/-- The private `Flip<H, V>` with at least one of the two flags set, applied twice to
a well-formed buffer, gives the buffer back. -/
theorem FlipHV_twice (H V : Bool) (hHV : H = true ∨ V = true) (b : Buffer2D α)
    (hwf : b.WellFormed) : (FlipHV H V b).bind (FlipHV H V) = some b := by
  obtain ⟨r, hr, hQ⟩ := FlipHV_spec H V hHV b hwf
  have hrwf : r.WellFormed := by
    unfold WellFormed
    rw [hQ.1, hQ.2.1]
    exact hwf
  obtain ⟨r2, hr2, hQ2⟩ := FlipHV_spec H V hHV r hrwf
  rw [hQ.1] at hQ2
  have hin : ∀ c : IntegralCoordinates, c.IsInSize b.Size →
      (flipDst H V b.Size c).IsInSize b.Size := by
    intro c hc
    obtain ⟨h1, h2, h3, h4⟩ := hc
    cases H <;> cases V <;>
      simp only [flipDst, IntegralCoordinates.FlipX, IntegralCoordinates.FlipY,
        IntegralCoordinates.IsInSize, if_true, if_false, Bool.false_eq_true] <;>
      omega
  have hinv : ∀ c : IntegralCoordinates, flipDst H V b.Size (flipDst H V b.Size c) = c := by
    intro c
    cases c
    cases H <;> cases V <;>
      simp [flipDst, IntegralCoordinates.FlipX, IntegralCoordinates.FlipY]
  rw [hr, Option.some_bind, hr2]
  exact congrArg some (SwappedOn.twice _ _ b r r2 hwf hin hinv hQ hQ2)

/-- C21. `Flip` along one axis, for every well-formed buffer (any width and height):
`Flip(Horizontal)` succeeds, keeps `Size`, and afterwards the element at every
in-size (x, y) is the one previously at (width-1-x, y); `Flip(Vertical)` succeeds,
keeps `Size`, and afterwards the element at every in-size (x, y) is the one
previously at (x, height-1-y). -/
theorem Flip_one_axis (b : Buffer2D α) (hwf : b.WellFormed) :
    (∃ r : Buffer2D α, b.Flip DirectionType.Horizontal = some r
      ∧ r.Size = b.Size
      ∧ ∀ c : IntegralCoordinates, c.IsInSize b.Size →
          r.get c = b.get (c.FlipX b.Size.width))
    ∧ (∃ r : Buffer2D α, b.Flip DirectionType.Vertical = some r
      ∧ r.Size = b.Size
      ∧ ∀ c : IntegralCoordinates, c.IsInSize b.Size →
          r.get c = b.get (c.FlipY b.Size.height)) := by
  constructor
  · obtain ⟨r, hr, hs, hl, hdata, _⟩ := FlipHV_spec true false (Or.inl rfl) b hwf
    have hrwf : r.WellFormed := by
      unfold WellFormed
      rw [hs, hl]
      exact hwf
    refine ⟨r, hr, hs, fun c hc => ?_⟩
    have hmc : (c.FlipX b.Size.width).IsInSize b.Size := by
      obtain ⟨h1, h2, h3, h4⟩ := hc
      simp only [IntegralCoordinates.FlipX, IntegralCoordinates.IsInSize]
      omega
    rw [get_of_IsInSize r hrwf c (by rw [hs]; exact hc), get_of_IsInSize b hwf _ hmc, hs]
    congr 1
    have hd := hdata c hc
    by_cases hP : flipVisits true false b.Size c
        ∨ flipVisits true false b.Size (flipDst true false b.Size c)
    · exact hd.1 hP
    · rw [hd.2 hP]
      have hfix : c.FlipX b.Size.width = c := by
        obtain ⟨h1, h2, h3, h4⟩ := hc
        cases c
        simp only [flipVisits, flipXMax, flipYMax, flipDst, IntegralCoordinates.FlipX,
          if_true, if_false, Bool.false_eq_true, Bool.not_false, Bool.and_true,
          IntegralCoordinates.mk.injEq, and_true] at hP h1 h2 h3 h4 ⊢
        omega
      rw [hfix]
  · obtain ⟨r, hr, hs, hl, hdata, _⟩ := FlipHV_spec false true (Or.inr rfl) b hwf
    have hrwf : r.WellFormed := by
      unfold WellFormed
      rw [hs, hl]
      exact hwf
    refine ⟨r, hr, hs, fun c hc => ?_⟩
    have hmc : (c.FlipY b.Size.height).IsInSize b.Size := by
      obtain ⟨h1, h2, h3, h4⟩ := hc
      simp only [IntegralCoordinates.FlipY, IntegralCoordinates.IsInSize]
      omega
    rw [get_of_IsInSize r hrwf c (by rw [hs]; exact hc), get_of_IsInSize b hwf _ hmc, hs]
    congr 1
    have hd := hdata c hc
    by_cases hP : flipVisits false true b.Size c
        ∨ flipVisits false true b.Size (flipDst false true b.Size c)
    · exact hd.1 hP
    · rw [hd.2 hP]
      have hfix : c.FlipY b.Size.height = c := by
        obtain ⟨h1, h2, h3, h4⟩ := hc
        cases c
        simp only [flipVisits, flipXMax, flipYMax, flipDst, IntegralCoordinates.FlipY,
          if_true, if_false, Bool.false_eq_true, Bool.not_true, Bool.and_false,
          IntegralCoordinates.mk.injEq, true_and] at hP h1 h2 h3 h4 ⊢
        omega
      rw [hfix]

/-- Witness of C21: the 3 x 2 buffer holding 1 .. 6; after `Flip(Horizontal)` the
cell (0, 1) holds 6, which was at (2, 1), and after `Flip(Vertical)` the cell (0, 0)
holds 4, which was at (0, 1). -/
theorem Flip_one_axis_witness :
    (∃ r : Buffer2D Int,
      (ofRows 3 2 [1, 2, 3, 4, 5, 6] (0 : Int)).Flip DirectionType.Horizontal = some r
      ∧ r.Size = ⟨3, 2⟩ ∧ r.get ⟨0, 1⟩ = some 6)
    ∧ (∃ r : Buffer2D Int,
      (ofRows 3 2 [1, 2, 3, 4, 5, 6] (0 : Int)).Flip DirectionType.Vertical = some r
      ∧ r.Size = ⟨3, 2⟩ ∧ r.get ⟨0, 0⟩ = some 4) := by
  obtain ⟨⟨r, h1, h2, h3⟩, ⟨s, k1, k2, k3⟩⟩ :=
    Flip_one_axis (ofRows 3 2 [1, 2, 3, 4, 5, (6 : Int)] 0) ⟨by decide, by decide, rfl⟩
  refine ⟨⟨r, h1, h2, ?_⟩, ⟨s, k1, k2, ?_⟩⟩
  · rw [h3 ⟨0, 1⟩ (by decide)]
    decide
  · rw [k3 ⟨0, 0⟩ (by decide)]
    decide

/-- C28. `Flip` is an involution: for every well-formed buffer (any width and
height) and every direction, so for Horizontal, Vertical and
Horizontal | Vertical, `Flip(d)` succeeds, and `Flip(d)` applied to its result
succeeds and gives back the original buffer: its `Size` and every element. -/
theorem Flip_involution (b : Buffer2D α) (hwf : b.WellFormed) (direction : DirectionType) :
    (b.Flip direction).bind (fun r => r.Flip direction) = some b := by
  obtain ⟨h, v⟩ := direction
  cases h <;> cases v
  · rfl
  · exact FlipHV_twice false true (Or.inr rfl) b hwf
  · exact FlipHV_twice true false (Or.inl rfl) b hwf
  · exact FlipHV_twice true true (Or.inl rfl) b hwf

/-- Witness of C28: the 3 x 3 buffer holding 1 .. 9 flipped twice in both directions
is the buffer again. -/
theorem Flip_involution_witness :
    ((ofRows 3 3 [1, 2, 3, 4, 5, 6, 7, 8, 9] (0 : Int)).Flip
        (DirectionType.or DirectionType.Horizontal DirectionType.Vertical)).bind
      (fun r => r.Flip (DirectionType.or DirectionType.Horizontal DirectionType.Vertical))
      = some (ofRows 3 3 [1, 2, 3, 4, 5, 6, 7, 8, 9] (0 : Int)) :=
  Flip_involution (ofRows 3 3 [1, 2, 3, 4, 5, 6, 7, 8, 9] (0 : Int))
    ⟨by decide, by decide, rfl⟩
    (DirectionType.or DirectionType.Horizontal DirectionType.Vertical)

end Buffer2D

/-! ## Theorems: mechanical sub-steps -/

namespace GameParameters

/-- C25. For every `NumMechanicalDynamicsIterationsAdjustment` within
[`MinNumMechanicalDynamicsIterationsAdjustment`,
`MaxNumMechanicalDynamicsIterationsAdjustment`] = [0.5, 20], in exact arithmetic
`NumMechanicalDynamicsIterations` is 24 times the adjustment and lies in [12, 480],
so it is not zero, and `MechanicalSimulationStepTimeDuration` times the number of
iterations is `SimulationStepTimeDuration` = 0.02. -/
theorem MechanicalSimulationStepTimeDuration_spec (gameParameters : GameParameters)
    (hmin : MinNumMechanicalDynamicsIterationsAdjustment
      ≤ gameParameters.NumMechanicalDynamicsIterationsAdjustment)
    (hmax : gameParameters.NumMechanicalDynamicsIterationsAdjustment
      ≤ MaxNumMechanicalDynamicsIterationsAdjustment) :
    MinNumMechanicalDynamicsIterationsAdjustment = 5 / 10
    ∧ MaxNumMechanicalDynamicsIterationsAdjustment = 20
    ∧ NumMechanicalDynamicsIterations gameParameters
        = 24 * gameParameters.NumMechanicalDynamicsIterationsAdjustment
    ∧ 12 ≤ NumMechanicalDynamicsIterations gameParameters
    ∧ NumMechanicalDynamicsIterations gameParameters ≤ 480
    ∧ NumMechanicalDynamicsIterations gameParameters ≠ 0
    ∧ MechanicalSimulationStepTimeDuration gameParameters
          * NumMechanicalDynamicsIterations gameParameters
        = SimulationStepTimeDuration
    ∧ SimulationStepTimeDuration = 2 / 100 := by
  have hn : NumMechanicalDynamicsIterations gameParameters
      = 24 * gameParameters.NumMechanicalDynamicsIterationsAdjustment := by
    simp [NumMechanicalDynamicsIterations, BasisNumMechanicalDynamicsIterations]
  have hlo : (12 : ℚ) ≤ NumMechanicalDynamicsIterations gameParameters := by
    rw [hn]
    unfold MinNumMechanicalDynamicsIterationsAdjustment at hmin
    linarith
  have hhi : NumMechanicalDynamicsIterations gameParameters ≤ 480 := by
    rw [hn]
    unfold MaxNumMechanicalDynamicsIterationsAdjustment at hmax
    linarith
  have hne : NumMechanicalDynamicsIterations gameParameters ≠ 0 := by
    intro h0
    rw [h0] at hlo
    norm_num at hlo
  refine ⟨rfl, rfl, hn, hlo, hhi, hne, ?_, rfl⟩
  unfold MechanicalSimulationStepTimeDuration MechanicalSimulationStepTimeDurationFor
  exact div_mul_cancel₀ _ hne

/-- Witness of C25: the adjustment 1 gives 24 iterations of 1/1200 s each. -/
theorem MechanicalSimulationStepTimeDuration_spec_witness :
    NumMechanicalDynamicsIterations sample = 24 * 1
    ∧ MechanicalSimulationStepTimeDuration sample * NumMechanicalDynamicsIterations sample
        = SimulationStepTimeDuration := by
  have h := MechanicalSimulationStepTimeDuration_spec sample
    (by norm_num [sample, MinNumMechanicalDynamicsIterationsAdjustment])
    (by norm_num [sample, MaxNumMechanicalDynamicsIterationsAdjustment])
  exact ⟨h.2.2.1, h.2.2.2.2.2.2.1⟩

end GameParameters

/-! ## Theorems: ParameterSmoother -/

namespace ParameterSmoother

/-- With the current value at the target, `Update` changes nothing and calls no
setter. -/
theorem Update_of_eq (mSetter mClamper : ℚ → ℚ) (s : ParameterSmoother)
    (h : s.mCurrentValue = s.mTargetValue) :
    Update mSetter mClamper s = { smoother := s, setterCalls := [] } := by
  simp [Update, h]

/-- The distance to the target after the blend is `1 - k` times the distance before. -/
theorem Distance_converged (s : ParameterSmoother) (hk1 : s.mConvergenceFactor ≤ 1) :
    Distance (s.mCurrentValue + (s.mTargetValue - s.mCurrentValue) * s.mConvergenceFactor)
        s.mTargetValue
      = (1 - s.mConvergenceFactor) * Distance s.mCurrentValue s.mTargetValue := by
  unfold Distance
  have h : s.mCurrentValue + (s.mTargetValue - s.mCurrentValue) * s.mConvergenceFactor
      - s.mTargetValue = (1 - s.mConvergenceFactor) * (s.mCurrentValue - s.mTargetValue) := by
    ring
  rw [h, abs_mul, abs_of_nonneg (by linarith : (0 : ℚ) ≤ 1 - s.mConvergenceFactor)]

/-- One `Update` away from the target, with a setter and a clamper that return their
argument. -/
theorem Update_of_ne (s : ParameterSmoother) (hk1 : s.mConvergenceFactor ≤ 1)
    (h : s.mCurrentValue ≠ s.mTargetValue) :
    Update id id s
      = { smoother :=
            { s with
              mCurrentValue :=
                if (1 - s.mConvergenceFactor) * Distance s.mCurrentValue s.mTargetValue
                    < 1 / 10000 then s.mTargetValue
                else s.mCurrentValue
                  + (s.mTargetValue - s.mCurrentValue) * s.mConvergenceFactor }
          setterCalls :=
            [if (1 - s.mConvergenceFactor) * Distance s.mCurrentValue s.mTargetValue
                < 1 / 10000 then s.mTargetValue
              else s.mCurrentValue
                + (s.mTargetValue - s.mCurrentValue) * s.mConvergenceFactor] } := by
  unfold Update
  rw [if_pos h]
  simp only [Distance_converged s hk1, id]

/-- `Update` keeps the target and the convergence factor, with a setter and a clamper
that return their argument. -/
theorem Update_keeps (s : ParameterSmoother) :
    (Update id id s).smoother.mTargetValue = s.mTargetValue
    ∧ (Update id id s).smoother.mConvergenceFactor = s.mConvergenceFactor := by
  unfold Update
  by_cases h : s.mCurrentValue ≠ s.mTargetValue
  · rw [if_pos h]
    exact ⟨rfl, rfl⟩
  · rw [if_neg h]
    exact ⟨rfl, rfl⟩

/-- The distance to the target after one `Update`: zero once the blend brings it
below 0.0001, else `1 - k` times the distance before. -/
theorem Distance_Update (s : ParameterSmoother) (hk1 : s.mConvergenceFactor ≤ 1) :
    Distance (Update id id s).smoother.mCurrentValue s.mTargetValue
      = if (1 - s.mConvergenceFactor) * Distance s.mCurrentValue s.mTargetValue < 1 / 10000
        then 0
        else (1 - s.mConvergenceFactor) * Distance s.mCurrentValue s.mTargetValue := by
  by_cases h : s.mCurrentValue = s.mTargetValue
  · rw [Update_of_eq id id s h]
    have hd : Distance s.mCurrentValue s.mTargetValue = 0 := by simp [Distance, h]
    rw [hd]
    simp
  · rw [Update_of_ne s hk1 h]
    by_cases hc : (1 - s.mConvergenceFactor) * Distance s.mCurrentValue s.mTargetValue
        < 1 / 10000
    · simp only [if_pos hc]
      simp [Distance]
    · simp only [if_neg hc]
      exact Distance_converged s hk1

/-- The `n + 1` calls of `updates`, by the last call. -/
theorem updates_succ (n : Nat) (s : ParameterSmoother) :
    updates (n + 1) s = (Update id id (updates n s)).smoother := by
  induction n generalizing s with
  | zero => rfl
  | succ n ih =>
    show updates (n + 1) (Update id id s).smoother = _
    rw [ih]
    rfl

/-- Calls of `Update` keep the target and the convergence factor. -/
theorem updates_keeps (n : Nat) (s : ParameterSmoother) :
    (updates n s).mTargetValue = s.mTargetValue
    ∧ (updates n s).mConvergenceFactor = s.mConvergenceFactor := by
  induction n with
  | zero => exact ⟨rfl, rfl⟩
  | succ n ih =>
    rw [updates_succ]
    have h := Update_keeps (updates n s)
    exact ⟨h.1.trans ih.1, h.2.trans ih.2⟩

/-- After `n` calls the distance to the target is zero or `(1 - k) ^ n` times the
distance at the start. -/
theorem Distance_updates (n : Nat) (s : ParameterSmoother) (hk1 : s.mConvergenceFactor ≤ 1) :
    Distance (updates n s).mCurrentValue s.mTargetValue = 0
    ∨ Distance (updates n s).mCurrentValue s.mTargetValue
        = (1 - s.mConvergenceFactor) ^ n * Distance s.mCurrentValue s.mTargetValue := by
  induction n with
  | zero =>
    right
    simp [updates]
  | succ n ih =>
    have hk := updates_keeps n s
    have hstep := Distance_Update (updates n s) (by rw [hk.2]; exact hk1)
    rw [hk.1, hk.2] at hstep
    rw [updates_succ, hstep]
    by_cases hc : (1 - s.mConvergenceFactor) * Distance (updates n s).mCurrentValue
        s.mTargetValue < 1 / 10000
    · left
      rw [if_pos hc]
    · rw [if_neg hc]
      rcases ih with h0 | hpow
      · left
        rw [h0]
        ring
      · right
        rw [hpow]
        ring

/-- Once the current value is the target, further calls leave the smoother as it is. -/
theorem updates_of_eq (n : Nat) (s : ParameterSmoother)
    (h : s.mCurrentValue = s.mTargetValue) : updates n s = s := by
  induction n with
  | zero => rfl
  | succ n ih =>
    rw [updates_succ, ih, Update_of_eq id id s h]

/-- The calls of `updates` compose. -/
theorem updates_add (m n : Nat) (s : ParameterSmoother) :
    updates (m + n) s = updates m (updates n s) := by
  induction m with
  | zero => simp [updates]
  | succ m ih =>
    rw [Nat.succ_add, updates_succ, updates_succ, ih]

/-- C30. Convergence of `ParameterSmoother::Update` in exact arithmetic, for a scalar
value, a setter and a clamper that return their argument and a convergence factor
`0 < k <= 1`. An `Update` with current != target keeps the target, passes the new
current value to the setter once, and the new current value lies between the old
one and the target; it is the target when `(1 - k) *` the old distance is below
0.0001, and otherwise it is at distance `(1 - k) *` the old distance. After some
number of calls, and after every larger number, the current value is exactly the
target, and a further `Update` changes nothing and calls no setter. -/
theorem Update_converges (s : ParameterSmoother) (hk0 : 0 < s.mConvergenceFactor)
    (hk1 : s.mConvergenceFactor ≤ 1) :
    (s.mCurrentValue ≠ s.mTargetValue →
      (Update id id s).smoother.mTargetValue = s.mTargetValue
      ∧ (Update id id s).setterCalls = [(Update id id s).smoother.mCurrentValue]
      ∧ min s.mCurrentValue s.mTargetValue ≤ (Update id id s).smoother.mCurrentValue
      ∧ (Update id id s).smoother.mCurrentValue ≤ max s.mCurrentValue s.mTargetValue
      ∧ ((1 - s.mConvergenceFactor) * Distance s.mCurrentValue s.mTargetValue < 1 / 10000 →
          (Update id id s).smoother.mCurrentValue = s.mTargetValue)
      ∧ (¬ (1 - s.mConvergenceFactor) * Distance s.mCurrentValue s.mTargetValue < 1 / 10000 →
          Distance (Update id id s).smoother.mCurrentValue s.mTargetValue
            = (1 - s.mConvergenceFactor) * Distance s.mCurrentValue s.mTargetValue))
    ∧ ∃ n : Nat, ∀ m : Nat, n ≤ m →
        (updates m s).mCurrentValue = s.mTargetValue
        ∧ (updates m s).mTargetValue = s.mTargetValue
        ∧ Update id id (updates m s) = { smoother := updates m s, setterCalls := [] } := by
  constructor
  · intro hne
    rw [Update_of_ne s hk1 hne]
    refine ⟨rfl, rfl, ?_, ?_, ?_, ?_⟩
    · show min s.mCurrentValue s.mTargetValue ≤ ite _ _ _
      split_ifs
      · exact min_le_right _ _
      · rcases le_total s.mCurrentValue s.mTargetValue with h | h
        · rw [min_eq_left h]
          nlinarith
        · rw [min_eq_right h]
          nlinarith
    · show ite _ _ _ ≤ max s.mCurrentValue s.mTargetValue
      split_ifs
      · exact le_max_right _ _
      · rcases le_total s.mCurrentValue s.mTargetValue with h | h
        · rw [max_eq_right h]
          nlinarith
        · rw [max_eq_left h]
          nlinarith
    · intro hc
      show ite _ _ _ = _
      rw [if_pos hc]
    · intro hc
      show Distance (ite _ _ _) _ = _
      rw [if_neg hc]
      exact Distance_converged s hk1
  · -- a number of calls after which the blend is below the threshold
    have hq0 : (0 : ℚ) ≤ 1 - s.mConvergenceFactor := by linarith
    have hq1 : 1 - s.mConvergenceFactor < 1 := by linarith
    have hd0 : 0 ≤ Distance s.mCurrentValue s.mTargetValue := abs_nonneg _
    obtain ⟨n, hn⟩ : ∃ n : Nat,
        (1 - s.mConvergenceFactor) ^ n * Distance s.mCurrentValue s.mTargetValue
          < 1 / 10000 := by
      by_cases hz : Distance s.mCurrentValue s.mTargetValue = 0
      · exact ⟨0, by rw [hz]; norm_num⟩
      · have hpos : 0 < Distance s.mCurrentValue s.mTargetValue :=
          lt_of_le_of_ne hd0 (Ne.symm hz)
        obtain ⟨n, hn⟩ := exists_pow_lt_of_lt_one
          (div_pos (by norm_num : (0 : ℚ) < 1 / 10000) hpos) hq1
        exact ⟨n, (lt_div_iff₀ hpos).mp hn⟩
    have hreach : (updates (n + 1) s).mCurrentValue = s.mTargetValue := by
      have hk := updates_keeps n s
      have hstep := Distance_Update (updates n s) (by rw [hk.2]; exact hk1)
      rw [hk.1, hk.2] at hstep
      have hsmall : (1 - s.mConvergenceFactor)
          * Distance (updates n s).mCurrentValue s.mTargetValue < 1 / 10000 := by
        rcases Distance_updates n s hk1 with h0 | hpow
        · rw [h0]
          norm_num
        · rw [hpow]
          have hle : (1 - s.mConvergenceFactor)
              * ((1 - s.mConvergenceFactor) ^ n * Distance s.mCurrentValue s.mTargetValue)
              ≤ (1 - s.mConvergenceFactor) ^ n * Distance s.mCurrentValue s.mTargetValue :=
            mul_le_of_le_one_left (mul_nonneg (pow_nonneg hq0 n) hd0) (by linarith)
          linarith
      rw [if_pos hsmall] at hstep
      rw [updates_succ]
      have := abs_eq_zero.mp hstep
      linarith
    refine ⟨n + 1, fun m hm => ?_⟩
    have hfix : (updates (n + 1) s).mCurrentValue = (updates (n + 1) s).mTargetValue := by
      rw [hreach, (updates_keeps (n + 1) s).1]
    have hm' : updates m s = updates (n + 1) s := by
      obtain ⟨k, rfl⟩ := Nat.exists_eq_add_of_le hm
      rw [Nat.add_comm (n + 1) k, updates_add, updates_of_eq k _ hfix]
    rw [hm']
    exact ⟨hreach, (updates_keeps (n + 1) s).1, Update_of_eq id id _ hfix⟩

/-- Witness of C30: from 0 towards 1 with `k = 1/2` one `Update` gives 1/2, at half
the distance; with `k = 1` one `Update` reaches the target. -/
theorem Update_converges_witness :
    (Update id id ⟨1 / 2, 0, 1⟩).smoother.mCurrentValue ≤ max 0 1
    ∧ Distance (Update id id ⟨1 / 2, 0, 1⟩).smoother.mCurrentValue 1
        = (1 - 1 / 2) * Distance 0 1 := by
  have h := (Update_converges ⟨1 / 2, 0, 1⟩ (by norm_num) (by norm_num)).1 (by norm_num)
  exact ⟨h.2.2.2.1, h.2.2.2.2.2 (by norm_num [Distance])⟩

end ParameterSmoother

end FloatingSandbox
